import Mathlib

/-!
# VC-2 HQ/LD codec: data units, sequence headers and the CBR quantiser search

A shallow embedding of `src/Library/src/DataUnit.cpp` (parse-info framing, the
sequence header and its video-format projection, stream synchronisation) and of
`quantIndices` from `src/EncodeHQ_CBR/EncodeHQ_CRB_Test.cpp`.

Conventions.
* C `int` fields are `Int`; `unsigned int` values are `Nat` reduced modulo `2^32`
  at the places where the source converts to `unsigned int`.
* A stream is the list of its bytes; a byte is a `Nat` below 256.
* A C++ exception is `Except.error` carrying the message of the `throw`.
-/

namespace VC2

deriving instance DecidableEq for Except

/-! ## Enumerations declared in the library headers -/

/-- Profiles named by `DataUnit.cpp`. -/
inductive Profile where
  | PROFILE_UNKNOWN
  | PROFILE_LD
  | PROFILE_HQ
  deriving DecidableEq

/-- Colour formats (`{UNKNOWN, CF444, CF422, CF420, RGB}` in the encoder). -/
inductive ColourFormat where
  | UNKNOWN
  | CF444
  | CF422
  | CF420
  | RGB
  deriving DecidableEq

/-- Frame rates named by `DataUnit.cpp`; `FR0` is the value of a default header. -/
inductive FrameRate where
  | FR0
  | FR24000_1001
  | FR24
  | FR25
  | FR30000_1001
  | FR30
  | FR50
  | FR60000_1001
  | FR60
  | FR15000_1001
  | FR25_2
  | FR48
  deriving DecidableEq

/-- Wavelet kernels, in the order of the encoder's comment; the position is the wavelet index. -/
inductive WaveletKernel where
  | DD97
  | LeGall
  | DD137
  | Haar0
  | Haar1
  | Fidelity
  | Daub97
  | NullKernel
  deriving DecidableEq

/-- Data unit types of `DataUnit.cpp`. -/
inductive DataUnitType where
  | SEQUENCE_HEADER
  | END_OF_SEQUENCE
  | AUXILIARY_DATA
  | PADDING_DATA
  | LD_PICTURE
  | HQ_PICTURE
  | UNKNOWN_DATA_UNIT
  deriving DecidableEq

/-! ## Sequence header and its video-format projection -/

/-- The fields of `SequenceHeader`. -/
structure SequenceHeader where
  major_version : Int
  minor_version : Int
  profile : Profile
  width : Int
  height : Int
  chromaFormat : ColourFormat
  interlace : Bool
  frameRate : FrameRate
  topFieldFirst : Bool
  bitdepth : Int
  deriving DecidableEq

/-- Constructor `SequenceHeader::SequenceHeader()`. -/
def SequenceHeader.default : SequenceHeader :=
  { major_version := 1, minor_version := 0, profile := .PROFILE_UNKNOWN, width := 0, height := 0,
    chromaFormat := .CF444, interlace := false, frameRate := .FR0, topFieldFirst := false,
    bitdepth := 0 }

/-- Constructor `SequenceHeader::SequenceHeader(p, h, w, c, i, f, tff, bd)`: height comes
before width, and the major version is 2 for the HQ profile. -/
def SequenceHeader.make (p : Profile) (h w : Int) (c : ColourFormat) (i : Bool) (f : FrameRate)
    (tff : Bool) (bd : Int) : SequenceHeader :=
  { major_version := if p = .PROFILE_HQ then 2 else 1, minor_version := 0, profile := p,
    width := w, height := h, chromaFormat := c, interlace := i, frameRate := f,
    topFieldFirst := tff, bitdepth := bd }

/-- The fields of `struct video_format`. -/
structure video_format where
  major_version : Int
  minor_version : Int
  profile : Int
  level : Int
  base_video_format : Int
  custom_dimensions_flag : Bool
  frame_width : Int
  frame_height : Int
  custom_scan_format_flag : Bool
  source_sampling : Int
  custom_signal_range_flag : Bool
  bitdepth : Int
  custom_frame_rate_flag : Bool
  frame_rate : FrameRate
  picture_coding_mode : Int
  deriving DecidableEq

/-- The member initialiser list shared by both `video_format` constructors. The default
constructor leaves `picture_coding_mode` unset; it is 0 here. -/
def video_format.init : video_format :=
  { major_version := 0, minor_version := 0, profile := 0, level := 0, base_video_format := 0,
    custom_dimensions_flag := false, frame_width := 0, frame_height := 0,
    custom_scan_format_flag := false, source_sampling := 0, custom_signal_range_flag := false,
    bitdepth := 0, custom_frame_rate_flag := false, frame_rate := .FR0,
    picture_coding_mode := 0 }

/-- The helper `PictureFormatMatches`. -/
def PictureFormatMatches (fmt : SequenceHeader) (w h : Int) (cf : ColourFormat) (r : FrameRate)
    (bd : Int) : Bool :=
  fmt.width == w && fmt.height == h && fmt.chromaFormat == cf && fmt.frameRate == r &&
    fmt.bitdepth == bd

/-- A preset hit: `{ base_video_format = b; level = l; }`. -/
def video_format.preset (v : video_format) (b l : Int) : video_format :=
  { v with base_video_format := b, level := l }

/-- A preset hit that also sets `custom_scan_format_flag = true; source_sampling = 0`. -/
def video_format.presetScan (v : video_format) (b l : Int) : video_format :=
  { v with base_video_format := b, level := l, custom_scan_format_flag := true,
           source_sampling := 0 }

/-- The `if (fmt.interlace) ... else ...` cascade of preset tests of the projecting
constructor (lines 294-352). -/
def video_format.matchPresets (fmt : SequenceHeader) (v : video_format) : video_format :=
  if fmt.interlace then
    if PictureFormatMatches fmt 720 480 .CF422 .FR30000_1001 10 then v.preset 7 2
    else if PictureFormatMatches fmt 720 576 .CF422 .FR25 10 then v.preset 8 2
    else if PictureFormatMatches fmt 720 486 .CF422 .FR30000_1001 10 then v.preset 22 2
    else if fmt.chromaFormat == .CF422 && fmt.width == 720 && decide (fmt.height ≥ 480) &&
        decide (fmt.height ≤ 486) && fmt.frameRate == .FR30000_1001 && fmt.bitdepth == 10 then
      { v with base_video_format := 7, level := 2, custom_dimensions_flag := true,
               frame_width := fmt.width, frame_height := fmt.height }
    else if PictureFormatMatches fmt 1920 1080 .CF422 .FR30000_1001 10 then v.preset 11 3
    else if PictureFormatMatches fmt 1920 1080 .CF422 .FR25 10 then v.preset 12 3
    else v
  else
    if PictureFormatMatches fmt 176 120 .CF420 .FR15000_1001 8 then v.preset 1 1
    else if PictureFormatMatches fmt 176 144 .CF420 .FR25_2 8 then v.preset 2 1
    else if PictureFormatMatches fmt 352 240 .CF420 .FR15000_1001 8 then v.preset 3 1
    else if PictureFormatMatches fmt 352 288 .CF420 .FR25_2 8 then v.preset 4 1
    else if PictureFormatMatches fmt 704 480 .CF420 .FR15000_1001 8 then v.preset 5 1
    else if PictureFormatMatches fmt 704 576 .CF420 .FR25_2 8 then v.preset 6 1
    else if PictureFormatMatches fmt 720 480 .CF422 .FR30000_1001 10 then v.presetScan 7 2
    else if PictureFormatMatches fmt 720 576 .CF422 .FR25 10 then v.presetScan 8 2
    else if PictureFormatMatches fmt 720 486 .CF422 .FR30000_1001 10 then v.presetScan 22 2
    else if PictureFormatMatches fmt 1280 720 .CF422 .FR60000_1001 10 then v.preset 9 3
    else if PictureFormatMatches fmt 1280 720 .CF422 .FR50 10 then v.preset 10 3
    else if PictureFormatMatches fmt 1920 1080 .CF422 .FR30000_1001 10 then v.presetScan 11 3
    else if PictureFormatMatches fmt 1920 1080 .CF422 .FR25 10 then v.presetScan 12 3
    else if PictureFormatMatches fmt 1920 1080 .CF422 .FR60000_1001 10 then v.preset 13 3
    else if PictureFormatMatches fmt 1920 1080 .CF422 .FR50 10 then v.preset 14 3
    else if PictureFormatMatches fmt 1920 1080 .CF422 .FR24000_1001 10 then v.preset 21 3
    else if PictureFormatMatches fmt 2048 1080 .CF444 .FR24 12 then v.preset 15 4
    else if PictureFormatMatches fmt 2048 1080 .CF444 .FR48 12 then
      { v with base_video_format := 15, level := 4, custom_frame_rate_flag := true,
               frame_rate := .FR48 }
    else if PictureFormatMatches fmt 4096 2160 .CF444 .FR24 12 then v.preset 16 5
    else if PictureFormatMatches fmt 3840 2160 .CF422 .FR60000_1001 10 then v.preset 17 6
    else if PictureFormatMatches fmt 3840 2160 .CF422 .FR50 10 then v.preset 18 6
    else if PictureFormatMatches fmt 7680 4320 .CF422 .FR60000_1001 10 then v.preset 19 7
    else if PictureFormatMatches fmt 7680 4320 .CF422 .FR50 10 then v.preset 20 7
    else v

/-- The `if (base_video_format == 0)` block (lines 354-378): custom flags relative to
640x480, progressive, 24000/1001, 8 bit; an unsupported bit depth throws. -/
def video_format.customFallback (fmt : SequenceHeader) (v : video_format) :
    Except String video_format :=
  if v.base_video_format = 0 then
    let v1 := if fmt.interlace then
        { v with custom_scan_format_flag := true, source_sampling := 1 } else v
    let v2 := if fmt.width ≠ 640 ∨ fmt.height ≠ 480 then
        { v1 with custom_dimensions_flag := true, frame_width := fmt.width,
                  frame_height := fmt.height } else v1
    let v3 := if fmt.frameRate ≠ .FR24000_1001 then
        { v2 with custom_frame_rate_flag := true, frame_rate := fmt.frameRate } else v2
    if fmt.bitdepth ≠ 8 then
      let v4 := { v3 with custom_signal_range_flag := true }
      if fmt.bitdepth = 8 then .ok { v4 with bitdepth := 1 }
      else if fmt.bitdepth = 10 then .ok { v4 with bitdepth := 3 }
      else if fmt.bitdepth = 12 then .ok { v4 with bitdepth := 4 }
      else .error "DataUnitIO: invalid bit depth"
    else .ok v3
  else .ok v

/-- Constructor `video_format::video_format(const SequenceHeader &fmt)`. -/
def video_format.ofSequenceHeader (fmt : SequenceHeader) : Except String video_format :=
  let v0 : video_format :=
    { video_format.init with
      major_version := fmt.major_version
      minor_version := fmt.minor_version
      profile := match fmt.profile with
        | .PROFILE_LD => 0
        | .PROFILE_HQ => 3
        | .PROFILE_UNKNOWN => 0 }
  match video_format.customFallback fmt (video_format.matchPresets fmt v0) with
  | .error e => .error e
  | .ok v => .ok { v with picture_coding_mode := if fmt.interlace then 1 else 0 }

/-! ## The table of base video formats, as the specification prints it -/

/-- One row of the specification's `base_video_format` table. -/
structure TableRow where
  width : Int
  height : Int
  chromaFormat : ColourFormat
  interlace : Bool
  frameRate : FrameRate
  bitdepth : Int
  deriving DecidableEq

/-- The `base_video_format` table of the specification (section 6), rows 0 to 22, written
from the specification's text and not from the code. -/
def base_video_format_table : List TableRow :=
  [ ⟨640, 480, .CF420, false, .FR24000_1001, 8⟩,
    ⟨176, 120, .CF420, false, .FR15000_1001, 8⟩,
    ⟨176, 144, .CF420, false, .FR25_2, 8⟩,
    ⟨352, 240, .CF420, false, .FR15000_1001, 8⟩,
    ⟨352, 288, .CF420, false, .FR25_2, 8⟩,
    ⟨704, 480, .CF420, false, .FR15000_1001, 8⟩,
    ⟨704, 576, .CF420, false, .FR25_2, 8⟩,
    ⟨720, 480, .CF422, true, .FR30000_1001, 10⟩,
    ⟨720, 576, .CF422, true, .FR25, 10⟩,
    ⟨1280, 720, .CF422, false, .FR60000_1001, 10⟩,
    ⟨1280, 720, .CF422, false, .FR50, 10⟩,
    ⟨1920, 1080, .CF422, true, .FR30000_1001, 10⟩,
    ⟨1920, 1080, .CF422, true, .FR25, 10⟩,
    ⟨1920, 1080, .CF422, false, .FR60000_1001, 10⟩,
    ⟨1920, 1080, .CF422, false, .FR50, 10⟩,
    ⟨2048, 1080, .CF444, false, .FR24, 12⟩,
    ⟨4096, 2160, .CF444, false, .FR24, 12⟩,
    ⟨3840, 2160, .CF422, false, .FR60000_1001, 10⟩,
    ⟨3840, 2160, .CF422, false, .FR50, 10⟩,
    ⟨7680, 4320, .CF422, false, .FR60000_1001, 10⟩,
    ⟨7680, 4320, .CF422, false, .FR50, 10⟩,
    ⟨1920, 1080, .CF422, false, .FR24000_1001, 10⟩,
    ⟨720, 486, .CF422, true, .FR30000_1001, 10⟩ ]

/-- The six table parameters of a header. -/
def SequenceHeader.row (h : SequenceHeader) : TableRow :=
  ⟨h.width, h.height, h.chromaFormat, h.interlace, h.frameRate, h.bitdepth⟩

/-! ## Byte and bit output -/

/-- Modelled from the spec: the `Bytes(n, v)` writer of `Utils.h` (not in src), a
fixed-width unsigned big-endian field: the `n` low-order bytes of `v`, most significant first. -/
def bytesBE : Nat → Nat → List Nat
  | 0, _ => []
  | n + 1, v => (v / 256 ^ n) % 256 :: bytesBE n v

/-- The value of a big-endian byte string. -/
def valueBE (bs : List Nat) : Nat :=
  bs.foldl (fun a b => 256 * a + b) 0

/-- Conversion of an `int` to `unsigned int`. -/
def toUnsigned (x : Int) : Nat :=
  (x % 4294967296).toNat

/-- The binary digits of `m` below its leading one, most significant first; `f` bounds the
number of digits produced and `f = m` is always enough. -/
def dataBits : Nat → Nat → List Bool
  | 0, _ => []
  | f + 1, m => if m ≤ 1 then [] else dataBits f (m / 2) ++ [m % 2 == 1]

/-- Modelled from the spec: the writer of `UnsignedVLC(n)` in `VLC.h` (not in src), the
unsigned interleaved exp-Golomb code: for each binary digit of `n + 1` below the leading
one a `0` followed by that digit, then a closing `1`. -/
def UnsignedVLC (n : Nat) : List Bool :=
  ((dataBits (n + 1) (n + 1)).flatMap fun b => [false, b]) ++ [true]

/-- `UnsignedVLC(x)` for an `int` argument: the argument converts to `unsigned int`. -/
def UnsignedVLCInt (x : Int) : List Bool :=
  UnsignedVLC (toUnsigned x)

/-- Modelled from the spec: `Boolean(b)` of `VLC.h` (not in src) is a single bit. -/
def Boolean (b : Bool) : List Bool :=
  [b]

/-- The byte whose binary digits are `bs`, most significant first. -/
def byteOfBits (bs : List Bool) : Nat :=
  bs.foldl (fun a b => 2 * a + (if b then 1 else 0)) 0

/-- Modelled from the spec: `vlc::align` of `VLC.h` (not in src) followed by the flush of
the bit sink: the bits are packed eight to a byte, most significant first, and the last
byte is completed with zero bits. -/
def packBits : List Bool → List Nat
  | b0 :: b1 :: b2 :: b3 :: b4 :: b5 :: b6 :: b7 :: rest =>
      byteOfBits [b0, b1, b2, b3, b4, b5, b6, b7] :: packBits rest
  | [] => []
  | b0 :: rest => [byteOfBits ((b0 :: rest) ++ List.replicate (7 - rest.length) false)]

/-! ## Output stream state and parse-info -/

/-- Slice-IO modes of `sliceio` (`Slices.h` is not in src; the names are those used by
`DataUnit.cpp`). `UNKNOWN` stands for every other value of the stream slot. -/
inductive SliceIOMode where
  | UNKNOWN
  | LD
  | HQVBR
  | HQCBR
  deriving DecidableEq

/-- What one written parse-info carried: its parse code, `next_parse_offset` and
`prev_parse_offset`. -/
structure ParseInfoRecord where
  parse_code : Nat
  next_parse_offset : Nat
  prev_parse_offset : Nat
  deriving DecidableEq

/-- An output stream with the two slots `DataUnit.cpp` attaches to it: the bytes written
so far, `prev_parse_offset(stream)` and `sliceio::sliceIOMode(stream)`. `infos` records the
parse-infos written, in order, for stating properties; no operation reads it. The slot is a
`long`, taken wide enough to hold every `unsigned int`. -/
structure OStream where
  bytes : List Nat
  prev_parse_offset : Nat
  sliceIOMode : SliceIOMode
  infos : List ParseInfoRecord
  deriving DecidableEq

/-- The class `ParseInfoIO`. -/
structure ParseInfoIO where
  type : DataUnitType
  next_parse_offset : Nat
  deriving DecidableEq

/-- Constructor `ParseInfoIO(du)`. -/
def ParseInfoIO.ofType (du : DataUnitType) : ParseInfoIO :=
  { type := du, next_parse_offset := 0 }

/-- Constructor `ParseInfoIO(du, data_size)`: both the parameter and the member are
`unsigned int`, so the size and the sum are taken modulo `2^32`. -/
def ParseInfoIO.ofSize (du : DataUnitType) (data_size : Nat) : ParseInfoIO :=
  { type := du, next_parse_offset := (data_size % 4294967296 + 13) % 4294967296 }

/-- Member `ParseInfoIO::parse_code`. -/
def ParseInfoIO.parse_code ( piio : ParseInfoIO) : Nat :=
  match piio.type with
  | .SEQUENCE_HEADER => 0x00
  | .END_OF_SEQUENCE => 0x10
  | .LD_PICTURE => 0xC8
  | .HQ_PICTURE => 0xE8
  | _ => 0x20

/-- Append bytes to the stream (`stream << ss.str()`). -/
def OStream.writeBytes (stream : OStream) (bs : List Nat) : OStream :=
  { stream with bytes := stream.bytes ++ bs }

/-- The 13 bytes of `operator << (std::ostream&, const ParseInfoIO&)`. -/
def ParseInfoIO.bytes ( piio : ParseInfoIO) (prev : Nat) : List Nat :=
  bytesBE 1 0x42 ++ bytesBE 1 0x42 ++ bytesBE 1 0x43 ++ bytesBE 1 0x44 ++
    bytesBE 1 piio.parse_code ++ bytesBE 4 piio.next_parse_offset ++ bytesBE 4 prev

/-- The operator `operator << (std::ostream&, const ParseInfoIO&)`. -/
def OStream.writeParseInfo (stream : OStream) ( piio : ParseInfoIO) : OStream :=
  { stream with
    bytes := stream.bytes ++ piio.bytes stream.prev_parse_offset
    prev_parse_offset := piio.next_parse_offset
    infos := stream.infos ++
      [⟨piio.parse_code, piio.next_parse_offset % 4294967296,
        stream.prev_parse_offset % 4294967296⟩] }

/-! ## Wrapped pictures -/

/-- The type `utils::Rational` (`Utils.h` is not in src): a numerator and a denominator. -/
structure Rational where
  numerator : Int
  denominator : Int
  deriving DecidableEq

/-- The class `Slices` of `Slices.h` (not in src). The data-unit writers only serialise a
`Slices` value with `ss << d.slices`, so it is represented by the bytes that writer
produces under each slice-IO mode. -/
structure Slices where
  write : SliceIOMode → List Nat

/-- The class `WrappedPicture`. -/
structure WrappedPicture where
  picture_number : Nat
  wavelet_kernel : WaveletKernel
  depth : Int
  slices_x : Int
  slices_y : Int
  slice_prefix : Int
  slice_size_scalar : Int
  slice_bytes : Rational
  slices : Slices

/-- The numeric value of a `WaveletKernel` enumerator. -/
def WaveletKernel.index : WaveletKernel → Nat
  | .DD97 => 0
  | .LeGall => 1
  | .DD137 => 2
  | .Haar0 => 3
  | .Haar1 => 4
  | .Fidelity => 5
  | .Daub97 => 6
  | .NullKernel => 7

/-- The picture header and transform parameters that `LDWrappedPictureIO` writes to `ss`
before the transform data: the picture number in 4 bytes, six VLCs, a false Boolean, and
`vlc::align`. -/
def LDPreamble (d : WrappedPicture) : List Nat :=
  bytesBE 4 d.picture_number ++
    packBits (UnsignedVLC d.wavelet_kernel.index ++ UnsignedVLCInt d.depth ++
      UnsignedVLCInt d.slices_x ++ UnsignedVLCInt d.slices_y ++
      UnsignedVLCInt d.slice_bytes.numerator ++ UnsignedVLCInt d.slice_bytes.denominator ++
      Boolean false)

/-- The payload `ss.str()` that `LDWrappedPictureIO` builds: picture header, transform
parameters, then the transform data `ss << d.slices`. -/
def LDPayload (mode : SliceIOMode) (d : WrappedPicture) : List Nat :=
  LDPreamble d ++ d.slices.write mode

/-- The function `LDWrappedPictureIO`. -/
def LDWrappedPictureIO (stream : OStream) (d : WrappedPicture) : OStream :=
  let ss := LDPayload stream.sliceIOMode d
  (stream.writeParseInfo ( ParseInfoIO.ofSize .LD_PICTURE ss.length)).writeBytes ss

/-- The function `HQWrappedPictureIO`: the picture header, the transform parameters and the
parse-info are commented out in the source, only the transform data is written. -/
def HQWrappedPictureIO (stream : OStream) (d : WrappedPicture) : OStream :=
  let ss := d.slices.write stream.sliceIOMode
  stream.writeBytes ss

/-- The operator `operator << (std::ostream&, const WrappedPicture&)`. -/
def writeWrappedPicture (stream : OStream) (d : WrappedPicture) : Except String OStream :=
  match stream.sliceIOMode with
  | .LD => .ok ( LDWrappedPictureIO stream d)
  | .HQVBR => .ok ( HQWrappedPictureIO stream d)
  | .HQCBR => .ok ( HQWrappedPictureIO stream d)
  | .UNKNOWN => .error "DataUnitIO: Unknown Output Format"

/-- The manipulator `dataunitio::start_sequence`. -/
def start_sequence (stream : OStream) : OStream :=
  { stream with prev_parse_offset := 0 }

/-- The manipulator `dataunitio::end_sequence`. -/
def end_sequence (stream : OStream) : OStream :=
  { stream.writeParseInfo ( ParseInfoIO.ofType .END_OF_SEQUENCE) with prev_parse_offset := 0 }

/-! ## Writing a sequence header -/

/-- The `switch (fmt.frame_rate)` of the video-format writer: the VLC index of a frame
rate, or none where the source throws. -/
def FrameRate.index : FrameRate → Option Nat
  | .FR24000_1001 => some 1
  | .FR24 => some 2
  | .FR25 => some 3
  | .FR30000_1001 => some 4
  | .FR30 => some 5
  | .FR50 => some 6
  | .FR60000_1001 => some 7
  | .FR60 => some 8
  | .FR15000_1001 => some 9
  | .FR25_2 => some 10
  | .FR48 => some 11
  | .FR0 => none

/-- The bits written by `operator << (std::ostream&, const video_format&)` before
`vlc::align`. -/
def video_format.bits (fmt : video_format) : Except String (List Bool) :=
  let versions := UnsignedVLCInt fmt.major_version ++ UnsignedVLCInt fmt.minor_version ++
    UnsignedVLCInt fmt.profile ++ UnsignedVLCInt fmt.level
  let base := UnsignedVLCInt fmt.base_video_format
  let dims := Boolean fmt.custom_dimensions_flag ++
    (if fmt.custom_dimensions_flag then
      UnsignedVLCInt fmt.frame_width ++ UnsignedVLCInt fmt.frame_height else [])
  let diff := Boolean false
  let scan := Boolean fmt.custom_scan_format_flag ++
    (if fmt.custom_scan_format_flag then UnsignedVLCInt fmt.source_sampling else [])
  let rateFlag := Boolean fmt.custom_frame_rate_flag
  let tail := Boolean false ++ Boolean false ++
    Boolean fmt.custom_signal_range_flag ++
    (if fmt.custom_signal_range_flag then UnsignedVLCInt fmt.bitdepth else []) ++
    Boolean false ++ UnsignedVLCInt fmt.picture_coding_mode
  if fmt.custom_frame_rate_flag then
    match fmt.frame_rate.index with
    | some i => .ok (versions ++ base ++ dims ++ diff ++ scan ++ rateFlag ++ UnsignedVLC i ++ tail)
    | none => .error "DataUnitIO: Invalid Frame Rate"
  else .ok (versions ++ base ++ dims ++ diff ++ scan ++ rateFlag ++ tail)

/-- The payload `ss.str()` built by `operator << (std::ostream&, const SequenceHeader&)`:
the projection of the header, written and byte-aligned. -/
def SequenceHeader.payload (s : SequenceHeader) : Except String (List Nat) :=
  match video_format.ofSequenceHeader s with
  | .error e => .error e
  | .ok fmt =>
    match fmt.bits with
    | .error e => .error e
    | .ok bits => .ok (packBits bits)

/-- The operator `operator << (std::ostream&, const SequenceHeader&)`. -/
def writeSequenceHeader (stream : OStream) (s : SequenceHeader) : Except String OStream :=
  match s.payload with
  | .error e => .error e
  | .ok ss =>
    .ok ((stream.writeParseInfo ( ParseInfoIO.ofSize .SEQUENCE_HEADER ss.length)).writeBytes ss)

/-- One write of the body of a sequence: a sequence header, a wrapped picture, or a change
of the stream's slice-IO mode (the manipulators `lowDelay`, `highQualityCBR`, ...). -/
inductive WriteOp where
  | header (s : SequenceHeader)
  | picture (d : WrappedPicture)
  | mode (m : SliceIOMode)

/-- Perform one write. -/
def WriteOp.run (stream : OStream) : WriteOp → Except String OStream
  | .header s => writeSequenceHeader stream s
  | .picture d => writeWrappedPicture stream d
  | .mode m => .ok { stream with sliceIOMode := m }

/-- Perform writes in order; the first exception ends the run. -/
def runWrites (stream : OStream) : List WriteOp → Except String OStream
  | [] => .ok stream
  | op :: ops =>
    match op.run stream with
    | .error e => .error e
    | .ok stream1 => runWrites stream1 ops

/-- A whole sequence: `start_sequence`, the body, `end_sequence`. -/
def writeSequence (stream : OStream) (body : List WriteOp) : Except String OStream :=
  match runWrites (start_sequence stream) body with
  | .error e => .error e
  | .ok stream1 => .ok (end_sequence stream1)

/-- The parse-info chain: the first `prev_parse_offset` is `p`, each later one equals the
`next_parse_offset` written just before it. -/
def chainFrom (p : Nat) : List ParseInfoRecord → Prop
  | [] => True
  | r :: rs => r.prev_parse_offset = p ∧ chainFrom r.next_parse_offset rs

/-! ## Input stream, synchronisation and the data-unit reader -/

/-- An input stream: the bytes not yet consumed and the state tested by `while (stream)`. -/
structure IStream where
  rest : List Nat
  good : Bool
  deriving DecidableEq

/-- Modelled from the spec: the reader of one byte underlying `stream >> Bytes` (`Utils.h`
is not in src). A good stream delivers its next byte; at the end of input the stream goes
to the failed state and 0 is delivered; a failed stream stays as it is. -/
def IStream.readByte (stream : IStream) : Nat × IStream :=
  if stream.good then
    match stream.rest with
    | [] => (0, { stream with good := false })
    | b :: r => (b, { stream with rest := r })
  else (0, stream)

/-- Modelled from the spec: `stream >> Bytes(n)` (`Utils.h` is not in src), a fixed-width
unsigned big-endian field read byte by byte. -/
def IStream.readBytes : Nat → IStream → Nat × IStream
  | 0, stream => (0, stream)
  | n + 1, stream =>
    let r1 := stream.readByte
    let r2 := IStream.readBytes n r1.2
    (r1.1 * 256 ^ n + r2.1, r2.2)

/-- The measure that decreases along the iterations of `synchronise`. -/
def IStream.measure (stream : IStream) : Nat :=
  2 * stream.rest.length + (if stream.good then 1 else 0)

/-- The function `dataunitio::synchronise`: one iteration of the `while (stream)` loop reads
up to four bytes and starts over at the first one that is not the expected prefix byte. -/
def synchronise (stream : IStream) : IStream :=
  if h : stream.good = true then
    let r1 := stream.readByte
    if 0x42 ≠ r1.1 then synchronise r1.2
    else
      let r2 := r1.2.readByte
      if 0x42 ≠ r2.1 then synchronise r2.2
      else
        let r3 := r2.2.readByte
        if 0x43 ≠ r3.1 then synchronise r3.2
        else
          let r4 := r3.2.readByte
          if 0x44 ≠ r4.1 then synchronise r4.2
          else r4.2
  else stream
termination_by stream.measure
decreasing_by
  all_goals simp_wf
  all_goals
    have hle : ∀ s : IStream, s.readByte.2.measure ≤ s.measure := by
      intro s
      obtain ⟨rest, good⟩ := s
      cases good <;> cases rest <;> simp [IStream.readByte, IStream.measure]
    have hlt : stream.readByte.2.measure < stream.measure := by
      obtain ⟨rest, good⟩ := stream
      cases good <;> cases rest <;> simp_all [IStream.readByte, IStream.measure]
  · exact hlt
  · exact lt_of_le_of_lt (hle _) hlt
  · exact lt_of_le_of_lt (hle _) (lt_of_le_of_lt (hle _) hlt)
  · exact lt_of_le_of_lt (hle _) (lt_of_le_of_lt (hle _) (lt_of_le_of_lt (hle _) hlt))

/-- The `switch ((unsigned char)type)` of the data-unit reader. -/
def DataUnitType.ofParseCode (code : Nat) : DataUnitType :=
  if code = 0x00 then .SEQUENCE_HEADER
  else if code = 0x10 then .END_OF_SEQUENCE
  else if code = 0x20 then .AUXILIARY_DATA
  else if code = 0x30 then .PADDING_DATA
  else if code = 0xC8 then .LD_PICTURE
  else if code = 0xE8 then .HQ_PICTURE
  else .UNKNOWN_DATA_UNIT

/-- The operator `operator >> (std::istream&, DataUnit&)`: the parse code, then
`next_parse_offset` and `prev_parse_offset`, then the four bytes of `Bytes prefix(4)`. The
result is the data unit type and the stream after the reads. -/
def readDataUnit (stream : IStream) : DataUnitType × IStream :=
  let type := stream.readBytes 1
  let next_parse_offset := type.2.readBytes 4
  let prev_parse_offset := next_parse_offset.2.readBytes 4
  let prefix4 := prev_parse_offset.2.readBytes 4
  (DataUnitType.ofParseCode (type.1 % 256), prefix4.2)

/-! ## The quantiser search of the CBR encoder -/

/-- The type `Array2D` (`Arrays.h` is not in src): a rectangular array of `int` with
`shape()[0] = rows` and `shape()[1] = cols`; `get row column` is the element
`[row][column]`, meaningful for `row < rows` and `column < cols`. -/
structure Array2D where
  rows : Nat
  cols : Nat
  get : Nat → Nat → Int

/-- The library functions `quantIndices` calls; `Picture.h`, `Quantisation.h` and `Slices.h`
are not in src, so they are parameters. `split_into_blocks p ySlices xSlices row column` is
`split_into_blocks(p, ySlices, xSlices)[row][column]`. -/
structure SliceCoder (Picture Plane : Type) where
  split_into_blocks : Picture → Nat → Nat → Nat → Nat → Picture
  quantise_transform_np : Picture → Int → List Int → Picture
  component_slice_bytes : Plane → Int → Int → Int
  y : Picture → Plane
  c1 : Picture → Plane
  c2 : Picture → Plane

/-- The value `bytesRequired` computed in the loop body for one trial index. The sum is an
`int` sum; signed overflow is undefined in C++ and is not modelled. -/
def SliceCoder.bytesRequired {Picture Plane : Type} (C : SliceCoder Picture Plane)
    (slice : Picture) (qMatrix : List Int) (waveletDepth scalar : Int) (trialQ : Int) : Int :=
  let trialSlice := C.quantise_transform_np slice trialQ qMatrix
  C.component_slice_bytes (C.y trialSlice) waveletDepth scalar +
    C.component_slice_bytes (C.c1 trialSlice) waveletDepth scalar +
    C.component_slice_bytes (C.c2 trialSlice) waveletDepth scalar

/-- The loop `while (delta>0) { ... }` of `quantIndices`, from the state
`(trialQ, q, delta)`; `delta >>= 1` halves the positive `delta`, and `size` is `bytesRequired`
as a function of the trial index. The result is the final `q` together with the trial
indices passed to the quantiser, in order (`trials` holds those of the iterations already
done). -/
def searchLoop (size : Int → Int) (bytesAvailable : Int) (trialQ q delta : Int)
    (trials : List Int) : Int × List Int :=
  if 0 < delta then
    let delta1 := delta / 2
    if size trialQ ≤ bytesAvailable then
      searchLoop size bytesAvailable (trialQ - delta1) (if trialQ < q then trialQ else q) delta1
        (trials ++ [trialQ])
    else
      searchLoop size bytesAvailable (trialQ + delta1) q delta1 (trials ++ [trialQ])
  else (q, trials)
termination_by delta.toNat
decreasing_by
  all_goals simp_wf
  all_goals omega

/-- The body of the two `for` loops of `quantIndices` for one slice: the search started at
`trialQ = 63`, `q = 127`, `delta = 64` with `bytesAvailable = sliceBytes[row][column] - 4`. -/
def searchSlice (size : Int → Int) (sliceBytes : Int) : Int × List Int :=
  searchLoop size (sliceBytes - 4) 63 127 64 []

/-- The function `quantIndices`. The wavelet depth is `(qMatrix.size() - 1) / 3` in C
arithmetic (rounding towards zero). -/
def quantIndices {Picture Plane : Type} (C : SliceCoder Picture Plane) (coefficients : Picture)
    (qMatrix : List Int) (sliceBytes : Array2D) (scalar : Int) : Array2D :=
  let ySlices := sliceBytes.rows
  let xSlices := sliceBytes.cols
  let numberOfSubbands : Int := qMatrix.length
  let waveletDepth := Int.tdiv (numberOfSubbands - 1) 3
  { rows := ySlices
    cols := xSlices
    get := fun row column =>
      (searchSlice
        (C.bytesRequired (C.split_into_blocks coefficients ySlices xSlices row column) qMatrix
          waveletDepth scalar)
        (sliceBytes.get row column)).1 }

/-- The part of the projection's preset tests that is not a row of the table (lines 299-310,
325-327, 332-333 and 340 of `DataUnit.cpp`): interlaced 720 wide 4:2:2 at 30000/1001 and 10
bit with 480 to 486 lines, the progressive forms of rows 7, 8, 22, 11 and 12, and
2048x1080 4:4:4 at 48 frames per second and 12 bit. -/
def SequenceHeader.nearPreset (h : SequenceHeader) : Bool :=
  if h.interlace then
    h.chromaFormat == .CF422 && h.width == 720 && decide (h.height ≥ 480) &&
      decide (h.height ≤ 486) && h.frameRate == .FR30000_1001 && h.bitdepth == 10
  else
    PictureFormatMatches h 720 480 .CF422 .FR30000_1001 10 ||
    PictureFormatMatches h 720 576 .CF422 .FR25 10 ||
    PictureFormatMatches h 720 486 .CF422 .FR30000_1001 10 ||
    PictureFormatMatches h 1920 1080 .CF422 .FR30000_1001 10 ||
    PictureFormatMatches h 1920 1080 .CF422 .FR25 10 ||
    PictureFormatMatches h 2048 1080 .CF444 .FR48 12

/-- The frame rates of the specification's list (section 6), in the order of their VLC
indices 1 to 11, written from the specification's text. -/
def frame_rate_table : List FrameRate :=
  [.FR24000_1001, .FR24, .FR25, .FR30000_1001, .FR30, .FR50, .FR60000_1001, .FR60,
    .FR15000_1001, .FR25_2, .FR48]

/-- The wavelet kernels of the specification's list (section 6), in the order of their
wavelet indices 0 to 6, written from the specification's text. -/
def wavelet_index_table : List WaveletKernel :=
  [.DD97, .LeGall, .DD137, .Haar0, .Haar1, .Fidelity, .Daub97]

/-! ## Reconstructing a sequence header from a video format -/

/-- The `switch (fmt.base_video_format)` of `operator << (SequenceHeader&, video_format&)`
(lines 682-708): the header of a base video format, or the `throw` of the default case. The
constructor takes the height before the width. -/
def SequenceHeader.ofBase (b : Int) : Except String SequenceHeader :=
  if b = 0 then .ok (SequenceHeader.make .PROFILE_UNKNOWN 480 640 .CF420 false .FR24000_1001 false 8)
  else if b = 1 then .ok (SequenceHeader.make .PROFILE_UNKNOWN 120 176 .CF420 false .FR15000_1001 false 8)
  else if b = 2 then .ok (SequenceHeader.make .PROFILE_UNKNOWN 144 176 .CF420 false .FR25_2 true 8)
  else if b = 3 then .ok (SequenceHeader.make .PROFILE_UNKNOWN 240 352 .CF420 false .FR15000_1001 false 8)
  else if b = 4 then .ok (SequenceHeader.make .PROFILE_UNKNOWN 288 352 .CF420 false .FR25_2 true 8)
  else if b = 5 then .ok (SequenceHeader.make .PROFILE_UNKNOWN 480 704 .CF420 false .FR15000_1001 false 8)
  else if b = 6 then .ok (SequenceHeader.make .PROFILE_UNKNOWN 576 704 .CF420 false .FR25_2 true 8)
  else if b = 7 then .ok (SequenceHeader.make .PROFILE_UNKNOWN 480 720 .CF422 true .FR30000_1001 false 10)
  else if b = 8 then .ok (SequenceHeader.make .PROFILE_UNKNOWN 576 720 .CF422 true .FR25 true 10)
  else if b = 9 then .ok (SequenceHeader.make .PROFILE_UNKNOWN 720 1280 .CF422 false .FR60000_1001 true 10)
  else if b = 10 then .ok (SequenceHeader.make .PROFILE_UNKNOWN 720 1280 .CF422 false .FR50 true 10)
  else if b = 11 then .ok (SequenceHeader.make .PROFILE_UNKNOWN 1080 1920 .CF422 true .FR30000_1001 true 10)
  else if b = 12 then .ok (SequenceHeader.make .PROFILE_UNKNOWN 1080 1920 .CF422 true .FR25 true 10)
  else if b = 13 then .ok (SequenceHeader.make .PROFILE_UNKNOWN 1080 1920 .CF422 false .FR60000_1001 true 10)
  else if b = 14 then .ok (SequenceHeader.make .PROFILE_UNKNOWN 1080 1920 .CF422 false .FR50 true 10)
  else if b = 15 then .ok (SequenceHeader.make .PROFILE_UNKNOWN 1080 2048 .CF444 false .FR24 true 12)
  else if b = 16 then .ok (SequenceHeader.make .PROFILE_UNKNOWN 2160 4096 .CF444 false .FR24 true 12)
  else if b = 17 then .ok (SequenceHeader.make .PROFILE_UNKNOWN 2160 3840 .CF422 false .FR60000_1001 true 10)
  else if b = 18 then .ok (SequenceHeader.make .PROFILE_UNKNOWN 2160 3840 .CF422 false .FR50 true 10)
  else if b = 19 then .ok (SequenceHeader.make .PROFILE_UNKNOWN 4320 7680 .CF422 false .FR60000_1001 true 10)
  else if b = 20 then .ok (SequenceHeader.make .PROFILE_UNKNOWN 4320 7680 .CF422 false .FR50 true 10)
  else if b = 21 then .ok (SequenceHeader.make .PROFILE_UNKNOWN 1080 1920 .CF422 false .FR24000_1001 true 10)
  else if b = 22 then .ok (SequenceHeader.make .PROFILE_UNKNOWN 486 720 .CF422 true .FR30000_1001 false 10)
  else .error "DataUnitIO: unknown base video format"

/-- The `switch (fmt.bitdepth)` of `operator << (SequenceHeader&, video_format&)`: codes 1 to
4 set the bit depth, any other code leaves it as it is. -/
def SequenceHeader.withBitdepthCode (hdr : SequenceHeader) (code : Int) : SequenceHeader :=
  if code = 1 then { hdr with bitdepth := 8 }
  else if code = 2 then { hdr with bitdepth := 8 }
  else if code = 3 then { hdr with bitdepth := 10 }
  else if code = 4 then { hdr with bitdepth := 12 }
  else hdr

/-- The operator `operator << (SequenceHeader &hdr, video_format &fmt)`. The header is
assigned from the base video format first, so the result does not depend on the old `hdr`. -/
def SequenceHeader.ofVideoFormat (fmt : video_format) : Except String SequenceHeader :=
  match SequenceHeader.ofBase fmt.base_video_format with
  | .error e => .error e
  | .ok hdr0 =>
    let hdr1 :=
      if fmt.profile = 0 then { hdr0 with profile := .PROFILE_LD }
      else if fmt.profile = 3 then { hdr0 with profile := .PROFILE_HQ }
      else hdr0
    let hdr2 :=
      if fmt.custom_dimensions_flag then
        { hdr1 with width := fmt.frame_width, height := fmt.frame_height }
      else hdr1
    let hdr3 :=
      if fmt.custom_scan_format_flag then
        (if fmt.source_sampling = 0 then { hdr2 with interlace := false }
         else { hdr2 with interlace := true })
      else hdr2
    let hdr4 :=
      if fmt.custom_signal_range_flag then hdr3.withBitdepthCode fmt.bitdepth else hdr3
    let hdr5 :=
      if fmt.custom_frame_rate_flag then { hdr4 with frameRate := fmt.frame_rate } else hdr4
    .ok hdr5

/-! ## Bit input -/

/-- Conversion of an `unsigned int` to `int`. -/
def toInt (n : Nat) : Int :=
  if n % 4294967296 < 2147483648 then ((n % 4294967296 : Nat) : Int)
  else ((n % 4294967296 : Nat) : Int) - 4294967296

/-- The eight bits of a byte, most significant first. -/
def bitsOfByte (b : Nat) : List Bool :=
  [b / 128 % 2 == 1, b / 64 % 2 == 1, b / 32 % 2 == 1, b / 16 % 2 == 1,
    b / 8 % 2 == 1, b / 4 % 2 == 1, b / 2 % 2 == 1, b % 2 == 1]

/-- The bits a good stream still holds, in reading order; a failed stream delivers none. -/
def IStream.bits (stream : IStream) : List Bool :=
  if stream.good then stream.rest.flatMap bitsOfByte else []

/-- The stream once the bit reader has consumed all but `remaining` bits, `remaining` being
a whole number of bytes. -/
def IStream.afterBits (stream : IStream) (remaining : List Bool) : IStream :=
  { stream with rest := stream.rest.drop (stream.rest.length - remaining.length / 8) }

/-- Modelled from the spec: the reader of `UnsignedVLC` in `VLC.h` (not in src), the inverse
of the writer: a `0` announces a data bit, which is shifted into the value that starts at 1,
a `1` ends the code and the result is the value less one. The read fails if the stream ends
inside the code. -/
def readVLCFrom : List Bool → Nat → Except String (Nat × List Bool)
  | [], _ => .error "VLC: premature end of stream"
  | true :: rest, v => .ok (v - 1, rest)
  | [false], _ => .error "VLC: premature end of stream"
  | false :: b :: rest, v => readVLCFrom rest (2 * v + (if b then 1 else 0))

/-- Modelled from the spec: `stream >> UnsignedVLC` (`VLC.h` is not in src). -/
def readUnsignedVLC (bits : List Bool) : Except String (Nat × List Bool) :=
  readVLCFrom bits 1

/-- Modelled from the spec: `stream >> Boolean` (`VLC.h` is not in src) reads a single bit
and fails at the end of the stream. -/
def readBoolean : List Bool → Except String (Bool × List Bool)
  | [] => .error "Boolean: premature end of stream"
  | b :: rest => .ok (b, rest)

/-- Modelled from the spec: `stream >> vlc::align` (`VLC.h` is not in src) skips the unread
bits of the byte being read. -/
def alignBits (bits : List Bool) : List Bool :=
  bits.drop (bits.length % 8)

/-- The zero bits that complete the last byte of a packed bit string. -/
def padBits (bits : List Bool) : List Bool :=
  List.replicate ((8 - bits.length % 8) % 8) false

/-! ## Reading a video format and a sequence header -/

/-- The `switch(index)` of the video-format reader: the frame rate of a VLC index, or none
where the source throws. -/
def FrameRate.ofIndex (index : Nat) : Option FrameRate :=
  if index = 1 then some .FR24000_1001
  else if index = 2 then some .FR24
  else if index = 3 then some .FR25
  else if index = 4 then some .FR30000_1001
  else if index = 5 then some .FR30
  else if index = 6 then some .FR50
  else if index = 7 then some .FR60000_1001
  else if index = 8 then some .FR60
  else if index = 9 then some .FR15000_1001
  else if index = 10 then some .FR25_2
  else if index = 11 then some .FR48
  else none

/-- A flag that the reader requires to be clear: `stream >> flag; if (flag) throw ...`. -/
def readClearFlag (message : String) (bits : List Bool) : Except String (List Bool) := do
  let (flag, bits) ← readBoolean bits
  if flag then throw message
  pure bits

/-- Lines 471-480 of the video-format reader: the versions, profile, level and base video
format. -/
def video_format.readVersions (fmt : video_format) (bits : List Bool) :
    Except String (video_format × List Bool) := do
  let (major_version, bits) ← readUnsignedVLC bits
  let (minor_version, bits) ← readUnsignedVLC bits
  let (profile, bits) ← readUnsignedVLC bits
  let (level, bits) ← readUnsignedVLC bits
  let (base_video_format, bits) ← readUnsignedVLC bits
  pure ({ fmt with major_version := toInt major_version, minor_version := toInt minor_version,
                   profile := toInt profile, level := toInt level,
                   base_video_format := toInt base_video_format }, bits)

/-- Lines 482-490: the custom dimensions flag and, when it is set, the frame size. -/
def video_format.readDimensions (fmt : video_format) (bits : List Bool) :
    Except String (video_format × List Bool) := do
  let (custom_dimensions_flag, bits) ← readBoolean bits
  let fmt := { fmt with custom_dimensions_flag := custom_dimensions_flag }
  if custom_dimensions_flag then
    let (frame_width, bits) ← readUnsignedVLC bits
    let (frame_height, bits) ← readUnsignedVLC bits
    pure ({ fmt with frame_width := toInt frame_width, frame_height := toInt frame_height }, bits)
  else pure (fmt, bits)

/-- Lines 498-505: the custom scan format flag and, when it is set, the source sampling. -/
def video_format.readScanFormat (fmt : video_format) (bits : List Bool) :
    Except String (video_format × List Bool) := do
  let (custom_scan_format_flag, bits) ← readBoolean bits
  let fmt := { fmt with custom_scan_format_flag := custom_scan_format_flag }
  if custom_scan_format_flag then
    let (source_sampling, bits) ← readUnsignedVLC bits
    pure ({ fmt with source_sampling := toInt source_sampling }, bits)
  else pure (fmt, bits)

/-- Lines 507-528: the custom frame rate flag and, when it is set, the frame-rate index;
an index without a `case` throws. -/
def video_format.readFrameRate (fmt : video_format) (bits : List Bool) :
    Except String (video_format × List Bool) := do
  let (custom_frame_rate_flag, bits) ← readBoolean bits
  let fmt := { fmt with custom_frame_rate_flag := custom_frame_rate_flag }
  if custom_frame_rate_flag then
    let (index, bits) ← readUnsignedVLC bits
    match FrameRate.ofIndex (index % 4294967296) with
    | some r => pure ({ fmt with frame_rate := r }, bits)
    | none => throw "DataUnitIO: Invalid Frame Rate"
  else pure (fmt, bits)

/-- Lines 542-549: the custom signal range flag and, when it is set, the bit depth code. -/
def video_format.readSignalRange (fmt : video_format) (bits : List Bool) :
    Except String (video_format × List Bool) := do
  let (custom_signal_range_flag, bits) ← readBoolean bits
  let fmt := { fmt with custom_signal_range_flag := custom_signal_range_flag }
  if custom_signal_range_flag then
    let (bitdepth, bits) ← readUnsignedVLC bits
    pure ({ fmt with bitdepth := toInt bitdepth }, bits)
  else pure (fmt, bits)

/-- Lines 558-560: the picture coding mode. -/
def video_format.readPictureCodingMode (fmt : video_format) (bits : List Bool) :
    Except String (video_format × List Bool) := do
  let (picture_coding_mode, bits) ← readUnsignedVLC bits
  pure ({ fmt with picture_coding_mode := toInt picture_coding_mode }, bits)

/-- The reads of `operator >> (std::istream&, video_format&)` before `vlc::align`, on the
bits of the stream: the new value of `fmt` and the bits left. Fields guarded by a flag that
is clear keep the value they had in `fmt`. -/
def video_format.readBits (fmt : video_format) (bits : List Bool) :
    Except String (video_format × List Bool) := do
  let (fmt, bits) ← fmt.readVersions bits
  let (fmt, bits) ← fmt.readDimensions bits
  let bits ← readClearFlag "DataUnitIO: custom color diff format flag set, shouldn't be" bits
  let (fmt, bits) ← fmt.readScanFormat bits
  let (fmt, bits) ← fmt.readFrameRate bits
  let bits ← readClearFlag "DataUnitIO: custom_pixel_aspect_ratio_flag set, shouldn't be" bits
  let bits ← readClearFlag "DataUnitIO: custom_clean_area_flag set, shouldn't be" bits
  let (fmt, bits) ← fmt.readSignalRange bits
  let bits ← readClearFlag "DataUnitIO: custom_color_spec_flag set, shouldn't be" bits
  fmt.readPictureCodingMode bits

/-- The bits of a video format on the wire, field by field in the order of the writer, with
the four flags the reader rejects clear and an arbitrary frame-rate index. -/
def wireBits (major minor profile level base : Nat) (dims : Bool) (fw fh : Nat) (scan : Bool)
    (sampling : Nat) (rate : Bool) (index : Nat) (range : Bool) (bd pcm : Nat) : List Bool :=
  UnsignedVLC major ++ UnsignedVLC minor ++ UnsignedVLC profile ++ UnsignedVLC level ++
    UnsignedVLC base ++ Boolean dims ++ (if dims then UnsignedVLC fw ++ UnsignedVLC fh else []) ++
    Boolean false ++ Boolean scan ++ (if scan then UnsignedVLC sampling else []) ++
    Boolean rate ++ (if rate then UnsignedVLC index else []) ++ Boolean false ++ Boolean false ++
    Boolean range ++ (if range then UnsignedVLC bd else []) ++ Boolean false ++ UnsignedVLC pcm

/-- The operator `operator >> (std::istream&, video_format&)`: the reads, then `vlc::align`. -/
def readVideoFormat (stream : IStream) (fmt : video_format) :
    Except String (video_format × IStream) :=
  match fmt.readBits stream.bits with
  | .error e => .error e
  | .ok (fmt1, bits) => .ok (fmt1, stream.afterBits (alignBits bits))

/-- The operator `operator >> (std::istream&, SequenceHeader&)`: a default video format is
read and the header is reconstructed from it. -/
def readSequenceHeader (stream : IStream) : Except String (SequenceHeader × IStream) :=
  match readVideoFormat stream video_format.init with
  | .error e => .error e
  | .ok (fmt, stream1) =>
    match SequenceHeader.ofVideoFormat fmt with
    | .error e => .error e
    | .ok hdr => .ok (hdr, stream1)

/-! ## Reading a picture preamble -/

/-- Modelled from the spec: `utils::rationalise` (`Utils.h` is not in src) reduces a fraction
by the greatest common divisor of its terms. -/
def rationalise (numerator denominator : Int) : Rational :=
  { numerator := numerator / (Int.gcd numerator denominator : Int),
    denominator := denominator / (Int.gcd numerator denominator : Int) }

/-- The fields of `PicturePreamble`. -/
structure PicturePreamble where
  picture_number : Nat
  wavelet_kernel : WaveletKernel
  depth : Int
  slices_x : Int
  slices_y : Int
  slice_prefix : Int
  slice_size_scalar : Int
  slice_bytes : Rational
  deriving DecidableEq

/-- Constructor `PicturePreamble::PicturePreamble()`; the default `Rational` is taken as 0/1. -/
def PicturePreamble.default : PicturePreamble :=
  { picture_number := 0, wavelet_kernel := .NullKernel, depth := 0, slices_x := 0,
    slices_y := 0, slice_prefix := 0, slice_size_scalar := 0, slice_bytes := ⟨0, 1⟩ }

/-- The `switch(wavelet_index)` of the preamble reader: indices 0 to 6 select a kernel, and
there is no default case, so any other index leaves the kernel as it was. -/
def WaveletKernel.ofIndex (old : WaveletKernel) (wavelet_index : Nat) : WaveletKernel :=
  if wavelet_index = 0 then .DD97
  else if wavelet_index = 1 then .LeGall
  else if wavelet_index = 2 then .DD137
  else if wavelet_index = 3 then .Haar0
  else if wavelet_index = 4 then .Haar1
  else if wavelet_index = 5 then .Fidelity
  else if wavelet_index = 6 then .Daub97
  else old

/-- The bit-level reads of `operator >> (std::istream&, PicturePreamble&)`, after the picture
number and before `vlc::align`; `mode` is `sliceio::sliceIOMode(stream)`. -/
def PicturePreamble.readBits (mode : SliceIOMode) (hdr : PicturePreamble) (bits : List Bool) :
    Except String (PicturePreamble × List Bool) := do
  let (wavelet_index, bits) ← readUnsignedVLC bits
  let (depth, bits) ← readUnsignedVLC bits
  let hdr := { hdr with wavelet_kernel := hdr.wavelet_kernel.ofIndex (wavelet_index % 4294967296),
                        depth := toInt depth }
  let (hdr, bits) ←
    if mode = .HQVBR ∨ mode = .HQCBR then do
      let (slices_x, bits) ← readUnsignedVLC bits
      let (slices_y, bits) ← readUnsignedVLC bits
      let (slice_prefix1, bits) ← readUnsignedVLC bits
      let (slice_size_scalar, bits) ← readUnsignedVLC bits
      pure ({ hdr with slices_x := toInt slices_x, slices_y := toInt slices_y,
                       slice_prefix := toInt slice_prefix1,
                       slice_size_scalar := toInt slice_size_scalar,
                       slice_bytes := rationalise 0 1 }, bits)
    else if mode = .LD then do
      let (slices_x, bits) ← readUnsignedVLC bits
      let (slices_y, bits) ← readUnsignedVLC bits
      let (slice_bytes_numerator, bits) ← readUnsignedVLC bits
      let (slice_bytes_denominator, bits) ← readUnsignedVLC bits
      pure ({ hdr with slices_x := toInt slices_x, slices_y := toInt slices_y,
                       slice_prefix := 0, slice_size_scalar := 0,
                       slice_bytes := rationalise (toInt slice_bytes_numerator)
                         (toInt slice_bytes_denominator) }, bits)
    else throw "DataUnitIO: Not in HQ or LD Format"
  let (custom_quant_matrix, bits) ← readBoolean bits
  if custom_quant_matrix then
    throw "DataUnitIO: Custom Quantisation Matrix flag not supported"
  pure (hdr, bits)

/-- The operator `operator >> (std::istream&, PicturePreamble&)`: the picture number in 4
bytes, the bit-level reads, then `vlc::align`. -/
def readPicturePreamble (mode : SliceIOMode) (hdr : PicturePreamble) (stream : IStream) :
    Except String (PicturePreamble × IStream) :=
  let picture_number := stream.readBytes 4
  match PicturePreamble.readBits mode { hdr with picture_number := picture_number.1 }
      picture_number.2.bits with
  | .error e => .error e
  | .ok (hdr1, bits) => .ok (hdr1, picture_number.2.afterBits (alignBits bits))

/-! ## Slice geometry and byte budgets of the encoder and decoder programs -/

/-- Modelled from the spec: `utils::pow(base, exponent)` (`Utils.h` is not in src), the
integer power; an exponent below 0 is treated as 0. -/
def utils.pow (base exponent : Int) : Int :=
  base ^ exponent.toNat

/-- Modelled from the spec: `paddedSize(size, depth)` (declared in a header that is not in
src), the size rounded up to a multiple of `2^depth`: `ceil(size / 2^depth) * 2^depth`. The
ceiling of a quotient is the negated integer quotient, rounded down, of the negated size. -/
def paddedSize (size depth : Int) : Int :=
  -((-size) / utils.pow 2 depth) * utils.pow 2 depth

/-- The `if (bits <= 8)` of both programs: the bytes per sample. -/
def nbytes (bits : Int) : Int :=
  if bits ≤ 8 then 1 else 2

/-- What the `switch (chromaFormat)` of both programs assigns. -/
structure SliceSettings where
  compressedBytes : Int
  ySize : Int
  xSize : Int
  deriving DecidableEq

/-- The `switch (chromaFormat)` of both programs (encoder lines 168-186, decoder lines
100-120). The product by `3.0`, `2.0` or `1.5` and the quotient by the `float` rate are
`double` arithmetic, modelled by exact rationals; `floor` then converts to `int`. `UNKNOWN`
has no case in the encoder and ends the decoder, so no settings result. -/
def sliceSettings (chromaFormat : ColourFormat) (height width nbytes : Int) (CompressedRate : ℚ) :
    Option SliceSettings :=
  match chromaFormat with
  | .RGB => some ⟨⌊((height * width * nbytes : Int) : ℚ) * 3 / CompressedRate⌋, 1, 1⟩
  | .CF444 => some ⟨⌊((height * width * nbytes : Int) : ℚ) * 3 / CompressedRate⌋, 1, 1⟩
  | .CF422 => some ⟨⌊((height * width * nbytes : Int) : ℚ) * 2 / CompressedRate⌋, 1, 2⟩
  | .CF420 => some ⟨⌊((height * width * nbytes : Int) : ℚ) * (3 / 2) / CompressedRate⌋, 2, 2⟩
  | .UNKNOWN => none

/-- The block "Calculate number of slices per picture" of both programs (encoder lines
394-409, decoder lines 170-185): the pair `(ySlices, xSlices)`, or the `logic_error` that is
thrown. The quotient of two `int` rounds towards zero. -/
def slicesPerPicture (ySize xSize height width waveletDepth : Int) (interlaced : Bool) :
    Except String (Int × Int) :=
  let yTransformSize := ySize * utils.pow 2 waveletDepth
  let xTransformSize := xSize * utils.pow 2 waveletDepth
  let pictureHeight := if interlaced then Int.tdiv height 2 else height
  let paddedPictureHeight := paddedSize pictureHeight waveletDepth
  let paddedWidth := paddedSize width waveletDepth
  let ySlices := Int.tdiv paddedPictureHeight yTransformSize
  let xSlices := Int.tdiv paddedWidth xTransformSize
  if paddedPictureHeight ≠ ySlices * yTransformSize then
    .error "Padded picture height is not divisible by slice height"
  else if paddedWidth ≠ xSlices * xTransformSize then
    .error "Padded width is not divisible by slice width"
  else .ok (ySlices, xSlices)

/-- Modelled from the spec: the budget of slice `(r, c)` in the array that
`slice_bytes(ySlices, xSlices, pictureBytes, sliceScalar)` returns (`Utils.h` is not in
src), as the specification gives it, with quotients rounded down. -/
def sliceBytes (ySlices xSlices pictureBytes r c : Int) : Int :=
  pictureBytes * (r * xSlices + c + 1) / (ySlices * xSlices) -
    pictureBytes * (r * xSlices + c) / (ySlices * xSlices)

/-- Modelled from the spec: `slice_bytes(ySlices, xSlices, pictureBytes, sliceScalar)`
(`Utils.h` is not in src) for the slice scalar 1 that both programs pass: the array of the
budgets of all slices. -/
def slice_bytes (ySlices xSlices pictureBytes : Int) : Array2D :=
  { rows := ySlices.toNat
    cols := xSlices.toNat
    get := fun r c => sliceBytes ySlices xSlices pictureBytes r c }

/-! ## Well-formed video formats -/

/-- The range of the C type `int`. -/
def isInt (x : Int) : Prop :=
  -2147483648 ≤ x ∧ x < 2147483648

/-- The video formats that the constructors build: every `int` field is within the range of
`int`, and a field guarded by a custom flag that is clear has the value of the member
initialiser list. -/
def video_format.wellFormed (fmt : video_format) : Prop :=
  isInt fmt.major_version ∧ isInt fmt.minor_version ∧ isInt fmt.profile ∧ isInt fmt.level ∧
  isInt fmt.base_video_format ∧ isInt fmt.frame_width ∧ isInt fmt.frame_height ∧
  isInt fmt.source_sampling ∧ isInt fmt.bitdepth ∧ isInt fmt.picture_coding_mode ∧
  (fmt.custom_dimensions_flag = false → fmt.frame_width = 0 ∧ fmt.frame_height = 0) ∧
  (fmt.custom_scan_format_flag = false → fmt.source_sampling = 0) ∧
  (fmt.custom_signal_range_flag = false → fmt.bitdepth = 0) ∧
  (fmt.custom_frame_rate_flag = false → fmt.frame_rate = .FR0)

instance isInt.decidable (x : Int) : Decidable (isInt x) :=
  inferInstanceAs (Decidable (-2147483648 ≤ x ∧ x < 2147483648))

/-! ## The parse-code table of the specification -/

/-- The parse-code table of the specification (section 4.F), written from the
specification's text and not from the code. -/
def parse_code_table : List (DataUnitType × Nat) :=
  [(.SEQUENCE_HEADER, 0x00), (.END_OF_SEQUENCE, 0x10), (.AUXILIARY_DATA, 0x20),
    (.PADDING_DATA, 0x30), (.LD_PICTURE, 0xC8), (.HQ_PICTURE, 0xE8)]

/-! ## The output of the encoder program and the input of the decoder program -/

/-- The output file of the encoder as `outStream.open` leaves it: no bytes written, the
stream slots at their initial value. -/
def newFile : OStream :=
  { bytes := [], prev_parse_offset := 0, sliceIOMode := .UNKNOWN, infos := [] }

/-- The writes of the encoder program to its output file (lines 481-482):
`outStream << dataunitio::highQualityCBR(bytes, sliceScalar); outStream << outWrapped;`. -/
def encoderWrites (outWrapped : WrappedPicture) : Except String OStream :=
  runWrites newFile [.mode .HQCBR, .picture outWrapped]

/-- The coder of one slice in `Slices.h`, which is not in src, as a parameter.
`serialise row column budget scalar` is the serialisation of slice `(row, column)` of the
picture being written, in HQ CBR mode with the given budget and slice size scalar;
`readSlice budget scalar stream` is the stream after one slice is read from it. -/
structure SliceCodec where
  serialise : Nat → Nat → Int → Int → List Nat
  readSlice : Int → Int → IStream → IStream

/-- Modelled from the spec: `stream << slices` in HQ CBR mode (`Slices.h` is not in src),
after `highQualityCBR(bytes, sliceScalar)`: the slices are serialised one after the other,
row by row, each with its budget `bytes[row][column]`. -/
def writeSlicesHQ (coder : SliceCodec) (bytes : Array2D) (sliceScalar : Int) : List Nat :=
  (List.range bytes.rows).flatMap fun (row : Nat) =>
    (List.range bytes.cols).flatMap fun (column : Nat) =>
      coder.serialise row column (bytes.get row column) sliceScalar

/-- Modelled from the spec: `stream >> slices` in HQ CBR mode (`Slices.h` is not in src),
after `highQualityCBR(bytes, sliceScalar)`, into a container of `bytes.rows` by `bytes.cols`
slices: the slices are read one after the other, row by row, each with its budget. -/
def readSlicesHQ (coder : SliceCodec) (bytes : Array2D) (sliceScalar : Int) (stream : IStream) :
    IStream :=
  (List.range bytes.rows).foldl
    (fun (s : IStream) (row : Nat) =>
      (List.range bytes.cols).foldl
        (fun (s : IStream) (column : Nat) => coder.readSlice (bytes.get row column) sliceScalar s) s)
    stream

/-- The slice counts and the table of slice budgets that both programs compute before the
slice I/O (encoder lines 168-186, 394-409 and 452-454; decoder lines 100-120, 170-185 and
204-206), with `interlaced = 0`, so that `pictureBytes = compressedBytes`:
`(ySlices, xSlices, bytes)`, or the error that ends the program. -/
def programGeometry (chromaFormat : ColourFormat) (bits height width waveletDepth : Int)
    (CompressedRate : ℚ) : Except String (Int × Int × Array2D) :=
  match sliceSettings chromaFormat height width (nbytes bits) CompressedRate with
  | none => .error "Color Format ERROR"
  | some settings =>
    match slicesPerPicture settings.ySize settings.xSize height width waveletDepth false with
    | .error e => .error e
    | .ok (ySlices, xSlices) =>
      .ok (ySlices, xSlices, slice_bytes ySlices xSlices settings.compressedBytes)

/-- The wrapped picture the encoder program builds (lines 465-476) for an input file whose
head gave `height` and `width`, with the constants of the program: 8 bits, 4:2:2, LeGall,
wavelet depth 3, compression rate 2.0, frame 1, slice prefix 0 and slice scalar 1. Its
slices serialise as `writeSlicesHQ` with the encoder's table of budgets. -/
def encoderPicture (coder : SliceCodec) (height width : Int) : Except String WrappedPicture :=
  match programGeometry .CF422 8 height width 3 2 with
  | .error e => .error e
  | .ok (ySlices, xSlices, bytes) =>
    .ok { picture_number := 1, wavelet_kernel := .LeGall, depth := 3, slices_x := xSlices,
          slices_y := ySlices, slice_prefix := 0, slice_size_scalar := 1, slice_bytes := ⟨0, 1⟩,
          slices := ⟨fun _ => writeSlicesHQ coder bytes 1⟩ }

/-- The bytes of the file the encoder program writes for an input file whose head gave
`height` and `width`. -/
def encoderFile (coder : SliceCodec) (height width : Int) : Except String (List Nat) :=
  match encoderPicture coder height width with
  | .error e => .error e
  | .ok outWrapped =>
    match encoderWrites outWrapped with
    | .error e => .error e
    | .ok out => .ok out.bytes

/-- The reads of the decoder program from its input file (lines 220-221):
`inStream >> sliceio::highQualityCBR(bytes, sliceScalar); inStream >> inSlices;`, from the
start of the file. The slice counts and the table of budgets are those the decoder computes
from its own constants: 8 bits, 4:2:2, wavelet depth 3, compression rate 2.0 and
`height = width = 256`. The result is the stream the reads leave. -/
def decoderReads (coder : SliceCodec) (file : List Nat) : Except String IStream :=
  match programGeometry .CF422 8 256 256 3 2 with
  | .error e => .error e
  | .ok (_, _, bytes) => .ok (readSlicesHQ coder bytes 1 ⟨file, true⟩)

/-! ## The projecting constructor before its preset tests -/

/-- The state of `video_format::video_format(const SequenceHeader &fmt)` after the member
initialiser list and the assignments of the versions and the profile (lines 264-292), just
before the preset tests. -/
def video_format.ofVersions (fmt : SequenceHeader) : video_format :=
  { video_format.init with
    major_version := fmt.major_version
    minor_version := fmt.minor_version
    profile := match fmt.profile with
      | .PROFILE_LD => 0
      | .PROFILE_HQ => 3
      | .PROFILE_UNKNOWN => 0 }

/-! ## The colour conversion and the PPM header of the programs -/

/-- The luma of "Convert RGB to YUV" in the encoder:
`Y = ((66 * R + 129 * G + 25 * B + 128) >> 8) + 16`. -/
def rgbToY (R G B : Int) : Int :=
  ((66 * R + 129 * G + 25 * B + 128) >>> (8 : Nat)) + 16

/-- The first chroma of "Convert RGB to YUV" in the encoder:
`U = ((-38 * R - 74 * G + 112 * B + 128) >> 8) + 128`; `>>` on a negative `int` is the
arithmetic shift, which rounds down. -/
def rgbToU (R G B : Int) : Int :=
  ((-38 * R - 74 * G + 112 * B + 128) >>> (8 : Nat)) + 128

/-- The second chroma of "Convert RGB to YUV" in the encoder:
`V = ((112 * R - 94 * G - 18 * B + 128) >> 8) + 128`. -/
def rgbToV (R G B : Int) : Int :=
  ((112 * R - 94 * G - 18 * B + 128) >>> (8 : Nat)) + 128

/-- The clipping expression of the encoder: `(x<0) ? 0 : ((x>MaxValue) ? MaxValue : x)`. -/
def clipToMax (x MaxValue : Int) : Int :=
  if x < 0 then 0 else if x > MaxValue then MaxValue else x

/-- The variables that the encoder sets from the head of its input file. -/
structure PPMHeader where
  headP6 : String
  height : Int
  width : Int
  MaxValue : Int
  deriving DecidableEq

/-- The reads of the encoder at the head of its input file (lines 161-166):
`input >> headP6; input >> height; input >> width; input >> MaxValue;`. The head of the file
is given as its whitespace-separated tokens, the magic and then the integers in file order;
a file with fewer than three integers gives no header. -/
def readPPMHeader (magic : String) (numbers : List Int) : Option PPMHeader :=
  match numbers with
  | first :: second :: third :: _ =>
    some { headP6 := magic, height := first, width := second, MaxValue := third }
  | _ => none

/-- The head of the file the decoder writes (lines 386-390):
`outStream << headP6 << endl; outStream << height << " " << width << endl;
outStream << MaxValue << endl;`, as the magic and the integers in file order. -/
def writePPMHeader (height width MaxValue : Int) : String × List Int :=
  ("P6", [height, width, MaxValue])

/-! ## The buffers of the encoder's colour conversion -/

/-- The line buffers, image buffers and chroma planes of the colour conversion. -/
inductive Buffer where
  | ULine
  | VLine
  | UImage
  | VImage
  | UArray
  | VArray
  deriving DecidableEq

/-- One access to a buffer: `row` and `index` are the two subscripts of a plane; for a line
or image buffer `row` is 0 and `index` is the subscript applied to the offset pointer. -/
structure Access where
  buffer : Buffer
  row : Int
  index : Int
  write : Bool
  deriving DecidableEq

/-- The values of `pixel` (or `line`) in a loop `for (pixel = 0; pixel < n; pixel += 2)`. -/
def evens (n : Nat) : List Nat :=
  (List.range ((n + 1) / 2)).map fun (k : Nat) => 2 * k

/-- The accesses of lines 209-210: `ULine[-1] = ULine[width] = 128;` and the same for
`VLine`. -/
def sentinelAccesses (width : Nat) : List Access :=
  [⟨.ULine, 0, (width : Int), true⟩, ⟨.ULine, 0, -1, true⟩, ⟨.VLine, 0, (width : Int), true⟩,
    ⟨.VLine, 0, -1, true⟩]

/-- The accesses of the first inner loop of the CF422 and CF420 cases for one line: the
chroma of every pixel is copied to the line buffers. -/
def copyLineAccesses (width : Nat) : List Access :=
  (List.range width).flatMap fun (pixel : Nat) =>
    [⟨.ULine, 0, (pixel : Int), true⟩, ⟨.VLine, 0, (pixel : Int), true⟩]

/-- The reads of the line filter at one even `pixel`:
`ULine[pixel - 1] + 2 * ULine[pixel] + ULine[pixel + 1]` and the same for `VLine`. -/
def filterLineReads (pixel : Nat) : List Access :=
  [⟨.ULine, 0, (pixel : Int) - 1, false⟩, ⟨.ULine, 0, (pixel : Int), false⟩,
    ⟨.ULine, 0, (pixel : Int) + 1, false⟩, ⟨.VLine, 0, (pixel : Int) - 1, false⟩,
    ⟨.VLine, 0, (pixel : Int), false⟩, ⟨.VLine, 0, (pixel : Int) + 1, false⟩]

/-- The accesses of the CF422 case (lines 257-287), preceded by those of lines 209-210, in
program order: for every line the copy loop, then for every even pixel the line filter and
the writes `UArray[line][pixel / 2]`, `VArray[line][pixel / 2]`. -/
def accesses422 (height width : Nat) : List Access :=
  sentinelAccesses width ++
    (List.range height).flatMap fun (line : Nat) =>
      copyLineAccesses width ++
        (evens width).flatMap fun (pixel : Nat) =>
          filterLineReads pixel ++
            [⟨.UArray, (line : Int), ((pixel / 2 : Nat) : Int), true⟩,
              ⟨.VArray, (line : Int), ((pixel / 2 : Nat) : Int), true⟩]

/-- The accesses of one `fill_n(&UImage[-(UVWidth + 1)], UVImageSize, 128)`. -/
def fillAccesses (buffer : Buffer) (height width : Nat) : List Access :=
  (List.range ((height + 2) * (width + 2))).map fun (k : Nat) =>
    ⟨buffer, 0, (k : Int) - ((width : Int) + 2 + 1), true⟩

/-- The accesses of the CF420 case (lines 288-339), preceded by those of lines 209-210, in
program order: the two `fill_n`, for every line the copy loop and the line filter into the
image buffers, then for every even line and even pixel the vertical filter and the writes
`UArray[line / 2][pixel / 2]`, `VArray[line / 2][pixel / 2]`; `UVWidth` is `width + 2`. -/
def accesses420 (height width : Nat) : List Access :=
  sentinelAccesses width ++ fillAccesses .UImage height width ++
    fillAccesses .VImage height width ++
    ((List.range height).flatMap fun (line : Nat) =>
      copyLineAccesses width ++
        (evens width).flatMap fun (pixel : Nat) =>
          filterLineReads pixel ++
            [⟨.UImage, 0, (line : Int) * ((width : Int) + 2) + (pixel : Int), true⟩,
              ⟨.VImage, 0, (line : Int) * ((width : Int) + 2) + (pixel : Int), true⟩]) ++
    ((evens height).flatMap fun (line : Nat) =>
      (evens width).flatMap fun (pixel : Nat) =>
        [⟨.UImage, 0, ((line : Int) - 1) * ((width : Int) + 2) + (pixel : Int), false⟩,
          ⟨.UImage, 0, (line : Int) * ((width : Int) + 2) + (pixel : Int), false⟩,
          ⟨.UImage, 0, ((line : Int) + 1) * ((width : Int) + 2) + (pixel : Int), false⟩,
          ⟨.VImage, 0, ((line : Int) - 1) * ((width : Int) + 2) + (pixel : Int), false⟩,
          ⟨.VImage, 0, (line : Int) * ((width : Int) + 2) + (pixel : Int), false⟩,
          ⟨.VImage, 0, ((line : Int) + 1) * ((width : Int) + 2) + (pixel : Int), false⟩,
          ⟨.UArray, ((line / 2 : Nat) : Int), ((pixel / 2 : Nat) : Int), true⟩,
          ⟨.VArray, ((line / 2 : Nat) : Int), ((pixel / 2 : Nat) : Int), true⟩])

/-- The allocated extent of each buffer (lines 195-208): a line buffer is `new int[width + 2]`
offset by 1, so its subscripts run from -1 to `width`; an image buffer is
`new int[UVImageSize]` offset by `UVWidth + 1`, with `UVImageSize = (height + 2) * (width + 2)`
and `UVWidth = width + 2`; a chroma plane has the shape `chromaRows` by `chromaCols` it was
resized to. -/
def Access.inExtent (height width chromaRows chromaCols : Nat) (a : Access) : Prop :=
  match a.buffer with
  | .ULine => a.row = 0 ∧ -1 ≤ a.index ∧ a.index ≤ width
  | .VLine => a.row = 0 ∧ -1 ≤ a.index ∧ a.index ≤ width
  | .UImage => a.row = 0 ∧ -((width : Int) + 2 + 1) ≤ a.index ∧
      a.index < ((height : Int) + 2) * ((width : Int) + 2) - ((width : Int) + 2 + 1)
  | .VImage => a.row = 0 ∧ -((width : Int) + 2 + 1) ≤ a.index ∧
      a.index < ((height : Int) + 2) * ((width : Int) + 2) - ((width : Int) + 2 + 1)
  | .UArray => 0 ≤ a.row ∧ a.row < chromaRows ∧ 0 ≤ a.index ∧ a.index < chromaCols
  | .VArray => 0 ≤ a.row ∧ a.row < chromaRows ∧ 0 ≤ a.index ∧ a.index < chromaCols

instance Access.inExtent.decidable (height width chromaRows chromaCols : Nat) (a : Access) :
    Decidable (a.inExtent height width chromaRows chromaCols) := by
  unfold Access.inExtent
  cases a.buffer <;> exact inferInstance

/-! ## The parse-info chain -/

/-- The `next_parse_offset` of the last record of a chain that starts from `p`. -/
def chainEnd (p : Nat) : List ParseInfoRecord → Nat
  | [] => p
  | r :: rs => chainEnd r.next_parse_offset rs

/-! ## Example inputs -/

/-- A coder in which every component of every slice serialises to one byte at every
quantiser index. -/
def unitCoder : SliceCoder Unit Unit :=
  { split_into_blocks := fun p _ _ _ _ => p
    quantise_transform_np := fun p _ _ => p
    component_slice_bytes := fun _ _ _ => 1
    y := fun p => p
    c1 := fun p => p
    c2 := fun p => p }

/-- A coder over `Int` pictures whose components serialise to `max 0 (p - 2 q)` bytes at
index `q`: sizes shrink as the index grows. -/
def rampCoder : SliceCoder Int Int :=
  { split_into_blocks := fun p _ _ _ _ => p
    quantise_transform_np := fun p q _ => max 0 (p - 2 * q)
    component_slice_bytes := fun c _ _ => c
    y := fun p => p
    c1 := fun p => p
    c2 := fun p => p }

/-- A one-slice table of byte budgets. -/
def oneSlice (budget : Int) : Array2D :=
  { rows := 1, cols := 1, get := fun _ _ => budget }

/-- The header of the specification's first scenario: 1920x1080, 4:2:2, interlaced,
30000/1001, 10 bit, HQ profile. -/
def exampleHeader : SequenceHeader :=
  SequenceHeader.make .PROFILE_HQ 1080 1920 .CF422 true .FR30000_1001 true 10

/-- A header that matches no preset: 1000x500, 4:2:0, progressive, 24000/1001, 8 bit, LD. -/
def exampleCustomHeader : SequenceHeader :=
  SequenceHeader.make .PROFILE_LD 500 1000 .CF420 false .FR24000_1001 false 8

/-- Picture 1, LeGall, depth 3, 16 by 32 slices of 128/1 bytes, whose slices serialise to `n`
zero bytes. -/
def examplePicture (n : Nat) : WrappedPicture :=
  { picture_number := 1, wavelet_kernel := .LeGall, depth := 3, slices_x := 16, slices_y := 32,
    slice_prefix := 0, slice_size_scalar := 0, slice_bytes := ⟨128, 1⟩,
    slices := ⟨fun _ => List.replicate n 0⟩ }

/-- An LD picture whose slices serialise to `2^32` bytes. -/
def hugePicture : WrappedPicture :=
  examplePicture 4294967296

/-- A fresh output stream in LD mode. -/
def freshStream : OStream :=
  { bytes := [], prev_parse_offset := 0, sliceIOMode := .LD, infos := [] }

/-- An LD output stream left with a stale previous offset. -/
def exampleStream : OStream :=
  { bytes := [], prev_parse_offset := 7, sliceIOMode := .LD, infos := [] }

/-- A sequence body: a header, an LD picture, a switch to HQ CBR, an HQ picture, a header. -/
def exampleBody : List WriteOp :=
  [.header exampleHeader, .picture (examplePicture 3), .mode .HQCBR,
    .picture (examplePicture 2), .header exampleCustomHeader]

/-- The stream after `exampleBody` is written as a sequence to `exampleStream`. -/
def exampleOut : OStream :=
  { bytes := [66, 66, 67, 68, 0, 0, 0, 0, 17, 0, 0, 0, 0, 112, 133, 8, 1,
      66, 66, 67, 68, 200, 0, 0, 0, 26, 0, 0, 0, 17, 0, 0, 0, 1, 33, 1, 128, 48, 0, 100, 0, 0, 0,
      0, 0,
      66, 66, 67, 68, 0, 0, 0, 0, 20, 0, 0, 0, 26, 63, 85, 16, 106, 162, 48, 16,
      66, 66, 67, 68, 16, 0, 0, 0, 0, 0, 0, 0, 20]
    prev_parse_offset := 0
    sliceIOMode := .HQCBR
    infos := [⟨0, 17, 0⟩, ⟨200, 26, 17⟩, ⟨0, 20, 26⟩, ⟨16, 0, 20⟩] }

/-- An interlaced header that is no row of the table: 720x483, 4:2:2, 30000/1001, 10 bit. -/
def exampleNearHeader : SequenceHeader :=
  SequenceHeader.make .PROFILE_HQ 483 720 .CF422 true .FR30000_1001 true 10

/-- A fresh output stream in HQ CBR mode. -/
def hqStream : OStream :=
  { bytes := [], prev_parse_offset := 0, sliceIOMode := .HQCBR, infos := [] }

/-- A video format with `base_video_format = 11` and no custom flag. -/
def exampleFormat : video_format :=
  { video_format.init with profile := 3, level := 3, base_video_format := 11,
                           picture_coding_mode := 1 }

/-- The video format of `exampleNearHeader`: base video format 7 with custom dimensions. -/
def exampleNearFormat : video_format :=
  { video_format.init with major_version := 2, profile := 3, level := 2, base_video_format := 7,
                           custom_dimensions_flag := true, frame_width := 720,
                           frame_height := 483, picture_coding_mode := 1 }

/-- A slice coder: every slice is the four bytes of a quantiser index 0 and three components
of length 0, and a slice is read as one byte, then three times a length byte and that many
bytes times the scalar. -/
def exampleCodec : SliceCodec :=
  { serialise := fun _ _ _ _ => [0, 0, 0, 0]
    readSlice := fun _ scalar stream =>
      let q := stream.readByte
      let y := q.2.readByte
      let s1 : IStream := { y.2 with rest := y.2.rest.drop (y.1 * scalar.toNat) }
      let c1 := s1.readByte
      let s2 : IStream := { c1.2 with rest := c1.2.rest.drop (c1.1 * scalar.toNat) }
      let c2 := s2.readByte
      { c2.2 with rest := c2.2.rest.drop (c2.1 * scalar.toNat) } }

/-- A header that matches no preset and is not 4:2:0: 1000x500, 4:4:4, progressive, 25 frames
per second, 10 bit, HQ profile. -/
def exampleCustom444Header : SequenceHeader :=
  SequenceHeader.make .PROFILE_HQ 500 1000 .CF444 false .FR25 false 10

/-- The video format of `exampleCustom444Header`: base video format 0 with custom
dimensions, frame rate and signal range. -/
def exampleCustom444Format : video_format :=
  { video_format.init with major_version := 2, profile := 3, custom_dimensions_flag := true,
                           frame_width := 1000, frame_height := 500,
                           custom_signal_range_flag := true, bitdepth := 3,
                           custom_frame_rate_flag := true, frame_rate := .FR25 }

/-! ## Properties of the byte and bit writers -/

theorem bytesBE_length (n v : Nat) : (bytesBE n v).length = n := by
  induction n with
  | zero => rfl
  | succ n ih => simp [bytesBE, ih]

theorem valueBE_bytesBE_four (v : Nat) : valueBE (bytesBE 4 v) = v % 4294967296 := by
  simp only [bytesBE, valueBE, List.foldl]
  norm_num
  omega

theorem ParseInfoIO.parse_code_lt ( piio : ParseInfoIO) : piio.parse_code < 256 := by
  unfold ParseInfoIO.parse_code
  split <;> norm_num

theorem ParseInfoIO.bytes_eq ( piio : ParseInfoIO) (prev : Nat) :
    piio.bytes prev = [0x42, 0x42, 0x43, 0x44, piio.parse_code] ++
      bytesBE 4 piio.next_parse_offset ++ bytesBE 4 prev := by
  have h := Nat.mod_eq_of_lt piio.parse_code_lt
  simp [ ParseInfoIO.bytes, bytesBE, h]

theorem ParseInfoIO.bytes_length ( piio : ParseInfoIO) (prev : Nat) :
    (piio.bytes prev).length = 13 := by
  simp [ ParseInfoIO.bytes, bytesBE_length]

theorem ParseInfoIO.ofSize_next_lt (du : DataUnitType) (n : Nat) :
    ( ParseInfoIO.ofSize du n).next_parse_offset < 4294967296 := by
  simp only [ ParseInfoIO.ofSize]
  omega

theorem ParseInfoIO.ofSize_next_eq (du : DataUnitType) (n : Nat) (h : n + 13 < 4294967296) :
    ( ParseInfoIO.ofSize du n).next_parse_offset = 13 + n := by
  simp only [ ParseInfoIO.ofSize]
  omega

theorem dataBits_length_le (f : Nat) : ∀ m k : Nat, m < 2 ^ (k + 1) →
    (dataBits f m).length ≤ k := by
  induction f with
  | zero => intro m k _; simp [dataBits]
  | succ f ih =>
    intro m k hm
    unfold dataBits
    by_cases h1 : m ≤ 1
    · simp [h1]
    · rw [if_neg h1]
      cases k with
      | zero => norm_num at hm; omega
      | succ k =>
        have hhalf : m / 2 < 2 ^ (k + 1) := by
          rw [pow_succ] at hm
          omega
        have := ih (m / 2) k hhalf
        simp only [List.length_append, List.length_singleton]
        omega

theorem flatMap_pair_length (l : List Bool) :
    (l.flatMap fun b => [false, b]).length = 2 * l.length := by
  induction l with
  | nil => rfl
  | cons a l ih =>
    simp only [List.flatMap_cons, List.length_append, List.length_cons, List.length_nil, ih]
    omega

theorem UnsignedVLC_length_le (n : Nat) (h : n < 4294967296) : (UnsignedVLC n).length ≤ 65 := by
  have hd := dataBits_length_le (n + 1) (n + 1) 32 (by norm_num; omega)
  simp only [UnsignedVLC, List.length_append, flatMap_pair_length, List.length_singleton]
  omega

theorem toUnsigned_lt (x : Int) : toUnsigned x < 4294967296 := by
  unfold toUnsigned
  omega

theorem UnsignedVLCInt_length_le (x : Int) : (UnsignedVLCInt x).length ≤ 65 :=
  UnsignedVLC_length_le _ (toUnsigned_lt x)

theorem packBits_length_le : ∀ l : List Bool, (packBits l).length ≤ l.length
  | b0 :: b1 :: b2 :: b3 :: b4 :: b5 :: b6 :: b7 :: rest => by
    have := packBits_length_le rest
    simp only [packBits, List.length_cons]
    omega
  | [] => by simp [packBits]
  | [_] => by simp [packBits]
  | [_, _] => by simp [packBits]
  | [_, _, _] => by simp [packBits]
  | [_, _, _, _] => by simp [packBits]
  | [_, _, _, _, _] => by simp [packBits]
  | [_, _, _, _, _, _] => by simp [packBits]
  | [_, _, _, _, _, _, _] => by simp [packBits]

theorem FrameRate.index_le (r : FrameRate) (i : Nat) (h : r.index = some i) : i < 4294967296 := by
  cases r <;> simp [FrameRate.index] at h <;> omega

theorem video_format.bits_length_le (fmt : video_format) (bits : List Bool)
    (h : fmt.bits = .ok bits) : bits.length ≤ 1000 := by
  have h1 := UnsignedVLCInt_length_le fmt.major_version
  have h2 := UnsignedVLCInt_length_le fmt.minor_version
  have h3 := UnsignedVLCInt_length_le fmt.profile
  have h4 := UnsignedVLCInt_length_le fmt.level
  have h5 := UnsignedVLCInt_length_le fmt.base_video_format
  have h6 := UnsignedVLCInt_length_le fmt.frame_width
  have h7 := UnsignedVLCInt_length_le fmt.frame_height
  have h8 := UnsignedVLCInt_length_le fmt.source_sampling
  have h9 := UnsignedVLCInt_length_le fmt.bitdepth
  have h10 := UnsignedVLCInt_length_le fmt.picture_coding_mode
  unfold video_format.bits at h
  by_cases hr : fmt.custom_frame_rate_flag = true
  · simp only [hr, if_true] at h
    cases hi : fmt.frame_rate.index with
    | none => simp [hi] at h
    | some i =>
      have h11 := UnsignedVLC_length_le i (FrameRate.index_le _ _ hi)
      simp only [hi, Except.ok.injEq] at h
      subst h
      simp only [List.length_append, Boolean, List.length_singleton]
      split_ifs <;> simp only [List.length_append, List.length_nil] <;> omega
  · simp only [hr] at h
    simp only [Bool.false_eq_true, if_false, Except.ok.injEq] at h
    subst h
    simp only [List.length_append, Boolean, List.length_singleton]
    split_ifs <;> simp only [List.length_append, List.length_nil] <;> omega

theorem SequenceHeader.payload_length_le (s : SequenceHeader) (payload : List Nat)
    (h : s.payload = .ok payload) : payload.length ≤ 1000 := by
  unfold SequenceHeader.payload at h
  cases hv : video_format.ofSequenceHeader s with
  | error e => simp [hv] at h
  | ok fmt =>
    simp only [hv] at h
    cases hb : fmt.bits with
    | error e => simp [hb] at h
    | ok bits =>
      simp only [hb, Except.ok.injEq] at h
      subst h
      exact le_trans (packBits_length_le bits) (video_format.bits_length_le fmt bits hb)

theorem writeSequenceHeader_ok (stream : OStream) (s : SequenceHeader) (out : OStream)
    (h : writeSequenceHeader stream s = .ok out) :
    ∃ payload, s.payload = .ok payload ∧
      out = (stream.writeParseInfo ( ParseInfoIO.ofSize .SEQUENCE_HEADER payload.length)).writeBytes
        payload := by
  unfold writeSequenceHeader at h
  cases hp : s.payload with
  | error e => simp [hp] at h
  | ok payload =>
    simp only [hp, Except.ok.injEq] at h
    exact ⟨payload, rfl, h.symm⟩

theorem LDWrappedPictureIO_bytes (stream : OStream) (d : WrappedPicture) :
    ( LDWrappedPictureIO stream d).bytes =
      stream.bytes ++
        ( ParseInfoIO.ofSize .LD_PICTURE (LDPayload stream.sliceIOMode d).length).bytes
          stream.prev_parse_offset ++
        LDPayload stream.sliceIOMode d :=
  rfl

theorem LDWrappedPictureIO_infos (stream : OStream) (d : WrappedPicture) :
    ( LDWrappedPictureIO stream d).infos =
      stream.infos ++
        [⟨0xC8,
          ( ParseInfoIO.ofSize .LD_PICTURE
            (LDPayload stream.sliceIOMode d).length).next_parse_offset % 4294967296,
          stream.prev_parse_offset % 4294967296⟩] :=
  rfl

theorem examplePicture_payload_length (mode : SliceIOMode) (n : Nat) :
    (LDPayload mode (examplePicture n)).length = 10 + n := by
  have hpre : (LDPreamble (examplePicture n)).length = 10 := by
    have h0 : LDPreamble (examplePicture n) = LDPreamble (examplePicture 0) := rfl
    rw [h0]
    decide
  rw [LDPayload, List.length_append, hpre]
  simp only [examplePicture, List.length_replicate]

/-! ## Properties of the parse-info chain -/

theorem chainFrom_append (l1 l2 : List ParseInfoRecord) : ∀ p : Nat,
    (chainFrom p (l1 ++ l2) ↔ chainFrom p l1 ∧ chainFrom (chainEnd p l1) l2) := by
  induction l1 with
  | nil => intro p; simp [chainFrom, chainEnd]
  | cons r rs ih => intro p; simp [chainFrom, chainEnd, ih, and_assoc]

theorem chainEnd_append (l1 l2 : List ParseInfoRecord) : ∀ p : Nat,
    chainEnd p (l1 ++ l2) = chainEnd (chainEnd p l1) l2 := by
  induction l1 with
  | nil => intro p; rfl
  | cons r rs ih => intro p; simp [chainEnd, ih]

theorem chainFrom_head (p : Nat) (l : List ParseInfoRecord) (h : chainFrom p l)
    (r : ParseInfoRecord) (hr : l.head? = some r) : r.prev_parse_offset = p := by
  cases l with
  | nil => simp at hr
  | cons a l =>
    simp only [List.head?_cons, Option.some.injEq] at hr
    subst hr
    exact h.1

theorem chainFrom_index (l : List ParseInfoRecord) : ∀ (p : Nat), chainFrom p l →
    ∀ (k : Nat) (r1 r2 : ParseInfoRecord), l[k]? = some r1 → l[k + 1]? = some r2 →
      r2.prev_parse_offset = r1.next_parse_offset := by
  induction l with
  | nil => intro p _ k r1 r2 h1; simp at h1
  | cons a l ih =>
    intro p h k r1 r2 h1 h2
    cases k with
    | zero =>
      simp only [List.getElem?_cons_zero, Option.some.injEq] at h1
      subst h1
      simp only [List.getElem?_cons_succ] at h2
      cases l with
      | nil => simp at h2
      | cons b l =>
        simp only [List.getElem?_cons_zero, Option.some.injEq] at h2
        subst h2
        exact h.2.1
    | succ k =>
      simp only [List.getElem?_cons_succ] at h1 h2
      exact ih a.next_parse_offset h.2 k r1 r2 h1 h2

/-- One write extends the record of parse-infos by a chain that starts from the stored
previous offset, and stores the end of that chain. -/
theorem WriteOp.run_chain (op : WriteOp) (stream out : OStream) (h : op.run stream = .ok out)
    (hp : stream.prev_parse_offset < 4294967296) :
    ∃ new, out.infos = stream.infos ++ new ∧ chainFrom stream.prev_parse_offset new ∧
      out.prev_parse_offset = chainEnd stream.prev_parse_offset new ∧
      out.prev_parse_offset < 4294967296 := by
  cases op with
  | header s =>
    obtain ⟨payload, -, rfl⟩ := writeSequenceHeader_ok stream s out h
    have hn := ParseInfoIO.ofSize_next_lt .SEQUENCE_HEADER payload.length
    refine ⟨_, rfl, ?_, ?_, hn⟩
    · simp [chainFrom, Nat.mod_eq_of_lt hp]
    · simp [chainEnd, OStream.writeBytes, OStream.writeParseInfo, Nat.mod_eq_of_lt hn]
  | picture d =>
    simp only [WriteOp.run, writeWrappedPicture] at h
    cases hm : stream.sliceIOMode with
    | UNKNOWN => simp [hm] at h
    | LD =>
      simp only [hm, Except.ok.injEq] at h
      subst h
      have hn := ParseInfoIO.ofSize_next_lt .LD_PICTURE (LDPayload stream.sliceIOMode d).length
      refine ⟨_, rfl, ?_, ?_, hn⟩
      · simp [chainFrom, Nat.mod_eq_of_lt hp]
      · simp only [ LDWrappedPictureIO, chainEnd, OStream.writeBytes, OStream.writeParseInfo]
        exact (Nat.mod_eq_of_lt hn).symm
    | HQVBR =>
      simp only [hm, Except.ok.injEq] at h
      subst h
      exact ⟨[], by simp [ HQWrappedPictureIO, OStream.writeBytes], trivial, rfl, hp⟩
    | HQCBR =>
      simp only [hm, Except.ok.injEq] at h
      subst h
      exact ⟨[], by simp [ HQWrappedPictureIO, OStream.writeBytes], trivial, rfl, hp⟩
  | mode m =>
    simp only [WriteOp.run, Except.ok.injEq] at h
    subst h
    exact ⟨[], by simp, trivial, rfl, hp⟩

theorem runWrites_chain (ops : List WriteOp) : ∀ (stream out : OStream),
    runWrites stream ops = .ok out → stream.prev_parse_offset < 4294967296 →
    ∃ new, out.infos = stream.infos ++ new ∧ chainFrom stream.prev_parse_offset new ∧
      out.prev_parse_offset = chainEnd stream.prev_parse_offset new ∧
      out.prev_parse_offset < 4294967296 := by
  induction ops with
  | nil =>
    intro stream out h hp
    simp only [runWrites, Except.ok.injEq] at h
    subst h
    exact ⟨[], by simp, trivial, rfl, hp⟩
  | cons op ops ih =>
    intro stream out h hp
    simp only [runWrites] at h
    cases h1 : op.run stream with
    | error e => simp [h1] at h
    | ok stream1 =>
      simp only [h1] at h
      obtain ⟨new1, ha1, hb1, hc1, hd1⟩ := WriteOp.run_chain op stream stream1 h1 hp
      obtain ⟨new2, ha2, hb2, hc2, hd2⟩ := ih stream1 out h hd1
      refine ⟨new1 ++ new2, ?_, ?_, ?_, hd2⟩
      · rw [ha2, ha1, List.append_assoc]
      · rw [chainFrom_append]
        exact ⟨hb1, by rw [← hc1]; exact hb2⟩
      · rw [chainEnd_append, ← hc1]
        exact hc2

/-! ## Properties of the quantiser search -/

theorem searchLoop_done (size : Int → Int) (B t q d : Int) (trials : List Int) (hd : ¬ 0 < d) :
    searchLoop size B t q d trials = (q, trials) := by
  rw [searchLoop]
  simp [hd]

theorem searchLoop_step (size : Int → Int) (B t q d : Int) (trials : List Int) (hd : 0 < d) :
    searchLoop size B t q d trials =
      if size t ≤ B then
        searchLoop size B (t - d / 2) (if t < q then t else q) (d / 2) (trials ++ [t])
      else searchLoop size B (t + d / 2) q (d / 2) (trials ++ [t]) := by
  rw [searchLoop]
  simp [hd]

theorem two_pow_succ_half (k : Nat) : ((2 : Int) ^ (k + 1)) / 2 = 2 ^ k := by
  rw [pow_succ]
  omega

theorem two_pow_pos_int (k : Nat) : (0 : Int) < 2 ^ k := by
  positivity

/-- From a state whose `delta` is `2 ^ k`, the loop makes `k + 1` further trials, all
within `2 ^ k - 1` of the current `trialQ`, and the final `q` is the least of the initial
`q` and the trials that fitted. -/
theorem searchLoop_trace (size : Int → Int) (B : Int) (k : Nat) :
    ∀ (t q : Int) (trials : List Int),
      ∃ new : List Int,
        (searchLoop size B t q (2 ^ k) trials).2 = trials ++ new ∧
        new.length = k + 1 ∧
        (∀ x ∈ new, t - (2 ^ k - 1) ≤ x ∧ x ≤ t + (2 ^ k - 1)) ∧
        (searchLoop size B t q (2 ^ k) trials).1 ≤ q ∧
        (∀ x ∈ new, size x ≤ B → (searchLoop size B t q (2 ^ k) trials).1 ≤ x) ∧
        ((searchLoop size B t q (2 ^ k) trials).1 = q ∨
          ((searchLoop size B t q (2 ^ k) trials).1 ∈ new ∧
            size (searchLoop size B t q (2 ^ k) trials).1 ≤ B)) := by
  induction k with
  | zero =>
    intro t q trials
    refine ⟨[t], ?_⟩
    rw [searchLoop_step size B t q _ trials (by norm_num)]
    have h0 : ((2 : Int) ^ 0) / 2 = 0 := by norm_num
    rw [h0]
    by_cases hf : size t ≤ B
    · rw [if_pos hf, searchLoop_done _ _ _ _ _ _ (by norm_num)]
      by_cases htq : t < q
      · simp [htq, hf]
        omega
      · simp [htq, hf]
        omega
    · rw [if_neg hf, searchLoop_done _ _ _ _ _ _ (by norm_num)]
      simp [hf]
  | succ k ih =>
    intro t q trials
    have hp := two_pow_pos_int k
    have h2 : (2 : Int) ^ (k + 1) = 2 * 2 ^ k := by rw [pow_succ]; ring
    rw [searchLoop_step size B t q _ trials (two_pow_pos_int (k + 1)), two_pow_succ_half]
    by_cases hf : size t ≤ B
    · rw [if_pos hf]
      obtain ⟨q1, hq1, hle, hlt, hor⟩ : ∃ q1 : Int, (if t < q then t else q) = q1 ∧ q1 ≤ q ∧
          q1 ≤ t ∧ (q1 = t ∨ q1 = q) := by
        by_cases htq : t < q
        · exact ⟨t, by simp [htq], by omega, le_refl _, Or.inl rfl⟩
        · exact ⟨q, by simp [htq], le_refl _, by omega, Or.inr rfl⟩
      rw [hq1]
      obtain ⟨new, h1, h2', h3, h4, h5, h6⟩ := ih (t - 2 ^ k) q1 (trials ++ [t])
      refine ⟨t :: new, ?_, ?_, ?_, ?_, ?_, ?_⟩
      · simpa using h1
      · simp [h2']
      · intro x hx
        rcases List.mem_cons.mp hx with rfl | hx
        · omega
        · have := h3 x hx
          omega
      · omega
      · intro x hx hxf
        rcases List.mem_cons.mp hx with rfl | hx
        · omega
        · exact h5 x hx hxf
      · rcases h6 with h6 | ⟨h6, h7⟩
        · rcases hor with hor | hor
          · right
            rw [h6, hor]
            exact ⟨List.mem_cons_self _ _, hf⟩
          · left
            rw [h6, hor]
        · right
          exact ⟨List.mem_cons_of_mem _ h6, h7⟩
    · rw [if_neg hf]
      obtain ⟨new, h1, h2', h3, h4, h5, h6⟩ := ih (t + 2 ^ k) q (trials ++ [t])
      refine ⟨t :: new, ?_, ?_, ?_, ?_, ?_, ?_⟩
      · simpa using h1
      · simp [h2']
      · intro x hx
        rcases List.mem_cons.mp hx with rfl | hx
        · omega
        · have := h3 x hx
          omega
      · exact h4
      · intro x hx hxf
        rcases List.mem_cons.mp hx with rfl | hx
        · exact absurd hxf hf
        · exact h5 x hx hxf
      · rcases h6 with h6 | ⟨h6, h7⟩
        · left
          exact h6
        · right
          exact ⟨List.mem_cons_of_mem _ h6, h7⟩

/-- Binary search over a monotone fit: when every index below the current window does not
fit and `q` sits just above the window, the final `q` has nothing fitting below it and is
either the initial `q` or an index that fits. -/
theorem searchLoop_least (size : Int → Int) (B : Int)
    (hmono : ∀ a b : Int, 0 ≤ a → a ≤ b → b ≤ 127 → size b ≤ size a) (k : Nat) :
    ∀ (t q : Int) (trials : List Int),
      0 ≤ t - (2 ^ k - 1) → q = t + 2 ^ k → q ≤ 127 →
      (∀ x : Int, 0 ≤ x → x < t - (2 ^ k - 1) → ¬ size x ≤ B) →
      (∀ x : Int, 0 ≤ x → x < (searchLoop size B t q (2 ^ k) trials).1 → ¬ size x ≤ B) ∧
      ((searchLoop size B t q (2 ^ k) trials).1 = q ∨
        size (searchLoop size B t q (2 ^ k) trials).1 ≤ B) ∧
      0 ≤ (searchLoop size B t q (2 ^ k) trials).1 ∧
      (searchLoop size B t q (2 ^ k) trials).1 ≤ q := by
  induction k with
  | zero =>
    intro t q trials hlo hq hq127 hbelow
    rw [searchLoop_step size B t q _ trials (by norm_num)]
    have h0 : ((2 : Int) ^ 0) / 2 = 0 := by norm_num
    rw [h0]
    simp only [pow_zero] at hlo hq hbelow
    by_cases hf : size t ≤ B
    · rw [if_pos hf, searchLoop_done _ _ _ _ _ _ (by norm_num)]
      have htq : t < q := by omega
      simp only [if_pos htq]
      refine ⟨fun x hx0 hxt => hbelow x hx0 (by omega), Or.inr hf, by omega, by omega⟩
    · rw [if_neg hf, searchLoop_done _ _ _ _ _ _ (by norm_num)]
      refine ⟨fun x hx0 hxq => ?_, Or.inl rfl, by omega, le_refl _⟩
      by_cases hxt : x < t
      · exact hbelow x hx0 (by omega)
      · have : x = t := by
          simp only at hxq
          omega
        rw [this]
        exact hf
  | succ k ih =>
    intro t q trials hlo hq hq127 hbelow
    have hp := two_pow_pos_int k
    have h2 : (2 : Int) ^ (k + 1) = 2 * 2 ^ k := by rw [pow_succ]; ring
    rw [searchLoop_step size B t q _ trials (two_pow_pos_int (k + 1)), two_pow_succ_half]
    rw [h2] at hlo hq hbelow
    by_cases hf : size t ≤ B
    · rw [if_pos hf]
      have htq : t < q := by omega
      rw [if_pos htq]
      obtain ⟨h1, h3, h4, h5⟩ := ih (t - 2 ^ k) t (trials ++ [t]) (by omega) (by omega)
        (by omega) (fun x hx0 hx => hbelow x hx0 (by omega))
      refine ⟨h1, Or.inr ?_, h4, by omega⟩
      rcases h3 with h3 | h3
      · rw [h3]
        exact hf
      · exact h3
    · rw [if_neg hf]
      refine ih (t + 2 ^ k) q (trials ++ [t]) (by omega) (by omega) hq127 (fun x hx0 hx => ?_)
      by_cases hxlo : x < t - (2 * 2 ^ k - 1)
      · exact hbelow x hx0 hxlo
      · intro hxf
        have := hmono x t hx0 (by omega) (by omega)
        exact hf (by omega)

/-- The search for one slice makes exactly 7 trials, all in `[0, 126]`; its result lies in
`[0, 127]`, is at most every trial that fitted, and is 127 or a trial that fitted. -/
theorem searchSlice_trace (size : Int → Int) (sliceBytes : Int) :
    (searchSlice size sliceBytes).2.length = 7 ∧
    (∀ x ∈ (searchSlice size sliceBytes).2, 0 ≤ x ∧ x ≤ 126) ∧
    (searchSlice size sliceBytes).1 ≤ 127 ∧
    (∀ x ∈ (searchSlice size sliceBytes).2, size x ≤ sliceBytes - 4 →
      (searchSlice size sliceBytes).1 ≤ x) ∧
    ((searchSlice size sliceBytes).1 = 127 ∨
      ((searchSlice size sliceBytes).1 ∈ (searchSlice size sliceBytes).2 ∧
        size (searchSlice size sliceBytes).1 ≤ sliceBytes - 4)) := by
  obtain ⟨new, h1, h2, h3, h4, h5, h6⟩ := searchLoop_trace size (sliceBytes - 4) 6 63 127 []
  have h64 : ((2 : Int) ^ 6) = 64 := by norm_num
  rw [h64] at h1 h3 h4 h5 h6
  simp only [List.nil_append] at h1
  unfold searchSlice
  rw [h1]
  refine ⟨h2, fun x hx => ?_, h4, h5, h6⟩
  have := h3 x hx
  omega

/-! ## Properties of the bit reader -/

theorem readVLCFrom_pairs (ds : List Bool) (rest : List Bool) : ∀ v : Nat,
    readVLCFrom ((ds.flatMap fun b => [false, b]) ++ true :: rest) v =
      .ok (ds.foldl (fun a b => 2 * a + (if b then 1 else 0)) v - 1, rest) := by
  induction ds with
  | nil => intro v; simp [readVLCFrom]
  | cons d ds ih =>
    intro v
    simp only [List.flatMap_cons, List.cons_append, List.nil_append, readVLCFrom, List.foldl_cons]
    exact ih _

theorem dataBits_value (f : Nat) : ∀ m : Nat, 1 ≤ m → m ≤ f →
    (dataBits f m).foldl (fun a b => 2 * a + (if b then 1 else 0)) 1 = m := by
  induction f with
  | zero => intro m h1 hf; omega
  | succ f ih =>
    intro m h1 hf
    unfold dataBits
    by_cases hm : m ≤ 1
    · simp only [if_pos hm, List.foldl_nil]
      omega
    · rw [if_neg hm, List.foldl_append, ih (m / 2) (by omega) (by omega)]
      simp only [List.foldl_cons, List.foldl_nil, beq_iff_eq]
      split_ifs <;> omega

/-- Reading back a written `UnsignedVLC`: the value is recovered and the bits after the code
are left. -/
theorem readUnsignedVLC_append (n : Nat) (rest : List Bool) :
    readUnsignedVLC (UnsignedVLC n ++ rest) = .ok (n, rest) := by
  unfold readUnsignedVLC UnsignedVLC
  rw [List.append_assoc, List.singleton_append, readVLCFrom_pairs,
    dataBits_value (n + 1) (n + 1) (by omega) (le_refl _)]
  rfl

theorem readBoolean_cons (b : Bool) (rest : List Bool) :
    readBoolean (b :: rest) = .ok (b, rest) :=
  rfl

theorem toInt_of_lt (n : Nat) (h : n < 2147483648) : toInt n = (n : Int) := by
  unfold toInt
  have h1 : n % 4294967296 = n := Nat.mod_eq_of_lt (by omega)
  rw [h1, if_pos h]

theorem toInt_toUnsigned (x : Int) (h1 : -2147483648 ≤ x) (h2 : x < 2147483648) :
    toInt (toUnsigned x) = x := by
  unfold toInt toUnsigned
  split_ifs <;> omega

theorem bitsOfByte_byteOfBits (b0 b1 b2 b3 b4 b5 b6 b7 : Bool) :
    bitsOfByte (byteOfBits [b0, b1, b2, b3, b4, b5, b6, b7]) = [b0, b1, b2, b3, b4, b5, b6, b7] := by
  cases b0 <;> cases b1 <;> cases b2 <;> cases b3 <;> cases b4 <;> cases b5 <;> cases b6 <;>
    cases b7 <;> rfl

theorem padBits_length_lt (bits : List Bool) : (padBits bits).length < 8 := by
  simp only [padBits, List.length_replicate]
  omega

theorem flatMap_bitsOfByte_packBits : ∀ bits : List Bool,
    (packBits bits).flatMap bitsOfByte = bits ++ padBits bits
  | b0 :: b1 :: b2 :: b3 :: b4 :: b5 :: b6 :: b7 :: rest => by
    have ih := flatMap_bitsOfByte_packBits rest
    have hp : padBits (b0 :: b1 :: b2 :: b3 :: b4 :: b5 :: b6 :: b7 :: rest) = padBits rest := by
      simp only [padBits, List.length_cons]
      congr 1
      omega
    simp only [packBits, List.flatMap_cons, ih, hp, bitsOfByte_byteOfBits, List.cons_append,
      List.nil_append]
  | [] => by simp [packBits, padBits]
  | [b0] => by
    simp [packBits, padBits, List.replicate]
    exact bitsOfByte_byteOfBits b0 false false false false false false false
  | [b0, b1] => by
    simp [packBits, padBits, List.replicate]
    exact bitsOfByte_byteOfBits b0 b1 false false false false false false
  | [b0, b1, b2] => by
    simp [packBits, padBits, List.replicate]
    exact bitsOfByte_byteOfBits b0 b1 b2 false false false false false
  | [b0, b1, b2, b3] => by
    simp [packBits, padBits, List.replicate]
    exact bitsOfByte_byteOfBits b0 b1 b2 b3 false false false false
  | [b0, b1, b2, b3, b4] => by
    simp [packBits, padBits, List.replicate]
    exact bitsOfByte_byteOfBits b0 b1 b2 b3 b4 false false false
  | [b0, b1, b2, b3, b4, b5] => by
    simp [packBits, padBits, List.replicate]
    exact bitsOfByte_byteOfBits b0 b1 b2 b3 b4 b5 false false
  | [b0, b1, b2, b3, b4, b5, b6] => by
    simp [packBits, padBits, List.replicate]
    exact bitsOfByte_byteOfBits b0 b1 b2 b3 b4 b5 b6 false

theorem flatMap_bitsOfByte_length (bytes : List Nat) :
    (bytes.flatMap bitsOfByte).length = 8 * bytes.length := by
  induction bytes with
  | nil => rfl
  | cons b bs ih =>
    simp only [List.flatMap_cons, List.length_append, ih, List.length_cons]
    simp only [bitsOfByte, List.length_cons, List.length_nil]
    omega

/-- After the bit reader has consumed a packed bit string, `vlc::align` skips the padding
and the stream is left at the first byte after it. -/
theorem afterBits_alignBits (pre tail : List Nat) (pad : List Bool) (hpad : pad.length < 8) :
    (⟨pre ++ tail, true⟩ : IStream).afterBits (alignBits (pad ++ tail.flatMap bitsOfByte)) =
      ⟨tail, true⟩ := by
  have h1 : alignBits (pad ++ tail.flatMap bitsOfByte) = tail.flatMap bitsOfByte := by
    unfold alignBits
    rw [List.length_append, flatMap_bitsOfByte_length]
    have : (pad.length + 8 * tail.length) % 8 = pad.length := by omega
    rw [this, List.drop_left]
  rw [h1]
  unfold IStream.afterBits
  simp only [flatMap_bitsOfByte_length, List.length_append]
  have : pre.length + tail.length - 8 * tail.length / 8 = pre.length := by omega
  rw [this, List.drop_left]

theorem bits_packBits_append (bits : List Bool) (tail : List Nat) :
    (⟨packBits bits ++ tail, true⟩ : IStream).bits =
      bits ++ (padBits bits ++ tail.flatMap bitsOfByte) := by
  simp only [IStream.bits, if_true, List.flatMap_append, flatMap_bitsOfByte_packBits,
    List.append_assoc]

theorem readBytes_bytesBE_four (v : Nat) (tail : List Nat) :
    IStream.readBytes 4 ⟨bytesBE 4 v ++ tail, true⟩ = (v % 4294967296, ⟨tail, true⟩) := by
  simp only [bytesBE, IStream.readBytes, IStream.readByte, List.cons_append, List.nil_append,
    if_true, Prod.mk.injEq, and_true]
  norm_num
  omega

theorem readBits_HQ (mode : SliceIOMode) (hmode : mode = .HQVBR ∨ mode = .HQCBR)
    (hdr : PicturePreamble) (w depth sx sy sp ss : Nat) (q : Bool) (rest : List Bool) :
    PicturePreamble.readBits mode hdr
      (UnsignedVLC w ++ (UnsignedVLC depth ++ (UnsignedVLC sx ++ (UnsignedVLC sy ++
        (UnsignedVLC sp ++ (UnsignedVLC ss ++ (q :: rest))))))) =
      if q then .error "DataUnitIO: Custom Quantisation Matrix flag not supported"
      else .ok ({ hdr with
          wavelet_kernel := hdr.wavelet_kernel.ofIndex (w % 4294967296)
          depth := toInt depth
          slices_x := toInt sx
          slices_y := toInt sy
          slice_prefix := toInt sp
          slice_size_scalar := toInt ss
          slice_bytes := rationalise 0 1 }, rest) := by
  unfold PicturePreamble.readBits
  simp only [readUnsignedVLC_append, readBoolean_cons, bind, Except.bind, hmode, if_true, pure,
    Except.pure]

/-! ## Properties of the video-format reader -/

theorem readClearFlag_cons (message : String) (flag : Bool) (rest : List Bool) :
    readClearFlag message (flag :: rest) = if flag then .error message else .ok rest := by
  cases flag <;> rfl

theorem readVersions_written (fmt : video_format) (major minor profile level base : Nat)
    (rest : List Bool) :
    fmt.readVersions (UnsignedVLC major ++ (UnsignedVLC minor ++ (UnsignedVLC profile ++
        (UnsignedVLC level ++ (UnsignedVLC base ++ rest))))) =
      .ok ({ fmt with major_version := toInt major, minor_version := toInt minor,
                      profile := toInt profile, level := toInt level,
                      base_video_format := toInt base }, rest) := by
  unfold video_format.readVersions
  simp only [readUnsignedVLC_append, bind, Except.bind, pure, Except.pure]

theorem readDimensions_written (fmt : video_format) (flag : Bool) (fw fh : Nat)
    (rest : List Bool) :
    fmt.readDimensions
        (flag :: ((if flag then UnsignedVLC fw ++ UnsignedVLC fh else []) ++ rest)) =
      .ok ({ fmt with custom_dimensions_flag := flag,
                      frame_width := if flag then toInt fw else fmt.frame_width,
                      frame_height := if flag then toInt fh else fmt.frame_height }, rest) := by
  unfold video_format.readDimensions
  cases flag <;>
    simp only [readUnsignedVLC_append, readBoolean_cons, bind, Except.bind, pure, Except.pure,
      if_true, if_false, Bool.false_eq_true, List.append_assoc, List.nil_append]

theorem readScanFormat_written (fmt : video_format) (flag : Bool) (sampling : Nat)
    (rest : List Bool) :
    fmt.readScanFormat (flag :: ((if flag then UnsignedVLC sampling else []) ++ rest)) =
      .ok ({ fmt with custom_scan_format_flag := flag,
                      source_sampling := if flag then toInt sampling else fmt.source_sampling },
        rest) := by
  unfold video_format.readScanFormat
  cases flag <;>
    simp only [readUnsignedVLC_append, readBoolean_cons, bind, Except.bind, pure, Except.pure,
      if_true, if_false, Bool.false_eq_true, List.append_assoc, List.nil_append]

theorem readFrameRate_written (fmt : video_format) (flag : Bool) (index : Nat)
    (rest : List Bool) :
    fmt.readFrameRate (flag :: ((if flag then UnsignedVLC index else []) ++ rest)) =
      if flag then
        match FrameRate.ofIndex (index % 4294967296) with
        | some r => .ok ({ fmt with custom_frame_rate_flag := true, frame_rate := r }, rest)
        | none => .error "DataUnitIO: Invalid Frame Rate"
      else .ok ({ fmt with custom_frame_rate_flag := false }, rest) := by
  unfold video_format.readFrameRate
  cases flag <;>
    simp only [readUnsignedVLC_append, readBoolean_cons, bind, Except.bind, pure, Except.pure,
      if_true, if_false, Bool.false_eq_true, List.append_assoc, List.nil_append]
  cases FrameRate.ofIndex (index % 4294967296) <;> rfl

theorem readSignalRange_written (fmt : video_format) (flag : Bool) (bd : Nat)
    (rest : List Bool) :
    fmt.readSignalRange (flag :: ((if flag then UnsignedVLC bd else []) ++ rest)) =
      .ok ({ fmt with custom_signal_range_flag := flag,
                      bitdepth := if flag then toInt bd else fmt.bitdepth }, rest) := by
  unfold video_format.readSignalRange
  cases flag <;>
    simp only [readUnsignedVLC_append, readBoolean_cons, bind, Except.bind, pure, Except.pure,
      if_true, if_false, Bool.false_eq_true, List.append_assoc, List.nil_append]

theorem readPictureCodingMode_written (fmt : video_format) (pcm : Nat) (rest : List Bool) :
    fmt.readPictureCodingMode (UnsignedVLC pcm ++ rest) =
      .ok ({ fmt with picture_coding_mode := toInt pcm }, rest) := by
  unfold video_format.readPictureCodingMode
  simp only [readUnsignedVLC_append, bind, Except.bind, pure, Except.pure]

theorem readBits_wireBits (fmt : video_format) (major minor profile level base : Nat)
    (dims : Bool) (fw fh : Nat) (scan : Bool) (sampling : Nat) (rate : Bool) (index : Nat)
    (range : Bool) (bd pcm : Nat) (rest : List Bool) :
    fmt.readBits (wireBits major minor profile level base dims fw fh scan sampling rate index
        range bd pcm ++ rest) =
      if rate = true ∧ FrameRate.ofIndex (index % 4294967296) = none then
        .error "DataUnitIO: Invalid Frame Rate"
      else
        .ok ({ major_version := toInt major
               minor_version := toInt minor
               profile := toInt profile
               level := toInt level
               base_video_format := toInt base
               custom_dimensions_flag := dims
               frame_width := if dims then toInt fw else fmt.frame_width
               frame_height := if dims then toInt fh else fmt.frame_height
               custom_scan_format_flag := scan
               source_sampling := if scan then toInt sampling else fmt.source_sampling
               custom_signal_range_flag := range
               bitdepth := if range then toInt bd else fmt.bitdepth
               custom_frame_rate_flag := rate
               frame_rate := if rate then (FrameRate.ofIndex (index % 4294967296)).getD fmt.frame_rate
                 else fmt.frame_rate
               picture_coding_mode := toInt pcm }, rest) := by
  unfold video_format.readBits wireBits
  simp only [Boolean, List.append_assoc, List.singleton_append, List.cons_append,
    List.nil_append]
  simp only [readVersions_written, bind, Except.bind]
  simp only [readDimensions_written]
  simp only [readClearFlag_cons, Bool.false_eq_true, if_false]
  simp only [readScanFormat_written]
  simp only [readFrameRate_written]
  cases rate
  · simp only [Bool.false_eq_true, if_false, readClearFlag_cons, readSignalRange_written,
      readPictureCodingMode_written, false_and]
  · cases h : FrameRate.ofIndex (index % 4294967296) with
    | none => simp only [if_true, true_and]
    | some r =>
      simp only [if_true, Bool.false_eq_true, if_false, readClearFlag_cons,
        readSignalRange_written, readPictureCodingMode_written, true_and, Option.getD_some]
      rfl

theorem readBits_LD (hdr : PicturePreamble) (w depth sx sy num den : Nat) (q : Bool)
    (rest : List Bool) :
    PicturePreamble.readBits .LD hdr
      (UnsignedVLC w ++ (UnsignedVLC depth ++ (UnsignedVLC sx ++ (UnsignedVLC sy ++
        (UnsignedVLC num ++ (UnsignedVLC den ++ (q :: rest))))))) =
      if q then .error "DataUnitIO: Custom Quantisation Matrix flag not supported"
      else .ok ({ hdr with
          wavelet_kernel := hdr.wavelet_kernel.ofIndex (w % 4294967296)
          depth := toInt depth
          slices_x := toInt sx
          slices_y := toInt sy
          slice_prefix := 0
          slice_size_scalar := 0
          slice_bytes := rationalise (toInt num) (toInt den) }, rest) := by
  unfold PicturePreamble.readBits
  simp only [readUnsignedVLC_append, readBoolean_cons, bind, Except.bind, if_true, pure,
    Except.pure, reduceCtorEq, or_self, if_false]

/-- Reading a preamble laid out as a picture number, six VLCs, the custom-quant-matrix bit
and padding, in an HQ mode. -/
theorem readPicturePreamble_HQ (mode : SliceIOMode) (hmode : mode = .HQVBR ∨ mode = .HQCBR)
    (hdr : PicturePreamble) (pn w depth sx sy sp ss : Nat) (q : Bool) (tail : List Nat) :
    readPicturePreamble mode hdr
      ⟨bytesBE 4 pn ++ packBits (UnsignedVLC w ++ UnsignedVLC depth ++ UnsignedVLC sx ++
        UnsignedVLC sy ++ UnsignedVLC sp ++ UnsignedVLC ss ++ Boolean q) ++ tail, true⟩ =
      if q then .error "DataUnitIO: Custom Quantisation Matrix flag not supported"
      else .ok ({ picture_number := pn % 4294967296
                  wavelet_kernel := hdr.wavelet_kernel.ofIndex (w % 4294967296)
                  depth := toInt depth
                  slices_x := toInt sx
                  slices_y := toInt sy
                  slice_prefix := toInt sp
                  slice_size_scalar := toInt ss
                  slice_bytes := rationalise 0 1 }, ⟨tail, true⟩) := by
  unfold readPicturePreamble
  rw [List.append_assoc, readBytes_bytesBE_four]
  simp only [bits_packBits_append, Boolean, List.append_assoc, List.singleton_append,
    readBits_HQ mode hmode]
  cases q
  · simp only [Bool.false_eq_true, if_false]
    rw [afterBits_alignBits _ _ _ (padBits_length_lt _)]
  · simp only [if_true]

/-- Reading a preamble laid out as a picture number, six VLCs, the custom-quant-matrix bit
and padding, in LD mode. -/
theorem readPicturePreamble_LD (hdr : PicturePreamble) (pn w depth sx sy num den : Nat)
    (q : Bool) (tail : List Nat) :
    readPicturePreamble .LD hdr
      ⟨bytesBE 4 pn ++ packBits (UnsignedVLC w ++ UnsignedVLC depth ++ UnsignedVLC sx ++
        UnsignedVLC sy ++ UnsignedVLC num ++ UnsignedVLC den ++ Boolean q) ++ tail, true⟩ =
      if q then .error "DataUnitIO: Custom Quantisation Matrix flag not supported"
      else .ok ({ picture_number := pn % 4294967296
                  wavelet_kernel := hdr.wavelet_kernel.ofIndex (w % 4294967296)
                  depth := toInt depth
                  slices_x := toInt sx
                  slices_y := toInt sy
                  slice_prefix := 0
                  slice_size_scalar := 0
                  slice_bytes := rationalise (toInt num) (toInt den) }, ⟨tail, true⟩) := by
  unfold readPicturePreamble
  rw [List.append_assoc, readBytes_bytesBE_four]
  simp only [bits_packBits_append, Boolean, List.append_assoc, List.singleton_append,
    readBits_LD]
  cases q
  · simp only [Bool.false_eq_true, if_false]
    rw [afterBits_alignBits _ _ _ (padBits_length_lt _)]
  · simp only [if_true]

/-- Reading a video format laid out as `wireBits` and padded to a whole number of bytes. -/
theorem readVideoFormat_wireBits (fmt : video_format) (major minor profile level base : Nat)
    (dims : Bool) (fw fh : Nat) (scan : Bool) (sampling : Nat) (rate : Bool) (index : Nat)
    (range : Bool) (bd pcm : Nat) (tail : List Nat) :
    readVideoFormat
        ⟨packBits (wireBits major minor profile level base dims fw fh scan sampling rate index
          range bd pcm) ++ tail, true⟩ fmt =
      if rate = true ∧ FrameRate.ofIndex (index % 4294967296) = none then
        .error "DataUnitIO: Invalid Frame Rate"
      else
        .ok ({ major_version := toInt major
               minor_version := toInt minor
               profile := toInt profile
               level := toInt level
               base_video_format := toInt base
               custom_dimensions_flag := dims
               frame_width := if dims then toInt fw else fmt.frame_width
               frame_height := if dims then toInt fh else fmt.frame_height
               custom_scan_format_flag := scan
               source_sampling := if scan then toInt sampling else fmt.source_sampling
               custom_signal_range_flag := range
               bitdepth := if range then toInt bd else fmt.bitdepth
               custom_frame_rate_flag := rate
               frame_rate := if rate then (FrameRate.ofIndex (index % 4294967296)).getD fmt.frame_rate
                 else fmt.frame_rate
               picture_coding_mode := toInt pcm }, ⟨tail, true⟩) := by
  unfold readVideoFormat
  rw [bits_packBits_append, readBits_wireBits]
  by_cases h : rate = true ∧ FrameRate.ofIndex (index % 4294967296) = none
  · simp only [h, and_self, if_true]
  · simp only [h, if_false]
    rw [afterBits_alignBits _ _ _ (padBits_length_lt _)]

theorem FrameRate.ofIndex_eq_none_iff (i : Nat) :
    FrameRate.ofIndex i = none ↔ ¬ (1 ≤ i ∧ i ≤ 11) := by
  unfold FrameRate.ofIndex
  constructor
  · intro h hi
    obtain ⟨h1, h11⟩ := hi
    interval_cases i <;> simp at h
  · intro h
    have hne : ∀ k : Nat, 1 ≤ k → k ≤ 11 → i ≠ k := by
      intro k hk1 hk11 heq
      exact h (by omega)
    simp [hne 1, hne 2, hne 3, hne 4, hne 5, hne 6, hne 7, hne 8, hne 9, hne 10, hne 11]

/-! ## Properties of the preset tests -/

theorem PictureFormatMatches_false_of_not_mem (h : SequenceHeader) (r : TableRow)
    (hr : r ∈ base_video_format_table) (hil : h.interlace = r.interlace)
    (hrow : h.row ∉ base_video_format_table) :
    PictureFormatMatches h r.width r.height r.chromaFormat r.frameRate r.bitdepth = false := by
  by_contra hne
  have ht : PictureFormatMatches h r.width r.height r.chromaFormat r.frameRate r.bitdepth = true := by
    cases hm : PictureFormatMatches h r.width r.height r.chromaFormat r.frameRate r.bitdepth
    · exact absurd hm hne
    · rfl
  simp only [PictureFormatMatches, Bool.and_eq_true, beq_iff_eq] at ht
  obtain ⟨⟨⟨⟨h1, h2⟩, h3⟩, h4⟩, h5⟩ := ht
  have : h.row = r := by
    cases r
    simp only [SequenceHeader.row, TableRow.mk.injEq]
    exact ⟨h1, h2, h3, hil, h4, h5⟩
  rw [this] at hrow
  exact hrow hr

theorem matchPresets_none (h : SequenceHeader) (v : video_format)
    (hrow : h.row ∉ base_video_format_table) (hnear : h.nearPreset = false) :
    video_format.matchPresets h v = v := by
  unfold SequenceHeader.nearPreset at hnear
  unfold video_format.matchPresets
  cases hil : h.interlace
  · rw [hil] at hnear
    simp only [Bool.false_eq_true, if_false, Bool.or_eq_false_iff] at hnear
    obtain ⟨⟨⟨⟨⟨n1, n2⟩, n3⟩, n4⟩, n5⟩, n6⟩ := hnear
    have p0 : PictureFormatMatches h 176 120 .CF420 .FR15000_1001 8 = false :=
      PictureFormatMatches_false_of_not_mem h ⟨176, 120, .CF420, false, .FR15000_1001, 8⟩
        (by simp [base_video_format_table]) hil hrow
    have p1 : PictureFormatMatches h 176 144 .CF420 .FR25_2 8 = false :=
      PictureFormatMatches_false_of_not_mem h ⟨176, 144, .CF420, false, .FR25_2, 8⟩
        (by simp [base_video_format_table]) hil hrow
    have p2 : PictureFormatMatches h 352 240 .CF420 .FR15000_1001 8 = false :=
      PictureFormatMatches_false_of_not_mem h ⟨352, 240, .CF420, false, .FR15000_1001, 8⟩
        (by simp [base_video_format_table]) hil hrow
    have p3 : PictureFormatMatches h 352 288 .CF420 .FR25_2 8 = false :=
      PictureFormatMatches_false_of_not_mem h ⟨352, 288, .CF420, false, .FR25_2, 8⟩
        (by simp [base_video_format_table]) hil hrow
    have p4 : PictureFormatMatches h 704 480 .CF420 .FR15000_1001 8 = false :=
      PictureFormatMatches_false_of_not_mem h ⟨704, 480, .CF420, false, .FR15000_1001, 8⟩
        (by simp [base_video_format_table]) hil hrow
    have p5 : PictureFormatMatches h 704 576 .CF420 .FR25_2 8 = false :=
      PictureFormatMatches_false_of_not_mem h ⟨704, 576, .CF420, false, .FR25_2, 8⟩
        (by simp [base_video_format_table]) hil hrow
    have p6 : PictureFormatMatches h 1280 720 .CF422 .FR60000_1001 10 = false :=
      PictureFormatMatches_false_of_not_mem h ⟨1280, 720, .CF422, false, .FR60000_1001, 10⟩
        (by simp [base_video_format_table]) hil hrow
    have p7 : PictureFormatMatches h 1280 720 .CF422 .FR50 10 = false :=
      PictureFormatMatches_false_of_not_mem h ⟨1280, 720, .CF422, false, .FR50, 10⟩
        (by simp [base_video_format_table]) hil hrow
    have p8 : PictureFormatMatches h 1920 1080 .CF422 .FR60000_1001 10 = false :=
      PictureFormatMatches_false_of_not_mem h ⟨1920, 1080, .CF422, false, .FR60000_1001, 10⟩
        (by simp [base_video_format_table]) hil hrow
    have p9 : PictureFormatMatches h 1920 1080 .CF422 .FR50 10 = false :=
      PictureFormatMatches_false_of_not_mem h ⟨1920, 1080, .CF422, false, .FR50, 10⟩
        (by simp [base_video_format_table]) hil hrow
    have p10 : PictureFormatMatches h 1920 1080 .CF422 .FR24000_1001 10 = false :=
      PictureFormatMatches_false_of_not_mem h ⟨1920, 1080, .CF422, false, .FR24000_1001, 10⟩
        (by simp [base_video_format_table]) hil hrow
    have p11 : PictureFormatMatches h 2048 1080 .CF444 .FR24 12 = false :=
      PictureFormatMatches_false_of_not_mem h ⟨2048, 1080, .CF444, false, .FR24, 12⟩
        (by simp [base_video_format_table]) hil hrow
    have p12 : PictureFormatMatches h 4096 2160 .CF444 .FR24 12 = false :=
      PictureFormatMatches_false_of_not_mem h ⟨4096, 2160, .CF444, false, .FR24, 12⟩
        (by simp [base_video_format_table]) hil hrow
    have p13 : PictureFormatMatches h 3840 2160 .CF422 .FR60000_1001 10 = false :=
      PictureFormatMatches_false_of_not_mem h ⟨3840, 2160, .CF422, false, .FR60000_1001, 10⟩
        (by simp [base_video_format_table]) hil hrow
    have p14 : PictureFormatMatches h 3840 2160 .CF422 .FR50 10 = false :=
      PictureFormatMatches_false_of_not_mem h ⟨3840, 2160, .CF422, false, .FR50, 10⟩
        (by simp [base_video_format_table]) hil hrow
    have p15 : PictureFormatMatches h 7680 4320 .CF422 .FR60000_1001 10 = false :=
      PictureFormatMatches_false_of_not_mem h ⟨7680, 4320, .CF422, false, .FR60000_1001, 10⟩
        (by simp [base_video_format_table]) hil hrow
    have p16 : PictureFormatMatches h 7680 4320 .CF422 .FR50 10 = false :=
      PictureFormatMatches_false_of_not_mem h ⟨7680, 4320, .CF422, false, .FR50, 10⟩
        (by simp [base_video_format_table]) hil hrow
    simp only [Bool.false_eq_true, if_false, n1, n2, n3, n4, n5, n6, p0, p1, p2, p3, p4, p5, p6, p7, p8, p9, p10, p11, p12, p13, p14, p15, p16]
  · rw [hil] at hnear
    simp only [if_true] at hnear
    have t0 : PictureFormatMatches h 720 480 .CF422 .FR30000_1001 10 = false :=
      PictureFormatMatches_false_of_not_mem h ⟨720, 480, .CF422, true, .FR30000_1001, 10⟩
        (by simp [base_video_format_table]) hil hrow
    have t1 : PictureFormatMatches h 720 576 .CF422 .FR25 10 = false :=
      PictureFormatMatches_false_of_not_mem h ⟨720, 576, .CF422, true, .FR25, 10⟩
        (by simp [base_video_format_table]) hil hrow
    have t2 : PictureFormatMatches h 720 486 .CF422 .FR30000_1001 10 = false :=
      PictureFormatMatches_false_of_not_mem h ⟨720, 486, .CF422, true, .FR30000_1001, 10⟩
        (by simp [base_video_format_table]) hil hrow
    have t3 : PictureFormatMatches h 1920 1080 .CF422 .FR30000_1001 10 = false :=
      PictureFormatMatches_false_of_not_mem h ⟨1920, 1080, .CF422, true, .FR30000_1001, 10⟩
        (by simp [base_video_format_table]) hil hrow
    have t4 : PictureFormatMatches h 1920 1080 .CF422 .FR25 10 = false :=
      PictureFormatMatches_false_of_not_mem h ⟨1920, 1080, .CF422, true, .FR25, 10⟩
        (by simp [base_video_format_table]) hil hrow
    simp only [if_true, hnear, Bool.false_eq_true, if_false, t0, t1, t2, t3, t4]

/-! ## Properties of synchronisation -/

theorem synchronise_skip (b : Nat) (rest : List Nat) (hb : b ≠ 0x42) :
    synchronise ⟨b :: rest, true⟩ = synchronise ⟨rest, true⟩ := by
  rw [synchronise]
  simp [IStream.readByte, Ne.symm hb]

theorem synchronise_at_start (tail : List Nat) :
    synchronise ⟨0x42 :: 0x42 :: 0x43 :: 0x44 :: tail, true⟩ = ⟨tail, true⟩ := by
  rw [synchronise]
  simp [IStream.readByte]

theorem synchronise_junk (junk tail : List Nat) (hj : ∀ b ∈ junk, b ≠ 0x42) :
    synchronise ⟨junk ++ 0x42 :: 0x42 :: 0x43 :: 0x44 :: tail, true⟩ = ⟨tail, true⟩ := by
  induction junk with
  | nil => exact synchronise_at_start tail
  | cons b junk ih =>
    rw [List.cons_append, synchronise_skip b _ (hj b (List.mem_cons_self _ _))]
    exact ih (fun c hc => hj c (List.mem_cons_of_mem _ hc))

theorem readDataUnit_fst (b : Nat) (rest : List Nat) :
    (readDataUnit ⟨b :: rest, true⟩).1 = DataUnitType.ofParseCode (b % 256) := by
  simp [readDataUnit, IStream.readBytes, IStream.readByte]

/-! ## Properties of the slice geometry and the byte budgets -/

theorem utils.pow_two_pos (depth : Int) : 0 < utils.pow 2 depth := by
  unfold utils.pow
  positivity

theorem floor_div_eq (a b : Int) (hb : 0 < b) : ⌊(a : ℚ) / (b : ℚ)⌋ = a / b := by
  rw [Int.floor_eq_iff]
  have hbq : (0 : ℚ) < (b : ℚ) := by exact_mod_cast hb
  have h1 : b * (a / b) ≤ a := Int.mul_ediv_self_le (ne_of_gt hb)
  have h2 : a < b * (a / b) + b := Int.lt_mul_ediv_self_add hb
  constructor
  · rw [le_div_iff₀ hbq]
    have : ((a / b : Int) : ℚ) * (b : ℚ) = ((b * (a / b) : Int) : ℚ) := by push_cast; ring
    rw [this]
    exact_mod_cast h1
  · rw [div_lt_iff₀ hbq]
    have : (((a / b : Int) : ℚ) + 1) * (b : ℚ) = ((b * (a / b) + b : Int) : ℚ) := by
      push_cast; ring
    rw [this]
    exact_mod_cast h2

theorem ceil_div_eq (a b : Int) (hb : 0 < b) : ⌈(a : ℚ) / (b : ℚ)⌉ = -((-a) / b) := by
  have h := floor_div_eq (-a) b hb
  have hneg : ((-a : Int) : ℚ) / (b : ℚ) = -((a : ℚ) / (b : ℚ)) := by push_cast; ring
  rw [hneg, Int.floor_neg] at h
  omega

theorem paddedSize_eq_ceil (size depth : Int) :
    paddedSize size depth =
      ⌈(size : ℚ) / ((2 ^ depth.toNat : Int) : ℚ)⌉ * 2 ^ depth.toNat := by
  unfold paddedSize
  have hp : (0 : Int) < 2 ^ depth.toNat := by positivity
  rw [ceil_div_eq size _ hp]
  rfl

theorem tdiv_mul_ne_iff (a t : Int) : a ≠ Int.tdiv a t * t ↔ ¬ t ∣ a := by
  constructor
  · intro h hd
    exact h (Int.tdiv_mul_cancel hd).symm
  · intro h he
    exact h (Dvd.intro_left _ he.symm)

theorem slicesPerPicture_eq (ySize xSize height width waveletDepth : Int) (interlaced : Bool) :
    slicesPerPicture ySize xSize height width waveletDepth interlaced =
      if ¬ ySize * 2 ^ waveletDepth.toNat ∣
          paddedSize (if interlaced then Int.tdiv height 2 else height) waveletDepth then
        .error "Padded picture height is not divisible by slice height"
      else if ¬ xSize * 2 ^ waveletDepth.toNat ∣ paddedSize width waveletDepth then
        .error "Padded width is not divisible by slice width"
      else .ok (Int.tdiv (paddedSize (if interlaced then Int.tdiv height 2 else height)
          waveletDepth) (ySize * 2 ^ waveletDepth.toNat),
        Int.tdiv (paddedSize width waveletDepth) (xSize * 2 ^ waveletDepth.toNat)) := by
  unfold slicesPerPicture
  simp only [utils.pow, tdiv_mul_ne_iff]

theorem sliceBytes_inner_sum (ySlices xSlices : Nat) (pictureBytes : Int) (r : Nat) :
    ∑ c in Finset.range xSlices, sliceBytes ySlices xSlices pictureBytes r c =
      pictureBytes * (((r + 1 : Nat) : Int) * xSlices) / ((ySlices : Int) * xSlices) -
        pictureBytes * ((r : Int) * xSlices) / ((ySlices : Int) * xSlices) := by
  have h := Finset.sum_range_sub
    (fun c : Nat => pictureBytes * ((r : Int) * xSlices + c) / ((ySlices : Int) * xSlices))
    xSlices
  simp only [Nat.cast_add, Nat.cast_one, add_zero, Nat.cast_zero] at h
  unfold sliceBytes
  have e : ∀ c : Nat, (r : Int) * xSlices + ((c : Int) + 1) = (r : Int) * xSlices + c + 1 := by
    intro c; ring
  simp only [e] at h
  rw [h]
  have e2 : (r : Int) * xSlices + xSlices = ((r + 1 : Nat) : Int) * xSlices := by
    push_cast; ring
  rw [e2]

theorem sliceBytes_sum (ySlices xSlices : Nat) (pictureBytes : Int)
    (hy : 1 ≤ ySlices) (hx : 1 ≤ xSlices) :
    ∑ r in Finset.range ySlices, ∑ c in Finset.range xSlices,
      sliceBytes ySlices xSlices pictureBytes r c = pictureBytes := by
  simp only [sliceBytes_inner_sum]
  have h := Finset.sum_range_sub
    (fun r : Nat => pictureBytes * ((r : Int) * xSlices) / ((ySlices : Int) * xSlices))
    ySlices
  simp only at h
  rw [h]
  have hN : ((ySlices : Int) * xSlices) ≠ 0 := by positivity
  simp [Int.mul_ediv_cancel _ hN]

theorem sliceBytes_floor_or_ceil (N P k : Int) (hN : 0 < N) :
    P * (k + 1) / N - P * k / N = P / N ∨ P * (k + 1) / N - P * k / N = -((-P) / N) := by
  have hP : P = N * (P / N) + P % N := (Int.ediv_add_emod P N).symm
  have hr0 : 0 ≤ P % N := Int.emod_nonneg P (ne_of_gt hN)
  have hrN : P % N < N := Int.emod_lt_of_pos P hN
  set q := P / N with hq
  set m := P % N with hm
  have g : ∀ j : Int, P * j / N = q * j + m * j / N := by
    intro j
    have : P * j = m * j + N * (q * j) := by rw [hP]; ring
    rw [this, Int.add_mul_ediv_left _ _ (ne_of_gt hN)]
    ring
  have hneg : -((-P) / N) = if m = 0 then q else q + 1 := by
    have : -P = (-m) + N * (-q) := by rw [hP]; ring
    rw [this, Int.add_mul_ediv_left _ _ (ne_of_gt hN)]
    split_ifs with h0
    · simp [h0]
    · have hm1 : (-m) / N = -1 := by
        have e3 : -m = (N - m) + N * (-1) := by ring
        rw [e3, Int.add_mul_ediv_left _ _ (ne_of_gt hN),
          Int.ediv_eq_zero_of_lt (by omega) (by omega)]
        rfl
      omega
  rw [g (k + 1), g k, hneg]
  have hmk : m * (k + 1) = m * k + m := by ring
  rw [hmk]
  have lo : m * k / N ≤ (m * k + m) / N := Int.ediv_le_ediv hN (by omega)
  have hi : (m * k + m) / N ≤ m * k / N + 1 := by
    have : (m * k + N) / N = m * k / N + 1 := by
      rw [Int.add_ediv_of_dvd_right (dvd_refl N), Int.ediv_self (ne_of_gt hN)]
    rw [← this]
    exact Int.ediv_le_ediv hN (by omega)
  split_ifs with h0
  · left
    simp only [h0, zero_mul, add_zero, Int.zero_ediv]
    ring
  · have hmq : (m * k + m) / N = m * k / N ∨ (m * k + m) / N = m * k / N + 1 := by omega
    rcases hmq with h | h
    · left; rw [h]; ring
    · right; rw [h]; ring

/-! ## Properties of the header reconstruction -/

theorem PictureFormatMatches_true (h : SequenceHeader) (w ht : Int) (cf : ColourFormat)
    (r : FrameRate) (bd : Int) (hm : PictureFormatMatches h w ht cf r bd = true) :
    h.width = w ∧ h.height = ht ∧ h.chromaFormat = cf ∧ h.frameRate = r ∧ h.bitdepth = bd := by
  simp only [PictureFormatMatches, Bool.and_eq_true, beq_iff_eq] at hm
  obtain ⟨⟨⟨⟨h1, h2⟩, h3⟩, h4⟩, h5⟩ := hm
  exact ⟨h1, h2, h3, h4, h5⟩

theorem recovers_preset (h : SequenceHeader) (v : video_format) (b l w ht : Int)
    (cf : ColourFormat) (r : FrameRate) (bd : Int) (tff il : Bool)
    (hm : PictureFormatMatches h w ht cf r bd = true) (hil : h.interlace = il)
    (hb : SequenceHeader.ofBase b =
      .ok (SequenceHeader.make .PROFILE_UNKNOWN ht w cf il r tff bd))
    (hb0 : b ≠ 0)
    (hd : v.custom_dimensions_flag = false) (hs : v.custom_scan_format_flag = false)
    (hr : v.custom_signal_range_flag = false) (hf : v.custom_frame_rate_flag = false) :
    (v.preset b l).base_video_format ≠ 0 ∧
      ∃ hdr, SequenceHeader.ofVideoFormat (v.preset b l) = .ok hdr ∧
        hdr.width = h.width ∧ hdr.height = h.height ∧ hdr.interlace = h.interlace ∧
        hdr.frameRate = h.frameRate ∧ hdr.bitdepth = h.bitdepth ∧
        hdr.profile = (if v.profile = 0 then .PROFILE_LD
          else if v.profile = 3 then .PROFILE_HQ else .PROFILE_UNKNOWN) := by
  obtain ⟨hw, hh, hcf, hfr, hbd⟩ := PictureFormatMatches_true h w ht cf r bd hm
  refine ⟨hb0, ?_⟩
  simp only [SequenceHeader.ofVideoFormat, video_format.preset, hb, hd, hs, hr, hf,
    Bool.false_eq_true, if_false]
  refine ⟨_, rfl, ?_⟩
  by_cases p0 : v.profile = 0 <;> by_cases p3 : v.profile = 3 <;>
    simp [p0, p3, SequenceHeader.make, hw, hh, hfr, hbd, hil]

theorem recovers_presetScan (h : SequenceHeader) (v : video_format) (b l w ht : Int)
    (cf : ColourFormat) (r : FrameRate) (bd : Int) (tff il : Bool)
    (hm : PictureFormatMatches h w ht cf r bd = true) (hil : h.interlace = false)
    (hb : SequenceHeader.ofBase b =
      .ok (SequenceHeader.make .PROFILE_UNKNOWN ht w cf il r tff bd))
    (hb0 : b ≠ 0)
    (hd : v.custom_dimensions_flag = false)
    (hr : v.custom_signal_range_flag = false) (hf : v.custom_frame_rate_flag = false) :
    (v.presetScan b l).base_video_format ≠ 0 ∧
      ∃ hdr, SequenceHeader.ofVideoFormat (v.presetScan b l) = .ok hdr ∧
        hdr.width = h.width ∧ hdr.height = h.height ∧ hdr.interlace = h.interlace ∧
        hdr.frameRate = h.frameRate ∧ hdr.bitdepth = h.bitdepth ∧
        hdr.profile = (if v.profile = 0 then .PROFILE_LD
          else if v.profile = 3 then .PROFILE_HQ else .PROFILE_UNKNOWN) := by
  obtain ⟨hw, hh, hcf, hfr, hbd⟩ := PictureFormatMatches_true h w ht cf r bd hm
  refine ⟨hb0, ?_⟩
  simp only [SequenceHeader.ofVideoFormat, video_format.presetScan, hb, hd, hr, hf,
    Bool.false_eq_true, if_false, if_true]
  refine ⟨_, rfl, ?_⟩
  by_cases p0 : v.profile = 0 <;> by_cases p3 : v.profile = 3 <;>
    simp [p0, p3, SequenceHeader.make, hw, hh, hfr, hbd, hil]

theorem recovers_near (h : SequenceHeader) (v v1 : video_format)
    (hv1 : v1 =
      { v with base_video_format := 7, level := 2, custom_dimensions_flag := true,
               frame_width := h.width, frame_height := h.height })
    (hm : (h.chromaFormat == .CF422 && h.width == 720 && decide (h.height ≥ 480) &&
      decide (h.height ≤ 486) && h.frameRate == .FR30000_1001 && h.bitdepth == 10) = true)
    (hil : h.interlace = true) (hs : v.custom_scan_format_flag = false)
    (hr : v.custom_signal_range_flag = false) (hf : v.custom_frame_rate_flag = false) :
    v1.base_video_format ≠ 0 ∧
      ∃ hdr, SequenceHeader.ofVideoFormat v1 = .ok hdr ∧
        hdr.width = h.width ∧ hdr.height = h.height ∧ hdr.interlace = h.interlace ∧
        hdr.frameRate = h.frameRate ∧ hdr.bitdepth = h.bitdepth ∧
        hdr.profile = (if v.profile = 0 then .PROFILE_LD
          else if v.profile = 3 then .PROFILE_HQ else .PROFILE_UNKNOWN) := by
  subst hv1
  simp only [Bool.and_eq_true, beq_iff_eq, decide_eq_true_eq] at hm
  obtain ⟨⟨⟨⟨⟨hcf, hw⟩, h480⟩, h486⟩, hfr⟩, hbd⟩ := hm
  refine ⟨by simp, ?_⟩
  have hb : SequenceHeader.ofBase 7 =
      .ok (SequenceHeader.make .PROFILE_UNKNOWN 480 720 .CF422 true .FR30000_1001 false 10) := rfl
  simp only [SequenceHeader.ofVideoFormat, hb, hs, hr, hf, Bool.false_eq_true, if_false,
    if_true]
  refine ⟨_, rfl, ?_⟩
  by_cases p0 : v.profile = 0 <;> by_cases p3 : v.profile = 3 <;>
    simp [p0, p3, SequenceHeader.make, hfr, hbd, hil]

theorem recovers_48 (h : SequenceHeader) (v v1 : video_format)
    (hv1 : v1 =
      { v with base_video_format := 15, level := 4, custom_frame_rate_flag := true,
               frame_rate := .FR48 })
    (hm : PictureFormatMatches h 2048 1080 .CF444 .FR48 12 = true)
    (hil : h.interlace = false) (hd : v.custom_dimensions_flag = false)
    (hs : v.custom_scan_format_flag = false) (hr : v.custom_signal_range_flag = false) :
    v1.base_video_format ≠ 0 ∧
      ∃ hdr, SequenceHeader.ofVideoFormat v1 = .ok hdr ∧
        hdr.width = h.width ∧ hdr.height = h.height ∧ hdr.interlace = h.interlace ∧
        hdr.frameRate = h.frameRate ∧ hdr.bitdepth = h.bitdepth ∧
        hdr.profile = (if v.profile = 0 then .PROFILE_LD
          else if v.profile = 3 then .PROFILE_HQ else .PROFILE_UNKNOWN) := by
  subst hv1
  obtain ⟨hw, hh, hcf, hfr, hbd⟩ := PictureFormatMatches_true h _ _ _ _ _ hm
  refine ⟨by simp, ?_⟩
  have hb : SequenceHeader.ofBase 15 =
      .ok (SequenceHeader.make .PROFILE_UNKNOWN 1080 2048 .CF444 false .FR24 true 12) := rfl
  simp only [SequenceHeader.ofVideoFormat, hb, hd, hs, hr, Bool.false_eq_true, if_false,
    if_true]
  refine ⟨_, rfl, ?_⟩
  by_cases p0 : v.profile = 0 <;> by_cases p3 : v.profile = 3 <;>
    simp [p0, p3, SequenceHeader.make, hw, hh, hfr, hbd, hil]

theorem matchPresets_recovers (h : SequenceHeader) (v v1 : video_format)
    (hv : video_format.matchPresets h v = v1)
    (hd : v.custom_dimensions_flag = false) (hs : v.custom_scan_format_flag = false)
    (hr : v.custom_signal_range_flag = false) (hf : v.custom_frame_rate_flag = false) :
    v1 = v ∨
    (v1.base_video_format ≠ 0 ∧
      ∃ hdr, SequenceHeader.ofVideoFormat v1 = .ok hdr ∧
        hdr.width = h.width ∧ hdr.height = h.height ∧ hdr.interlace = h.interlace ∧
        hdr.frameRate = h.frameRate ∧ hdr.bitdepth = h.bitdepth ∧
        hdr.profile = (if v.profile = 0 then .PROFILE_LD
          else if v.profile = 3 then .PROFILE_HQ else .PROFILE_UNKNOWN)) := by
  unfold video_format.matchPresets at hv
  rcases Bool.eq_false_or_eq_true h.interlace with hil | hil
  · rw [hil, if_pos rfl] at hv
    by_cases t0 : PictureFormatMatches h 720 480 .CF422 .FR30000_1001 10 = true
    · rw [if_pos t0] at hv
      subst hv
      exact Or.inr (recovers_preset h v 7 2 720 480 .CF422 .FR30000_1001 10 false true
          t0 hil rfl (by decide) hd hs hr hf)
    rw [if_neg t0] at hv
    by_cases t1 : PictureFormatMatches h 720 576 .CF422 .FR25 10 = true
    · rw [if_pos t1] at hv
      subst hv
      exact Or.inr (recovers_preset h v 8 2 720 576 .CF422 .FR25 10 true true
          t1 hil rfl (by decide) hd hs hr hf)
    rw [if_neg t1] at hv
    by_cases t2 : PictureFormatMatches h 720 486 .CF422 .FR30000_1001 10 = true
    · rw [if_pos t2] at hv
      subst hv
      exact Or.inr (recovers_preset h v 22 2 720 486 .CF422 .FR30000_1001 10 false true
          t2 hil rfl (by decide) hd hs hr hf)
    rw [if_neg t2] at hv
    by_cases t3 : (h.chromaFormat == .CF422 && h.width == 720 && decide (h.height ≥ 480) &&
        decide (h.height ≤ 486) && h.frameRate == .FR30000_1001 && h.bitdepth == 10) = true
    · rw [if_pos t3] at hv
      subst hv
      exact Or.inr (recovers_near h v _ rfl t3 hil hs hr hf)
    rw [if_neg t3] at hv
    by_cases t4 : PictureFormatMatches h 1920 1080 .CF422 .FR30000_1001 10 = true
    · rw [if_pos t4] at hv
      subst hv
      exact Or.inr (recovers_preset h v 11 3 1920 1080 .CF422 .FR30000_1001 10 true true
          t4 hil rfl (by decide) hd hs hr hf)
    rw [if_neg t4] at hv
    by_cases t5 : PictureFormatMatches h 1920 1080 .CF422 .FR25 10 = true
    · rw [if_pos t5] at hv
      subst hv
      exact Or.inr (recovers_preset h v 12 3 1920 1080 .CF422 .FR25 10 true true
          t5 hil rfl (by decide) hd hs hr hf)
    rw [if_neg t5] at hv
    exact Or.inl hv.symm
  · rw [hil, if_neg Bool.false_ne_true] at hv
    by_cases p0 : PictureFormatMatches h 176 120 .CF420 .FR15000_1001 8 = true
    · rw [if_pos p0] at hv
      subst hv
      exact Or.inr (recovers_preset h v 1 1 176 120 .CF420 .FR15000_1001 8 false false
          p0 hil rfl (by decide) hd hs hr hf)
    rw [if_neg p0] at hv
    by_cases p1 : PictureFormatMatches h 176 144 .CF420 .FR25_2 8 = true
    · rw [if_pos p1] at hv
      subst hv
      exact Or.inr (recovers_preset h v 2 1 176 144 .CF420 .FR25_2 8 true false
          p1 hil rfl (by decide) hd hs hr hf)
    rw [if_neg p1] at hv
    by_cases p2 : PictureFormatMatches h 352 240 .CF420 .FR15000_1001 8 = true
    · rw [if_pos p2] at hv
      subst hv
      exact Or.inr (recovers_preset h v 3 1 352 240 .CF420 .FR15000_1001 8 false false
          p2 hil rfl (by decide) hd hs hr hf)
    rw [if_neg p2] at hv
    by_cases p3 : PictureFormatMatches h 352 288 .CF420 .FR25_2 8 = true
    · rw [if_pos p3] at hv
      subst hv
      exact Or.inr (recovers_preset h v 4 1 352 288 .CF420 .FR25_2 8 true false
          p3 hil rfl (by decide) hd hs hr hf)
    rw [if_neg p3] at hv
    by_cases p4 : PictureFormatMatches h 704 480 .CF420 .FR15000_1001 8 = true
    · rw [if_pos p4] at hv
      subst hv
      exact Or.inr (recovers_preset h v 5 1 704 480 .CF420 .FR15000_1001 8 false false
          p4 hil rfl (by decide) hd hs hr hf)
    rw [if_neg p4] at hv
    by_cases p5 : PictureFormatMatches h 704 576 .CF420 .FR25_2 8 = true
    · rw [if_pos p5] at hv
      subst hv
      exact Or.inr (recovers_preset h v 6 1 704 576 .CF420 .FR25_2 8 true false
          p5 hil rfl (by decide) hd hs hr hf)
    rw [if_neg p5] at hv
    by_cases p6 : PictureFormatMatches h 720 480 .CF422 .FR30000_1001 10 = true
    · rw [if_pos p6] at hv
      subst hv
      exact Or.inr (recovers_presetScan h v 7 2 720 480 .CF422 .FR30000_1001 10 false true
          p6 hil rfl (by decide) hd hr hf)
    rw [if_neg p6] at hv
    by_cases p7 : PictureFormatMatches h 720 576 .CF422 .FR25 10 = true
    · rw [if_pos p7] at hv
      subst hv
      exact Or.inr (recovers_presetScan h v 8 2 720 576 .CF422 .FR25 10 true true
          p7 hil rfl (by decide) hd hr hf)
    rw [if_neg p7] at hv
    by_cases p8 : PictureFormatMatches h 720 486 .CF422 .FR30000_1001 10 = true
    · rw [if_pos p8] at hv
      subst hv
      exact Or.inr (recovers_presetScan h v 22 2 720 486 .CF422 .FR30000_1001 10 false true
          p8 hil rfl (by decide) hd hr hf)
    rw [if_neg p8] at hv
    by_cases p9 : PictureFormatMatches h 1280 720 .CF422 .FR60000_1001 10 = true
    · rw [if_pos p9] at hv
      subst hv
      exact Or.inr (recovers_preset h v 9 3 1280 720 .CF422 .FR60000_1001 10 true false
          p9 hil rfl (by decide) hd hs hr hf)
    rw [if_neg p9] at hv
    by_cases p10 : PictureFormatMatches h 1280 720 .CF422 .FR50 10 = true
    · rw [if_pos p10] at hv
      subst hv
      exact Or.inr (recovers_preset h v 10 3 1280 720 .CF422 .FR50 10 true false
          p10 hil rfl (by decide) hd hs hr hf)
    rw [if_neg p10] at hv
    by_cases p11 : PictureFormatMatches h 1920 1080 .CF422 .FR30000_1001 10 = true
    · rw [if_pos p11] at hv
      subst hv
      exact Or.inr (recovers_presetScan h v 11 3 1920 1080 .CF422 .FR30000_1001 10 true true
          p11 hil rfl (by decide) hd hr hf)
    rw [if_neg p11] at hv
    by_cases p12 : PictureFormatMatches h 1920 1080 .CF422 .FR25 10 = true
    · rw [if_pos p12] at hv
      subst hv
      exact Or.inr (recovers_presetScan h v 12 3 1920 1080 .CF422 .FR25 10 true true
          p12 hil rfl (by decide) hd hr hf)
    rw [if_neg p12] at hv
    by_cases p13 : PictureFormatMatches h 1920 1080 .CF422 .FR60000_1001 10 = true
    · rw [if_pos p13] at hv
      subst hv
      exact Or.inr (recovers_preset h v 13 3 1920 1080 .CF422 .FR60000_1001 10 true false
          p13 hil rfl (by decide) hd hs hr hf)
    rw [if_neg p13] at hv
    by_cases p14 : PictureFormatMatches h 1920 1080 .CF422 .FR50 10 = true
    · rw [if_pos p14] at hv
      subst hv
      exact Or.inr (recovers_preset h v 14 3 1920 1080 .CF422 .FR50 10 true false
          p14 hil rfl (by decide) hd hs hr hf)
    rw [if_neg p14] at hv
    by_cases p15 : PictureFormatMatches h 1920 1080 .CF422 .FR24000_1001 10 = true
    · rw [if_pos p15] at hv
      subst hv
      exact Or.inr (recovers_preset h v 21 3 1920 1080 .CF422 .FR24000_1001 10 true false
          p15 hil rfl (by decide) hd hs hr hf)
    rw [if_neg p15] at hv
    by_cases p16 : PictureFormatMatches h 2048 1080 .CF444 .FR24 12 = true
    · rw [if_pos p16] at hv
      subst hv
      exact Or.inr (recovers_preset h v 15 4 2048 1080 .CF444 .FR24 12 true false
          p16 hil rfl (by decide) hd hs hr hf)
    rw [if_neg p16] at hv
    by_cases p17 : PictureFormatMatches h 2048 1080 .CF444 .FR48 12 = true
    · rw [if_pos p17] at hv
      subst hv
      exact Or.inr (recovers_48 h v _ rfl p17 hil hd hs hr)
    rw [if_neg p17] at hv
    by_cases p18 : PictureFormatMatches h 4096 2160 .CF444 .FR24 12 = true
    · rw [if_pos p18] at hv
      subst hv
      exact Or.inr (recovers_preset h v 16 5 4096 2160 .CF444 .FR24 12 true false
          p18 hil rfl (by decide) hd hs hr hf)
    rw [if_neg p18] at hv
    by_cases p19 : PictureFormatMatches h 3840 2160 .CF422 .FR60000_1001 10 = true
    · rw [if_pos p19] at hv
      subst hv
      exact Or.inr (recovers_preset h v 17 6 3840 2160 .CF422 .FR60000_1001 10 true false
          p19 hil rfl (by decide) hd hs hr hf)
    rw [if_neg p19] at hv
    by_cases p20 : PictureFormatMatches h 3840 2160 .CF422 .FR50 10 = true
    · rw [if_pos p20] at hv
      subst hv
      exact Or.inr (recovers_preset h v 18 6 3840 2160 .CF422 .FR50 10 true false
          p20 hil rfl (by decide) hd hs hr hf)
    rw [if_neg p20] at hv
    by_cases p21 : PictureFormatMatches h 7680 4320 .CF422 .FR60000_1001 10 = true
    · rw [if_pos p21] at hv
      subst hv
      exact Or.inr (recovers_preset h v 19 7 7680 4320 .CF422 .FR60000_1001 10 true false
          p21 hil rfl (by decide) hd hs hr hf)
    rw [if_neg p21] at hv
    by_cases p22 : PictureFormatMatches h 7680 4320 .CF422 .FR50 10 = true
    · rw [if_pos p22] at hv
      subst hv
      exact Or.inr (recovers_preset h v 20 7 7680 4320 .CF422 .FR50 10 true false
          p22 hil rfl (by decide) hd hs hr hf)
    rw [if_neg p22] at hv
    exact Or.inl hv.symm
theorem customFallback_recovers (h : SequenceHeader) (v v1 : video_format)
    (hb : v.base_video_format = 0)
    (hd : v.custom_dimensions_flag = false) (hs : v.custom_scan_format_flag = false)
    (hr : v.custom_signal_range_flag = false) (hf : v.custom_frame_rate_flag = false)
    (hc : video_format.customFallback h v = .ok v1) :
    ∃ hdr, SequenceHeader.ofVideoFormat v1 = .ok hdr ∧
      hdr.width = h.width ∧ hdr.height = h.height ∧ hdr.interlace = h.interlace ∧
      hdr.frameRate = h.frameRate ∧ hdr.bitdepth = h.bitdepth ∧
      hdr.profile = (if v.profile = 0 then .PROFILE_LD
        else if v.profile = 3 then .PROFILE_HQ else .PROFILE_UNKNOWN) := by
  unfold video_format.customFallback at hc
  rw [if_pos hb] at hc
  have hb0 : SequenceHeader.ofBase 0 =
      .ok (SequenceHeader.make .PROFILE_UNKNOWN 480 640 .CF420 false .FR24000_1001 false 8) := rfl
  have hbd : h.bitdepth = 8 ∨ h.bitdepth = 10 ∨ h.bitdepth = 12 := by
    by_contra hne
    push_neg at hne
    simp [hne.1, hne.2.1, hne.2.2] at hc
  rcases Bool.eq_false_or_eq_true h.interlace with c1 | c1 <;>
  by_cases c2 : h.width = 640 <;> by_cases c2b : h.height = 480 <;>
  by_cases c3 : h.frameRate = .FR24000_1001 <;>
  rcases hbd with c4 | c4 | c4 <;>
  by_cases p0 : v.profile = 0 <;> by_cases p3 : v.profile = 3 <;>
  simp [c1, c2, c2b, c3, c4] at hc <;> subst hc <;>
  simp [SequenceHeader.ofVideoFormat, SequenceHeader.withBitdepthCode, hb, hb0, hd, hs, hr, hf,
    SequenceHeader.make, c1, c2, c2b, c3, c4, p0, p3]

/-! ## Properties of the video-format round trip -/

theorem toInt_toUnsigned_of_isInt (x : Int) (hx : isInt x) : toInt (toUnsigned x) = x :=
  toInt_toUnsigned x hx.1 hx.2

theorem FrameRate.ofIndex_index (r : FrameRate) (i : Nat) (hi : r.index = some i) :
    FrameRate.ofIndex (i % 4294967296) = some r := by
  cases r <;> simp [FrameRate.index] at hi <;> subst hi <;> rfl

theorem bits_eq_wireBits (fmt : video_format) (bits : List Bool) (hbits : fmt.bits = .ok bits) :
    ∃ index, (fmt.custom_frame_rate_flag = true → fmt.frame_rate.index = some index) ∧
      bits = wireBits (toUnsigned fmt.major_version) (toUnsigned fmt.minor_version)
        (toUnsigned fmt.profile) (toUnsigned fmt.level) (toUnsigned fmt.base_video_format)
        fmt.custom_dimensions_flag (toUnsigned fmt.frame_width) (toUnsigned fmt.frame_height)
        fmt.custom_scan_format_flag (toUnsigned fmt.source_sampling)
        fmt.custom_frame_rate_flag index fmt.custom_signal_range_flag
        (toUnsigned fmt.bitdepth) (toUnsigned fmt.picture_coding_mode) := by
  unfold video_format.bits at hbits
  cases hrate : fmt.custom_frame_rate_flag
  · rw [hrate] at hbits
    simp only [Bool.false_eq_true, if_false, Except.ok.injEq] at hbits
    refine ⟨0, by simp, ?_⟩
    rw [← hbits]
    simp only [wireBits, UnsignedVLCInt, Boolean, Bool.false_eq_true, if_false,
      List.append_assoc, List.nil_append, hrate]
  · rw [hrate] at hbits
    simp only [if_true] at hbits
    cases hidx : fmt.frame_rate.index with
    | none => simp [hidx] at hbits
    | some i =>
      rw [hidx] at hbits
      simp only [Except.ok.injEq] at hbits
      refine ⟨i, fun _ => rfl, ?_⟩
      rw [← hbits]
      simp only [wireBits, UnsignedVLCInt, Boolean, if_true, List.append_assoc, hrate]

theorem readVideoFormat_written (fmt : video_format) (hwf : fmt.wellFormed) (bits : List Bool)
    (hbits : fmt.bits = .ok bits) (tail : List Nat) :
    readVideoFormat ⟨packBits bits ++ tail, true⟩ video_format.init = .ok (fmt, ⟨tail, true⟩) := by
  obtain ⟨index, hidx, hw⟩ := bits_eq_wireBits fmt bits hbits
  obtain ⟨h1, h2, h3, h4, h5, h6, h7, h8, h9, h10, g1, g2, g3, g4⟩ := hwf
  rw [hw, readVideoFormat_wireBits]
  have hcond : ¬ (fmt.custom_frame_rate_flag = true ∧
      FrameRate.ofIndex (index % 4294967296) = none) := by
    rintro ⟨hr, hn⟩
    rw [FrameRate.ofIndex_index _ _ (hidx hr)] at hn
    exact absurd hn (by simp)
  rw [if_neg hcond]
  simp only [toInt_toUnsigned_of_isInt, h1, h2, h3, h4, h5, h6, h7, h8, h9, h10]
  have e1 : (if fmt.custom_dimensions_flag = true then fmt.frame_width
      else video_format.init.frame_width) = fmt.frame_width := by
    cases hf : fmt.custom_dimensions_flag
    · simp [(g1 hf).1, video_format.init]
    · simp
  have e2 : (if fmt.custom_dimensions_flag = true then fmt.frame_height
      else video_format.init.frame_height) = fmt.frame_height := by
    cases hf : fmt.custom_dimensions_flag
    · simp [(g1 hf).2, video_format.init]
    · simp
  have e3 : (if fmt.custom_scan_format_flag = true then fmt.source_sampling
      else video_format.init.source_sampling) = fmt.source_sampling := by
    cases hf : fmt.custom_scan_format_flag
    · simp [g2 hf, video_format.init]
    · simp
  have e4 : (if fmt.custom_signal_range_flag = true then fmt.bitdepth
      else video_format.init.bitdepth) = fmt.bitdepth := by
    cases hf : fmt.custom_signal_range_flag
    · simp [g3 hf, video_format.init]
    · simp
  have e5 : (if fmt.custom_frame_rate_flag = true then
      (FrameRate.ofIndex (index % 4294967296)).getD video_format.init.frame_rate
      else video_format.init.frame_rate) = fmt.frame_rate := by
    cases hf : fmt.custom_frame_rate_flag
    · simp [g4 hf, video_format.init]
    · simp [FrameRate.ofIndex_index _ _ (hidx hf)]
  rw [e1, e2, e3, e4, e5]

theorem wellFormed_preset (v : video_format) (b l : Int) (hb : isInt b) (hl : isInt l)
    (hwf : v.wellFormed) : (v.preset b l).wellFormed := by
  obtain ⟨h1, h2, h3, h4, h5, h6, h7, h8, h9, h10, g1, g2, g3, g4⟩ := hwf
  exact ⟨h1, h2, h3, hl, hb, h6, h7, h8, h9, h10, g1, g2, g3, g4⟩

theorem wellFormed_presetScan (v : video_format) (b l : Int) (hb : isInt b) (hl : isInt l)
    (hwf : v.wellFormed) : (v.presetScan b l).wellFormed := by
  obtain ⟨h1, h2, h3, h4, h5, h6, h7, h8, h9, h10, g1, g2, g3, g4⟩ := hwf
  exact ⟨h1, h2, h3, hl, hb, h6, h7, (by decide : isInt 0), h9, h10, g1, fun _ => rfl, g3, g4⟩

theorem wellFormed_near (v v1 : video_format) (w ht : Int)
    (hv1 : v1 =
      { v with base_video_format := 7, level := 2, custom_dimensions_flag := true,
               frame_width := w, frame_height := ht })
    (hwf : v.wellFormed) (hw : isInt w) (hh : isInt ht) : v1.wellFormed := by
  subst hv1
  obtain ⟨h1, h2, h3, h4, h5, h6, h7, h8, h9, h10, g1, g2, g3, g4⟩ := hwf
  exact ⟨h1, h2, h3, (by decide : isInt 2), (by decide : isInt 7), hw, hh, h8, h9, h10,
    fun hf => absurd hf (by simp), g2, g3, g4⟩

theorem wellFormed_48 (v v1 : video_format)
    (hv1 : v1 =
      { v with base_video_format := 15, level := 4, custom_frame_rate_flag := true,
               frame_rate := .FR48 })
    (hwf : v.wellFormed) : v1.wellFormed := by
  subst hv1
  obtain ⟨h1, h2, h3, h4, h5, h6, h7, h8, h9, h10, g1, g2, g3, g4⟩ := hwf
  exact ⟨h1, h2, h3, (by decide : isInt 4), (by decide : isInt 15), h6, h7, h8, h9, h10, g1, g2, g3,
    fun hf => absurd hf (by simp)⟩

theorem matchPresets_wellFormed (h : SequenceHeader) (v v1 : video_format)
    (hv : video_format.matchPresets h v = v1) (hwf : v.wellFormed)
    (hw : isInt h.width) (hh : isInt h.height) : v1.wellFormed := by
  unfold video_format.matchPresets at hv
  rcases Bool.eq_false_or_eq_true h.interlace with hil | hil
  · rw [hil, if_pos rfl] at hv
    by_cases t0 : PictureFormatMatches h 720 480 .CF422 .FR30000_1001 10 = true
    · rw [if_pos t0] at hv
      subst hv
      exact wellFormed_preset v 7 2 (by decide) (by decide) hwf
    rw [if_neg t0] at hv
    by_cases t1 : PictureFormatMatches h 720 576 .CF422 .FR25 10 = true
    · rw [if_pos t1] at hv
      subst hv
      exact wellFormed_preset v 8 2 (by decide) (by decide) hwf
    rw [if_neg t1] at hv
    by_cases t2 : PictureFormatMatches h 720 486 .CF422 .FR30000_1001 10 = true
    · rw [if_pos t2] at hv
      subst hv
      exact wellFormed_preset v 22 2 (by decide) (by decide) hwf
    rw [if_neg t2] at hv
    by_cases t3 : (h.chromaFormat == .CF422 && h.width == 720 && decide (h.height ≥ 480) &&
        decide (h.height ≤ 486) && h.frameRate == .FR30000_1001 && h.bitdepth == 10) = true
    · rw [if_pos t3] at hv
      subst hv
      exact wellFormed_near v _ h.width h.height rfl hwf hw hh
    rw [if_neg t3] at hv
    by_cases t4 : PictureFormatMatches h 1920 1080 .CF422 .FR30000_1001 10 = true
    · rw [if_pos t4] at hv
      subst hv
      exact wellFormed_preset v 11 3 (by decide) (by decide) hwf
    rw [if_neg t4] at hv
    by_cases t5 : PictureFormatMatches h 1920 1080 .CF422 .FR25 10 = true
    · rw [if_pos t5] at hv
      subst hv
      exact wellFormed_preset v 12 3 (by decide) (by decide) hwf
    rw [if_neg t5] at hv
    rw [← hv]
    exact hwf
  · rw [hil, if_neg Bool.false_ne_true] at hv
    by_cases p0 : PictureFormatMatches h 176 120 .CF420 .FR15000_1001 8 = true
    · rw [if_pos p0] at hv
      subst hv
      exact wellFormed_preset v 1 1 (by decide) (by decide) hwf
    rw [if_neg p0] at hv
    by_cases p1 : PictureFormatMatches h 176 144 .CF420 .FR25_2 8 = true
    · rw [if_pos p1] at hv
      subst hv
      exact wellFormed_preset v 2 1 (by decide) (by decide) hwf
    rw [if_neg p1] at hv
    by_cases p2 : PictureFormatMatches h 352 240 .CF420 .FR15000_1001 8 = true
    · rw [if_pos p2] at hv
      subst hv
      exact wellFormed_preset v 3 1 (by decide) (by decide) hwf
    rw [if_neg p2] at hv
    by_cases p3 : PictureFormatMatches h 352 288 .CF420 .FR25_2 8 = true
    · rw [if_pos p3] at hv
      subst hv
      exact wellFormed_preset v 4 1 (by decide) (by decide) hwf
    rw [if_neg p3] at hv
    by_cases p4 : PictureFormatMatches h 704 480 .CF420 .FR15000_1001 8 = true
    · rw [if_pos p4] at hv
      subst hv
      exact wellFormed_preset v 5 1 (by decide) (by decide) hwf
    rw [if_neg p4] at hv
    by_cases p5 : PictureFormatMatches h 704 576 .CF420 .FR25_2 8 = true
    · rw [if_pos p5] at hv
      subst hv
      exact wellFormed_preset v 6 1 (by decide) (by decide) hwf
    rw [if_neg p5] at hv
    by_cases p6 : PictureFormatMatches h 720 480 .CF422 .FR30000_1001 10 = true
    · rw [if_pos p6] at hv
      subst hv
      exact wellFormed_presetScan v 7 2 (by decide) (by decide) hwf
    rw [if_neg p6] at hv
    by_cases p7 : PictureFormatMatches h 720 576 .CF422 .FR25 10 = true
    · rw [if_pos p7] at hv
      subst hv
      exact wellFormed_presetScan v 8 2 (by decide) (by decide) hwf
    rw [if_neg p7] at hv
    by_cases p8 : PictureFormatMatches h 720 486 .CF422 .FR30000_1001 10 = true
    · rw [if_pos p8] at hv
      subst hv
      exact wellFormed_presetScan v 22 2 (by decide) (by decide) hwf
    rw [if_neg p8] at hv
    by_cases p9 : PictureFormatMatches h 1280 720 .CF422 .FR60000_1001 10 = true
    · rw [if_pos p9] at hv
      subst hv
      exact wellFormed_preset v 9 3 (by decide) (by decide) hwf
    rw [if_neg p9] at hv
    by_cases p10 : PictureFormatMatches h 1280 720 .CF422 .FR50 10 = true
    · rw [if_pos p10] at hv
      subst hv
      exact wellFormed_preset v 10 3 (by decide) (by decide) hwf
    rw [if_neg p10] at hv
    by_cases p11 : PictureFormatMatches h 1920 1080 .CF422 .FR30000_1001 10 = true
    · rw [if_pos p11] at hv
      subst hv
      exact wellFormed_presetScan v 11 3 (by decide) (by decide) hwf
    rw [if_neg p11] at hv
    by_cases p12 : PictureFormatMatches h 1920 1080 .CF422 .FR25 10 = true
    · rw [if_pos p12] at hv
      subst hv
      exact wellFormed_presetScan v 12 3 (by decide) (by decide) hwf
    rw [if_neg p12] at hv
    by_cases p13 : PictureFormatMatches h 1920 1080 .CF422 .FR60000_1001 10 = true
    · rw [if_pos p13] at hv
      subst hv
      exact wellFormed_preset v 13 3 (by decide) (by decide) hwf
    rw [if_neg p13] at hv
    by_cases p14 : PictureFormatMatches h 1920 1080 .CF422 .FR50 10 = true
    · rw [if_pos p14] at hv
      subst hv
      exact wellFormed_preset v 14 3 (by decide) (by decide) hwf
    rw [if_neg p14] at hv
    by_cases p15 : PictureFormatMatches h 1920 1080 .CF422 .FR24000_1001 10 = true
    · rw [if_pos p15] at hv
      subst hv
      exact wellFormed_preset v 21 3 (by decide) (by decide) hwf
    rw [if_neg p15] at hv
    by_cases p16 : PictureFormatMatches h 2048 1080 .CF444 .FR24 12 = true
    · rw [if_pos p16] at hv
      subst hv
      exact wellFormed_preset v 15 4 (by decide) (by decide) hwf
    rw [if_neg p16] at hv
    by_cases p17 : PictureFormatMatches h 2048 1080 .CF444 .FR48 12 = true
    · rw [if_pos p17] at hv
      subst hv
      exact wellFormed_48 v _ rfl hwf
    rw [if_neg p17] at hv
    by_cases p18 : PictureFormatMatches h 4096 2160 .CF444 .FR24 12 = true
    · rw [if_pos p18] at hv
      subst hv
      exact wellFormed_preset v 16 5 (by decide) (by decide) hwf
    rw [if_neg p18] at hv
    by_cases p19 : PictureFormatMatches h 3840 2160 .CF422 .FR60000_1001 10 = true
    · rw [if_pos p19] at hv
      subst hv
      exact wellFormed_preset v 17 6 (by decide) (by decide) hwf
    rw [if_neg p19] at hv
    by_cases p20 : PictureFormatMatches h 3840 2160 .CF422 .FR50 10 = true
    · rw [if_pos p20] at hv
      subst hv
      exact wellFormed_preset v 18 6 (by decide) (by decide) hwf
    rw [if_neg p20] at hv
    by_cases p21 : PictureFormatMatches h 7680 4320 .CF422 .FR60000_1001 10 = true
    · rw [if_pos p21] at hv
      subst hv
      exact wellFormed_preset v 19 7 (by decide) (by decide) hwf
    rw [if_neg p21] at hv
    by_cases p22 : PictureFormatMatches h 7680 4320 .CF422 .FR50 10 = true
    · rw [if_pos p22] at hv
      subst hv
      exact wellFormed_preset v 20 7 (by decide) (by decide) hwf
    rw [if_neg p22] at hv
    rw [← hv]
    exact hwf

theorem customFallback_wellFormed (h : SequenceHeader) (v v1 : video_format)
    (hc : video_format.customFallback h v = .ok v1) (hwf : v.wellFormed)
    (hw : isInt h.width) (hh : isInt h.height) : v1.wellFormed := by
  unfold video_format.customFallback at hc
  obtain ⟨h1, h2, h3, h4, h5, h6, h7, h8, h9, h10, g1, g2, g3, g4⟩ := hwf
  by_cases hb : v.base_video_format = 0
  · rw [if_pos hb] at hc
    have hbd : h.bitdepth = 8 ∨ h.bitdepth = 10 ∨ h.bitdepth = 12 := by
      by_contra hne
      push_neg at hne
      simp [hne.1, hne.2.1, hne.2.2] at hc
    rcases Bool.eq_false_or_eq_true h.interlace with c1 | c1 <;>
    by_cases c2 : h.width = 640 <;> by_cases c2b : h.height = 480 <;>
    by_cases c3 : h.frameRate = .FR24000_1001 <;>
    rcases hbd with c4 | c4 | c4 <;>
    simp [c1, c2, c2b, c3, c4] at hc <;> subst hc <;>
    refine ⟨h1, h2, h3, h4, h5, ?_, ?_, ?_, ?_, h10, ?_, ?_, ?_, ?_⟩ <;>
    first
      | assumption
      | exact hw
      | exact hh
      | exact (by decide : isInt 0)
      | exact (by decide : isInt 1)
      | exact (by decide : isInt 3)
      | exact (by decide : isInt 4)
      | exact (by decide : isInt 640)
      | exact (by decide : isInt 480)
      | (intro hf; exact absurd hf (by simp))
  · rw [if_neg hb] at hc
    simp only [Except.ok.injEq] at hc
    subst hc
    exact ⟨h1, h2, h3, h4, h5, h6, h7, h8, h9, h10, g1, g2, g3, g4⟩

theorem ofSequenceHeader_wellFormed (h : SequenceHeader) (fmt : video_format)
    (hfmt : video_format.ofSequenceHeader h = .ok fmt)
    (hmaj : isInt h.major_version) (hmin : isInt h.minor_version)
    (hw : isInt h.width) (hh : isInt h.height) : fmt.wellFormed := by
  obtain ⟨v0, hv0⟩ : ∃ v0 : video_format, v0 = { video_format.init with
      major_version := h.major_version
      minor_version := h.minor_version
      profile := match h.profile with
        | .PROFILE_LD => 0
        | .PROFILE_HQ => 3
        | .PROFILE_UNKNOWN => 0 } := ⟨_, rfl⟩
  have hfmt2 : (match video_format.customFallback h (video_format.matchPresets h v0) with
      | .error e => .error e
      | .ok v => .ok { v with picture_coding_mode := if h.interlace then 1 else 0 }) =
      (.ok fmt : Except String video_format) := by
    rw [hv0]
    exact hfmt
  clear hfmt
  have hwf0 : v0.wellFormed := by
    subst hv0
    have i0 : isInt 0 := by decide
    refine ⟨hmaj, hmin, ?_, i0, i0, i0, i0, i0, i0, i0, fun _ => ⟨rfl, rfl⟩, fun _ => rfl,
      fun _ => rfl, fun _ => rfl⟩
    cases h.profile
    · exact i0
    · exact i0
    · exact (by decide : isInt 3)
  have hwf1 := matchPresets_wellFormed h v0 _ rfl hwf0 hw hh
  cases hc : video_format.customFallback h (video_format.matchPresets h v0) with
  | error e =>
    rw [hc] at hfmt2
    exact absurd hfmt2 (by simp)
  | ok v2 =>
    have hwf2 := customFallback_wellFormed h _ v2 hc hwf1 hw hh
    rw [hc] at hfmt2
    simp only [Except.ok.injEq] at hfmt2
    subst hfmt2
    obtain ⟨h1, h2, h3, h4, h5, h6, h7, h8, h9, h10, g1, g2, g3, g4⟩ := hwf2
    refine ⟨h1, h2, h3, h4, h5, h6, h7, h8, h9, ?_, g1, g2, g3, g4⟩
    cases h.interlace
    · exact (by decide : isInt 0)
    · exact (by decide : isInt 1)

/-! ## Properties of the picture writers -/

theorem WaveletKernel.ofIndex_kernel_index (old k : WaveletKernel) (hk : k ≠ .NullKernel) :
    old.ofIndex (k.index % 4294967296) = k := by
  cases k <;> first | rfl | exact absurd rfl hk

theorem readPicturePreamble_LDPayload (mode : SliceIOMode) (d : WrappedPicture)
    (hdr : PicturePreamble) (tail : List Nat) :
    readPicturePreamble .LD hdr ⟨LDPayload mode d ++ tail, true⟩ =
      .ok ({ picture_number := d.picture_number % 4294967296
             wavelet_kernel := hdr.wavelet_kernel.ofIndex (d.wavelet_kernel.index % 4294967296)
             depth := toInt (toUnsigned d.depth)
             slices_x := toInt (toUnsigned d.slices_x)
             slices_y := toInt (toUnsigned d.slices_y)
             slice_prefix := 0
             slice_size_scalar := 0
             slice_bytes := rationalise (toInt (toUnsigned d.slice_bytes.numerator))
               (toInt (toUnsigned d.slice_bytes.denominator)) },
        ⟨d.slices.write mode ++ tail, true⟩) := by
  unfold LDPayload LDPreamble UnsignedVLCInt
  rw [List.append_assoc, readPicturePreamble_LD]
  rfl

/-! ## Properties of the slice I/O of the programs -/

theorem foldl_read_flatMap (k : Nat) (w : Nat → List Nat) (rd : Nat → IStream → IStream)
    (h : ∀ i rest, rd i ⟨w i ++ rest, true⟩ = ⟨rest, true⟩) :
    ∀ rest : List Nat,
      (List.range k).foldl (fun (s : IStream) (i : Nat) => rd i s)
        ⟨(List.range k).flatMap w ++ rest, true⟩ = ⟨rest, true⟩ := by
  induction k with
  | zero =>
    intro rest
    rfl
  | succ k ih =>
    intro rest
    rw [List.range_succ, List.foldl_append, List.flatMap_append, List.append_assoc, ih]
    simp only [List.flatMap_cons, List.flatMap_nil, List.append_nil, List.foldl_cons,
      List.foldl_nil]
    exact h k rest

theorem readSlicesHQ_writeSlicesHQ (coder : SliceCodec) (bytesW bytesR : Array2D)
    (sliceScalar : Int) (rows : Nat)
    (hround : ∀ row column budget scalar rest,
      coder.readSlice budget scalar ⟨coder.serialise row column budget scalar ++ rest, true⟩ =
        ⟨rest, true⟩)
    (hcols : bytesW.cols = bytesR.cols) (hrows : bytesR.rows = rows)
    (hget : ∀ row column, row < rows → column < bytesR.cols →
      bytesW.get row column = bytesR.get row column)
    (rest : List Nat) :
    readSlicesHQ coder bytesR sliceScalar
      ⟨((List.range rows).flatMap fun (row : Nat) =>
          (List.range bytesW.cols).flatMap fun (column : Nat) =>
            coder.serialise row column (bytesW.get row column) sliceScalar) ++ rest, true⟩ =
      ⟨rest, true⟩ := by
  unfold readSlicesHQ
  rw [hrows]
  have hrow : ∀ row, row < rows → ∀ rest : List Nat,
      (List.range bytesR.cols).foldl
        (fun (s : IStream) (column : Nat) =>
          coder.readSlice (bytesR.get row column) sliceScalar s)
        ⟨((List.range bytesW.cols).flatMap fun (column : Nat) =>
          coder.serialise row column (bytesW.get row column) sliceScalar) ++ rest, true⟩ =
        ⟨rest, true⟩ := by
    intro row hr rest
    rw [hcols]
    have key : ∀ n, n ≤ bytesR.cols → ∀ rest : List Nat,
        (List.range n).foldl
          (fun (s : IStream) (column : Nat) =>
            coder.readSlice (bytesR.get row column) sliceScalar s)
          ⟨((List.range n).flatMap fun (column : Nat) =>
            coder.serialise row column (bytesW.get row column) sliceScalar) ++ rest, true⟩ =
          ⟨rest, true⟩ := by
      intro n
      induction n with
      | zero =>
        intro _ rest
        rfl
      | succ n ih =>
        intro hn rest
        rw [List.range_succ, List.foldl_append, List.flatMap_append, List.append_assoc,
          ih (by omega)]
        simp only [List.flatMap_cons, List.flatMap_nil, List.append_nil, List.foldl_cons,
          List.foldl_nil]
        rw [hget row n hr (by omega)]
        exact hround _ _ _ _ _
    exact key _ le_rfl rest
  have key : ∀ n, n ≤ rows → ∀ rest : List Nat,
      (List.range n).foldl
        (fun (s : IStream) (row : Nat) =>
          (List.range bytesR.cols).foldl
            (fun (s : IStream) (column : Nat) =>
              coder.readSlice (bytesR.get row column) sliceScalar s) s)
        ⟨((List.range n).flatMap fun (row : Nat) =>
          (List.range bytesW.cols).flatMap fun (column : Nat) =>
            coder.serialise row column (bytesW.get row column) sliceScalar) ++ rest, true⟩ =
        ⟨rest, true⟩ := by
    intro n
    induction n with
    | zero =>
      intro _ rest
      rfl
    | succ n ih =>
      intro hn rest
      rw [List.range_succ, List.foldl_append, List.flatMap_append, List.append_assoc,
        ih (by omega)]
      simp only [List.flatMap_cons, List.flatMap_nil, List.append_nil, List.foldl_cons,
        List.foldl_nil]
      exact hrow n (by omega) rest
  exact key rows le_rfl rest

theorem sliceBytes_of_dvd (ySlices xSlices : Nat) (pictureBytes q : Int) (r c : Nat)
    (hN : 0 < ySlices * xSlices)
    (hq : pictureBytes = q * ((ySlices : Int) * (xSlices : Int))) :
    sliceBytes ySlices xSlices pictureBytes r c = q := by
  unfold sliceBytes
  have hN0 : ((ySlices : Int) * (xSlices : Int)) ≠ 0 := by
    have : (0 : Int) < ((ySlices * xSlices : Nat) : Int) := by exact_mod_cast hN
    push_cast at this
    omega
  have e : ∀ k : Int, pictureBytes * k / ((ySlices : Int) * (xSlices : Int)) = q * k := by
    intro k
    rw [hq]
    have : q * ((ySlices : Int) * (xSlices : Int)) * k =
        (q * k) * ((ySlices : Int) * (xSlices : Int)) := by ring
    rw [this, Int.mul_ediv_cancel _ hN0]
  rw [e, e]
  ring

theorem programGeometry_256 :
    programGeometry .CF422 8 256 256 3 2 = .ok (32, 16, slice_bytes 32 16 65536) := by
  have h1 : sliceSettings .CF422 256 256 (nbytes 8) 2 = some ⟨65536, 1, 2⟩ := by
    simp only [sliceSettings, nbytes]
    norm_num
  have h2 : slicesPerPicture 1 2 256 256 3 false = .ok (32, 16) := by decide
  unfold programGeometry
  rw [h1]
  simp only
  rw [h2]

theorem programGeometry_512 :
    programGeometry .CF422 8 512 256 3 2 = .ok (64, 16, slice_bytes 64 16 131072) := by
  have h1 : sliceSettings .CF422 512 256 (nbytes 8) 2 = some ⟨131072, 1, 2⟩ := by
    simp only [sliceSettings, nbytes]
    norm_num
  have h2 : slicesPerPicture 1 2 512 256 3 false = .ok (64, 16) := by decide
  unfold programGeometry
  rw [h1]
  simp only
  rw [h2]

theorem encoderFile_eq (coder : SliceCodec) (height width ySlices xSlices : Int) (bytes : Array2D)
    (hg : programGeometry .CF422 8 height width 3 2 = .ok (ySlices, xSlices, bytes)) :
    encoderFile coder height width = .ok (writeSlicesHQ coder bytes 1) := by
  unfold encoderFile encoderPicture
  rw [hg]
  rfl

theorem exampleCodec_round (row column : Nat) (budget scalar : Int) (rest : List Nat) :
    exampleCodec.readSlice budget scalar
      ⟨exampleCodec.serialise row column budget scalar ++ rest, true⟩ = ⟨rest, true⟩ := by
  simp [exampleCodec, IStream.readByte]

/-! ## Properties of the preset tests and the custom fallback -/

theorem withBitdepthCode_chromaFormat (x : SequenceHeader) (code : Int) :
    (x.withBitdepthCode code).chromaFormat = x.chromaFormat := by
  unfold SequenceHeader.withBitdepthCode
  split_ifs <;> rfl

theorem ofVideoFormat_chromaFormat (fmt : video_format) (hdr0 : SequenceHeader)
    (hb : SequenceHeader.ofBase fmt.base_video_format = .ok hdr0) :
    ∃ hdr, SequenceHeader.ofVideoFormat fmt = .ok hdr ∧
      hdr.chromaFormat = hdr0.chromaFormat := by
  have e1 : ∀ x : SequenceHeader,
      (if fmt.profile = 0 then { x with profile := .PROFILE_LD }
        else if fmt.profile = 3 then { x with profile := .PROFILE_HQ }
        else x).chromaFormat = x.chromaFormat := by
    intro x
    split_ifs <;> rfl
  have e2 : ∀ x : SequenceHeader,
      (if fmt.custom_dimensions_flag then
        { x with width := fmt.frame_width, height := fmt.frame_height }
        else x).chromaFormat = x.chromaFormat := by
    intro x
    split_ifs <;> rfl
  have e3 : ∀ x : SequenceHeader,
      (if fmt.custom_scan_format_flag then
        (if fmt.source_sampling = 0 then { x with interlace := false }
         else { x with interlace := true })
        else x).chromaFormat = x.chromaFormat := by
    intro x
    split_ifs <;> rfl
  have e4 : ∀ x : SequenceHeader,
      (if fmt.custom_signal_range_flag then x.withBitdepthCode fmt.bitdepth
        else x).chromaFormat = x.chromaFormat := by
    intro x
    split_ifs
    · exact withBitdepthCode_chromaFormat x _
    · rfl
  have e5 : ∀ x : SequenceHeader,
      (if fmt.custom_frame_rate_flag then { x with frameRate := fmt.frame_rate }
        else x).chromaFormat = x.chromaFormat := by
    intro x
    split_ifs <;> rfl
  unfold SequenceHeader.ofVideoFormat
  rw [hb]
  exact ⟨_, rfl, (e5 _).trans ((e4 _).trans ((e3 _).trans ((e2 _).trans (e1 _))))⟩

theorem facts_preset (h : SequenceHeader) (v : video_format) (b l w ht : Int)
    (cf : ColourFormat) (r : FrameRate) (bd : Int) (tff il : Bool)
    (hm : PictureFormatMatches h w ht cf r bd = true)
    (hb : SequenceHeader.ofBase b =
      .ok (SequenceHeader.make .PROFILE_UNKNOWN ht w cf il r tff bd))
    (hb0 : b ≠ 0) :
    (v.preset b l).base_video_format ≠ 0 ∧
      (∃ hdr0, SequenceHeader.ofBase (v.preset b l).base_video_format = .ok hdr0 ∧
        hdr0.chromaFormat = h.chromaFormat) ∧
      ((v.preset b l).custom_frame_rate_flag = true →
        v.custom_frame_rate_flag = true ∨ (v.preset b l).frame_rate = .FR48) := by
  obtain ⟨hw, hh, hcf, hfr, hbd⟩ := PictureFormatMatches_true h w ht cf r bd hm
  exact ⟨hb0, ⟨_, hb, hcf.symm⟩, fun hf => Or.inl hf⟩

theorem facts_presetScan (h : SequenceHeader) (v : video_format) (b l w ht : Int)
    (cf : ColourFormat) (r : FrameRate) (bd : Int) (tff il : Bool)
    (hm : PictureFormatMatches h w ht cf r bd = true)
    (hb : SequenceHeader.ofBase b =
      .ok (SequenceHeader.make .PROFILE_UNKNOWN ht w cf il r tff bd))
    (hb0 : b ≠ 0) :
    (v.presetScan b l).base_video_format ≠ 0 ∧
      (∃ hdr0, SequenceHeader.ofBase (v.presetScan b l).base_video_format = .ok hdr0 ∧
        hdr0.chromaFormat = h.chromaFormat) ∧
      ((v.presetScan b l).custom_frame_rate_flag = true →
        v.custom_frame_rate_flag = true ∨ (v.presetScan b l).frame_rate = .FR48) := by
  obtain ⟨hw, hh, hcf, hfr, hbd⟩ := PictureFormatMatches_true h w ht cf r bd hm
  exact ⟨hb0, ⟨_, hb, hcf.symm⟩, fun hf => Or.inl hf⟩

theorem facts_near (h : SequenceHeader) (v v1 : video_format)
    (hv1 : v1 =
      { v with base_video_format := 7, level := 2, custom_dimensions_flag := true,
               frame_width := h.width, frame_height := h.height })
    (hm : (h.chromaFormat == .CF422 && h.width == 720 && decide (h.height ≥ 480) &&
      decide (h.height ≤ 486) && h.frameRate == .FR30000_1001 && h.bitdepth == 10) = true) :
    v1.base_video_format ≠ 0 ∧
      (∃ hdr0, SequenceHeader.ofBase v1.base_video_format = .ok hdr0 ∧
        hdr0.chromaFormat = h.chromaFormat) ∧
      (v1.custom_frame_rate_flag = true →
        v.custom_frame_rate_flag = true ∨ v1.frame_rate = .FR48) := by
  subst hv1
  simp only [Bool.and_eq_true, beq_iff_eq, decide_eq_true_eq] at hm
  obtain ⟨⟨⟨⟨⟨hcf, hw⟩, h480⟩, h486⟩, hfr⟩, hbd⟩ := hm
  have hb : SequenceHeader.ofBase 7 =
      .ok (SequenceHeader.make .PROFILE_UNKNOWN 480 720 .CF422 true .FR30000_1001 false 10) := rfl
  exact ⟨by simp, ⟨_, hb, hcf.symm⟩, fun hf => Or.inl hf⟩

theorem facts_48 (h : SequenceHeader) (v v1 : video_format)
    (hv1 : v1 =
      { v with base_video_format := 15, level := 4, custom_frame_rate_flag := true,
               frame_rate := .FR48 })
    (hm : PictureFormatMatches h 2048 1080 .CF444 .FR48 12 = true) :
    v1.base_video_format ≠ 0 ∧
      (∃ hdr0, SequenceHeader.ofBase v1.base_video_format = .ok hdr0 ∧
        hdr0.chromaFormat = h.chromaFormat) ∧
      (v1.custom_frame_rate_flag = true →
        v.custom_frame_rate_flag = true ∨ v1.frame_rate = .FR48) := by
  subst hv1
  obtain ⟨hw, hh, hcf, hfr, hbd⟩ := PictureFormatMatches_true h _ _ _ _ _ hm
  have hb : SequenceHeader.ofBase 15 =
      .ok (SequenceHeader.make .PROFILE_UNKNOWN 1080 2048 .CF444 false .FR24 true 12) := rfl
  exact ⟨by simp, ⟨_, hb, hcf.symm⟩, fun _ => Or.inr rfl⟩

theorem matchPresets_facts (h : SequenceHeader) (v v1 : video_format)
    (hv : video_format.matchPresets h v = v1) :
    v1 = v ∨
    (v1.base_video_format ≠ 0 ∧
      (∃ hdr0, SequenceHeader.ofBase v1.base_video_format = .ok hdr0 ∧
        hdr0.chromaFormat = h.chromaFormat) ∧
      (v1.custom_frame_rate_flag = true →
        v.custom_frame_rate_flag = true ∨ v1.frame_rate = .FR48)) := by
  unfold video_format.matchPresets at hv
  rcases Bool.eq_false_or_eq_true h.interlace with hil | hil
  · rw [hil, if_pos rfl] at hv
    by_cases t0 : PictureFormatMatches h 720 480 .CF422 .FR30000_1001 10 = true
    · rw [if_pos t0] at hv
      subst hv
      exact Or.inr (facts_preset h v 7 2 720 480 .CF422 .FR30000_1001 10 false true t0 rfl
          (by decide))
    rw [if_neg t0] at hv
    by_cases t1 : PictureFormatMatches h 720 576 .CF422 .FR25 10 = true
    · rw [if_pos t1] at hv
      subst hv
      exact Or.inr (facts_preset h v 8 2 720 576 .CF422 .FR25 10 true true t1 rfl
          (by decide))
    rw [if_neg t1] at hv
    by_cases t2 : PictureFormatMatches h 720 486 .CF422 .FR30000_1001 10 = true
    · rw [if_pos t2] at hv
      subst hv
      exact Or.inr (facts_preset h v 22 2 720 486 .CF422 .FR30000_1001 10 false true t2 rfl
          (by decide))
    rw [if_neg t2] at hv
    by_cases t3 : (h.chromaFormat == .CF422 && h.width == 720 && decide (h.height ≥ 480) &&
        decide (h.height ≤ 486) && h.frameRate == .FR30000_1001 && h.bitdepth == 10) = true
    · rw [if_pos t3] at hv
      subst hv
      exact Or.inr (facts_near h v _ rfl t3)
    rw [if_neg t3] at hv
    by_cases t4 : PictureFormatMatches h 1920 1080 .CF422 .FR30000_1001 10 = true
    · rw [if_pos t4] at hv
      subst hv
      exact Or.inr (facts_preset h v 11 3 1920 1080 .CF422 .FR30000_1001 10 true true t4 rfl
          (by decide))
    rw [if_neg t4] at hv
    by_cases t5 : PictureFormatMatches h 1920 1080 .CF422 .FR25 10 = true
    · rw [if_pos t5] at hv
      subst hv
      exact Or.inr (facts_preset h v 12 3 1920 1080 .CF422 .FR25 10 true true t5 rfl
          (by decide))
    rw [if_neg t5] at hv
    exact Or.inl hv.symm
  · rw [hil, if_neg Bool.false_ne_true] at hv
    by_cases p0 : PictureFormatMatches h 176 120 .CF420 .FR15000_1001 8 = true
    · rw [if_pos p0] at hv
      subst hv
      exact Or.inr (facts_preset h v 1 1 176 120 .CF420 .FR15000_1001 8 false false p0 rfl
          (by decide))
    rw [if_neg p0] at hv
    by_cases p1 : PictureFormatMatches h 176 144 .CF420 .FR25_2 8 = true
    · rw [if_pos p1] at hv
      subst hv
      exact Or.inr (facts_preset h v 2 1 176 144 .CF420 .FR25_2 8 true false p1 rfl
          (by decide))
    rw [if_neg p1] at hv
    by_cases p2 : PictureFormatMatches h 352 240 .CF420 .FR15000_1001 8 = true
    · rw [if_pos p2] at hv
      subst hv
      exact Or.inr (facts_preset h v 3 1 352 240 .CF420 .FR15000_1001 8 false false p2 rfl
          (by decide))
    rw [if_neg p2] at hv
    by_cases p3 : PictureFormatMatches h 352 288 .CF420 .FR25_2 8 = true
    · rw [if_pos p3] at hv
      subst hv
      exact Or.inr (facts_preset h v 4 1 352 288 .CF420 .FR25_2 8 true false p3 rfl
          (by decide))
    rw [if_neg p3] at hv
    by_cases p4 : PictureFormatMatches h 704 480 .CF420 .FR15000_1001 8 = true
    · rw [if_pos p4] at hv
      subst hv
      exact Or.inr (facts_preset h v 5 1 704 480 .CF420 .FR15000_1001 8 false false p4 rfl
          (by decide))
    rw [if_neg p4] at hv
    by_cases p5 : PictureFormatMatches h 704 576 .CF420 .FR25_2 8 = true
    · rw [if_pos p5] at hv
      subst hv
      exact Or.inr (facts_preset h v 6 1 704 576 .CF420 .FR25_2 8 true false p5 rfl
          (by decide))
    rw [if_neg p5] at hv
    by_cases p6 : PictureFormatMatches h 720 480 .CF422 .FR30000_1001 10 = true
    · rw [if_pos p6] at hv
      subst hv
      exact Or.inr (facts_presetScan h v 7 2 720 480 .CF422 .FR30000_1001 10 false true p6 rfl
          (by decide))
    rw [if_neg p6] at hv
    by_cases p7 : PictureFormatMatches h 720 576 .CF422 .FR25 10 = true
    · rw [if_pos p7] at hv
      subst hv
      exact Or.inr (facts_presetScan h v 8 2 720 576 .CF422 .FR25 10 true true p7 rfl
          (by decide))
    rw [if_neg p7] at hv
    by_cases p8 : PictureFormatMatches h 720 486 .CF422 .FR30000_1001 10 = true
    · rw [if_pos p8] at hv
      subst hv
      exact Or.inr (facts_presetScan h v 22 2 720 486 .CF422 .FR30000_1001 10 false true p8 rfl
          (by decide))
    rw [if_neg p8] at hv
    by_cases p9 : PictureFormatMatches h 1280 720 .CF422 .FR60000_1001 10 = true
    · rw [if_pos p9] at hv
      subst hv
      exact Or.inr (facts_preset h v 9 3 1280 720 .CF422 .FR60000_1001 10 true false p9 rfl
          (by decide))
    rw [if_neg p9] at hv
    by_cases p10 : PictureFormatMatches h 1280 720 .CF422 .FR50 10 = true
    · rw [if_pos p10] at hv
      subst hv
      exact Or.inr (facts_preset h v 10 3 1280 720 .CF422 .FR50 10 true false p10 rfl
          (by decide))
    rw [if_neg p10] at hv
    by_cases p11 : PictureFormatMatches h 1920 1080 .CF422 .FR30000_1001 10 = true
    · rw [if_pos p11] at hv
      subst hv
      exact Or.inr (facts_presetScan h v 11 3 1920 1080 .CF422 .FR30000_1001 10 true true p11 rfl
          (by decide))
    rw [if_neg p11] at hv
    by_cases p12 : PictureFormatMatches h 1920 1080 .CF422 .FR25 10 = true
    · rw [if_pos p12] at hv
      subst hv
      exact Or.inr (facts_presetScan h v 12 3 1920 1080 .CF422 .FR25 10 true true p12 rfl
          (by decide))
    rw [if_neg p12] at hv
    by_cases p13 : PictureFormatMatches h 1920 1080 .CF422 .FR60000_1001 10 = true
    · rw [if_pos p13] at hv
      subst hv
      exact Or.inr (facts_preset h v 13 3 1920 1080 .CF422 .FR60000_1001 10 true false p13 rfl
          (by decide))
    rw [if_neg p13] at hv
    by_cases p14 : PictureFormatMatches h 1920 1080 .CF422 .FR50 10 = true
    · rw [if_pos p14] at hv
      subst hv
      exact Or.inr (facts_preset h v 14 3 1920 1080 .CF422 .FR50 10 true false p14 rfl
          (by decide))
    rw [if_neg p14] at hv
    by_cases p15 : PictureFormatMatches h 1920 1080 .CF422 .FR24000_1001 10 = true
    · rw [if_pos p15] at hv
      subst hv
      exact Or.inr (facts_preset h v 21 3 1920 1080 .CF422 .FR24000_1001 10 true false p15 rfl
          (by decide))
    rw [if_neg p15] at hv
    by_cases p16 : PictureFormatMatches h 2048 1080 .CF444 .FR24 12 = true
    · rw [if_pos p16] at hv
      subst hv
      exact Or.inr (facts_preset h v 15 4 2048 1080 .CF444 .FR24 12 true false p16 rfl
          (by decide))
    rw [if_neg p16] at hv
    by_cases p17 : PictureFormatMatches h 2048 1080 .CF444 .FR48 12 = true
    · rw [if_pos p17] at hv
      subst hv
      exact Or.inr (facts_48 h v _ rfl p17)
    rw [if_neg p17] at hv
    by_cases p18 : PictureFormatMatches h 4096 2160 .CF444 .FR24 12 = true
    · rw [if_pos p18] at hv
      subst hv
      exact Or.inr (facts_preset h v 16 5 4096 2160 .CF444 .FR24 12 true false p18 rfl
          (by decide))
    rw [if_neg p18] at hv
    by_cases p19 : PictureFormatMatches h 3840 2160 .CF422 .FR60000_1001 10 = true
    · rw [if_pos p19] at hv
      subst hv
      exact Or.inr (facts_preset h v 17 6 3840 2160 .CF422 .FR60000_1001 10 true false p19 rfl
          (by decide))
    rw [if_neg p19] at hv
    by_cases p20 : PictureFormatMatches h 3840 2160 .CF422 .FR50 10 = true
    · rw [if_pos p20] at hv
      subst hv
      exact Or.inr (facts_preset h v 18 6 3840 2160 .CF422 .FR50 10 true false p20 rfl
          (by decide))
    rw [if_neg p20] at hv
    by_cases p21 : PictureFormatMatches h 7680 4320 .CF422 .FR60000_1001 10 = true
    · rw [if_pos p21] at hv
      subst hv
      exact Or.inr (facts_preset h v 19 7 7680 4320 .CF422 .FR60000_1001 10 true false p21 rfl
          (by decide))
    rw [if_neg p21] at hv
    by_cases p22 : PictureFormatMatches h 7680 4320 .CF422 .FR50 10 = true
    · rw [if_pos p22] at hv
      subst hv
      exact Or.inr (facts_preset h v 20 7 7680 4320 .CF422 .FR50 10 true false p22 rfl
          (by decide))
    rw [if_neg p22] at hv
    exact Or.inl hv.symm

theorem ofSequenceHeader_eq (h : SequenceHeader) :
    video_format.ofSequenceHeader h =
      match video_format.customFallback h (video_format.matchPresets h (video_format.ofVersions h)) with
      | .error e => .error e
      | .ok v => .ok { v with picture_coding_mode := if h.interlace then 1 else 0 } :=
  rfl

theorem customFallback_of_base_ne (h : SequenceHeader) (v : video_format)
    (hb : v.base_video_format ≠ 0) : video_format.customFallback h v = .ok v := by
  unfold video_format.customFallback
  rw [if_neg hb]

theorem customFallback_of_base_eq (h : SequenceHeader) (v : video_format)
    (hb : v.base_video_format = 0) (hf : v.custom_frame_rate_flag = false) :
    (¬ (h.bitdepth = 8 ∨ h.bitdepth = 10 ∨ h.bitdepth = 12) ∧
      video_format.customFallback h v = .error "DataUnitIO: invalid bit depth") ∨
    ((h.bitdepth = 8 ∨ h.bitdepth = 10 ∨ h.bitdepth = 12) ∧
      ∃ v2, video_format.customFallback h v = .ok v2 ∧ v2.base_video_format = 0 ∧
        (v2.custom_frame_rate_flag = true ↔ h.frameRate ≠ .FR24000_1001) ∧
        (v2.custom_frame_rate_flag = true → v2.frame_rate = h.frameRate)) := by
  unfold video_format.customFallback
  rw [if_pos hb]
  rcases Bool.eq_false_or_eq_true h.interlace with c1 | c1 <;>
  by_cases c2 : h.width = 640 <;> by_cases c2b : h.height = 480 <;>
  by_cases c3 : h.frameRate = .FR24000_1001 <;>
  by_cases c8 : h.bitdepth = 8 <;> by_cases c10 : h.bitdepth = 10 <;>
  by_cases c12 : h.bitdepth = 12 <;>
  simp [c1, c2, c2b, c3, c8, c10, c12, hb, hf]

theorem bits_error_iff (fmt : video_format) :
    (∃ e, fmt.bits = .error e) ↔
      (fmt.custom_frame_rate_flag = true ∧ fmt.frame_rate = .FR0) := by
  unfold video_format.bits
  cases hf : fmt.custom_frame_rate_flag
  · simp
  · cases hr : fmt.frame_rate <;> simp [FrameRate.index]

theorem not_mem_frame_rate_table (r : FrameRate) : r ∉ frame_rate_table ↔ r = .FR0 := by
  cases r <;> simp [frame_rate_table]

/-! ## Properties of the colour conversion -/

theorem shiftRight_eight (x : Int) : x >>> (8 : Nat) = x / 256 := by
  rw [Int.shiftRight_eq_div_pow]
  rfl

theorem mem_evens (n p : Nat) : p ∈ evens n ↔ p % 2 = 0 ∧ p < n := by
  unfold evens
  simp only [List.mem_map, List.mem_range]
  constructor
  · rintro ⟨k, hk, rfl⟩
    omega
  · rintro ⟨h1, h2⟩
    exact ⟨p / 2, by omega, by omega⟩

theorem sentinelAccesses_inExtent (height width rows cols : Nat) (a : Access)
    (ha : a ∈ sentinelAccesses width) : a.inExtent height width rows cols := by
  simp only [sentinelAccesses, List.mem_cons, List.mem_singleton, List.not_mem_nil,
    or_false] at ha
  rcases ha with rfl | rfl | rfl | rfl <;> simp [Access.inExtent] <;> omega

theorem copyLineAccesses_inExtent (height width rows cols : Nat) (a : Access)
    (ha : a ∈ copyLineAccesses width) : a.inExtent height width rows cols := by
  simp only [copyLineAccesses, List.mem_flatMap, List.mem_range, List.mem_cons,
    List.mem_singleton, List.not_mem_nil, or_false] at ha
  obtain ⟨pixel, hp, rfl | rfl⟩ := ha <;> simp [Access.inExtent] <;> omega

theorem filterLineReads_inExtent (height width rows cols pixel : Nat) (a : Access)
    (hp : pixel < width) (ha : a ∈ filterLineReads pixel) :
    a.inExtent height width rows cols := by
  simp only [filterLineReads, List.mem_cons, List.mem_singleton, List.not_mem_nil,
    or_false] at ha
  rcases ha with rfl | rfl | rfl | rfl | rfl | rfl <;> simp [Access.inExtent] <;> omega

theorem fillAccesses_inExtent (height width rows cols : Nat) (a : Access) (b : Buffer)
    (hb : b = .UImage ∨ b = .VImage) (ha : a ∈ fillAccesses b height width) :
    a.inExtent height width rows cols := by
  simp only [fillAccesses, List.mem_map, List.mem_range] at ha
  obtain ⟨k, hk, rfl⟩ := ha
  have hk2 : (k : Int) < ((height : Int) + 2) * ((width : Int) + 2) := by exact_mod_cast hk
  rcases hb with rfl | rfl <;> simp [Access.inExtent] <;> omega

theorem image_index_bounds (height width line pixel : Nat) (hl : line < height)
    (hp : pixel < width) :
    -((width : Int) + 2 + 1) ≤ ((line : Int) - 1) * ((width : Int) + 2) + (pixel : Int) ∧
    ((line : Int) + 1) * ((width : Int) + 2) + (pixel : Int) <
      ((height : Int) + 2) * ((width : Int) + 2) - ((width : Int) + 2 + 1) := by
  have h1 : (0 : Int) ≤ (line : Int) * ((width : Int) + 2) := by positivity
  have h2 : ((line : Int) + 1) * ((width : Int) + 2) ≤ (height : Int) * ((width : Int) + 2) := by
    apply mul_le_mul_of_nonneg_right
    · exact_mod_cast hl
    · positivity
  have hpz : (pixel : Int) < width := by exact_mod_cast hp
  have hp0 : (0 : Int) ≤ (pixel : Int) := by positivity
  have e1 : ((line : Int) - 1) * ((width : Int) + 2) =
      (line : Int) * ((width : Int) + 2) - ((width : Int) + 2) := by ring
  have e2 : ((height : Int) + 2) * ((width : Int) + 2) =
      (height : Int) * ((width : Int) + 2) + 2 * ((width : Int) + 2) := by ring
  rw [e1, e2]
  constructor <;> omega

theorem imageAccess_inExtent (height width rows cols line pixel : Nat) (hl : line < height)
    (hp : pixel < width) (b : Buffer) (hb : b = .UImage ∨ b = .VImage) (w : Bool) :
    (⟨b, 0, ((line : Int) - 1) * ((width : Int) + 2) + (pixel : Int), w⟩ : Access).inExtent
      height width rows cols ∧
    (⟨b, 0, (line : Int) * ((width : Int) + 2) + (pixel : Int), w⟩ : Access).inExtent
      height width rows cols ∧
    (⟨b, 0, ((line : Int) + 1) * ((width : Int) + 2) + (pixel : Int), w⟩ : Access).inExtent
      height width rows cols := by
  obtain ⟨lo, hi⟩ := image_index_bounds height width line pixel hl hp
  have hw : (0 : Int) < (width : Int) + 2 := by positivity
  have e1 : ((line : Int) - 1) * ((width : Int) + 2) =
      (line : Int) * ((width : Int) + 2) - ((width : Int) + 2) := by ring
  have e3 : ((line : Int) + 1) * ((width : Int) + 2) =
      (line : Int) * ((width : Int) + 2) + ((width : Int) + 2) := by ring
  rw [e1] at lo
  rw [e3] at hi
  rcases hb with rfl | rfl <;>
    (refine ⟨⟨rfl, ?_, ?_⟩, ⟨rfl, ?_, ?_⟩, ⟨rfl, ?_, ?_⟩⟩ <;> simp only [e1, e3] <;> omega)

/-! ## Claims -/

/-- C1: for every sequence of writes made of `start_sequence`, any number of sequence headers
and pictures (in whatever slice-IO mode the stream is in) and `end_sequence`, the parse-infos
written form a chain: the first carries `prev_parse_offset = 0`, each later one carries the
`next_parse_offset` of the one written just before it, and the last one is the end of
sequence with `next_parse_offset = 0`. -/
theorem parse_info_chain (stream : OStream) (body : List WriteOp) (out : OStream)
    (h : writeSequence stream body = .ok out) :
    ∃ recs : List ParseInfoRecord,
      out.infos = stream.infos ++ recs ∧
      (∀ r, recs.head? = some r → r.prev_parse_offset = 0) ∧
      (∀ (k : Nat) (r1 r2 : ParseInfoRecord), recs[k]? = some r1 → recs[k + 1]? = some r2 →
        r2.prev_parse_offset = r1.next_parse_offset) ∧
      (∃ r, recs.getLast? = some r ∧ r.next_parse_offset = 0 ∧ r.parse_code = 0x10) := by
  unfold writeSequence at h
  cases h1 : runWrites (start_sequence stream) body with
  | error e => simp [h1] at h
  | ok stream1 =>
    simp only [h1, Except.ok.injEq] at h
    subst h
    obtain ⟨new, ha, hb, hc, hd⟩ :=
      runWrites_chain body (start_sequence stream) stream1 h1 (by simp [start_sequence])
    simp only [start_sequence] at ha hb hc
    have hchain : chainFrom 0
        (new ++ [⟨0x10, 0, stream1.prev_parse_offset % 4294967296⟩]) := by
      rw [chainFrom_append]
      refine ⟨hb, ?_⟩
      simp [chainFrom, ← hc, Nat.mod_eq_of_lt hd]
    refine ⟨new ++ [⟨0x10, 0, stream1.prev_parse_offset % 4294967296⟩], ?_, ?_, ?_, ?_⟩
    · simp [end_sequence, OStream.writeParseInfo, ha, ParseInfoIO.ofType,
        ParseInfoIO.parse_code]
    · exact fun r hr => chainFrom_head 0 _ hchain r hr
    · exact chainFrom_index _ 0 hchain
    · exact ⟨⟨0x10, 0, stream1.prev_parse_offset % 4294967296⟩, by simp, rfl, rfl⟩

/-- Witness for C1: the example sequence, whose four parse-infos carry (next, prev) =
(17, 0), (26, 17), (20, 26), (0, 20). -/
theorem parse_info_chain_witness :
    writeSequence exampleStream exampleBody = .ok exampleOut ∧
    ∃ recs : List ParseInfoRecord,
      exampleOut.infos = exampleStream.infos ++ recs ∧
      (∀ r, recs.head? = some r → r.prev_parse_offset = 0) ∧
      (∀ (k : Nat) (r1 r2 : ParseInfoRecord), recs[k]? = some r1 → recs[k + 1]? = some r2 →
        r2.prev_parse_offset = r1.next_parse_offset) ∧
      (∃ r, recs.getLast? = some r ∧ r.next_parse_offset = 0 ∧ r.parse_code = 0x10) :=
  ⟨by decide, parse_info_chain exampleStream exampleBody exampleOut (by decide)⟩

/-- C2: writing a parse-info appends exactly 13 bytes: `0x42 0x42 0x43 0x44`, the one-byte
parse code, `next_parse_offset` as 4 big-endian bytes, and the stream's stored previous
parse offset as 4 big-endian bytes; afterwards the stored previous parse offset is the
`next_parse_offset` just written. -/
theorem parse_info_write (stream : OStream) ( piio : ParseInfoIO) :
    (stream.writeParseInfo piio).bytes =
      stream.bytes ++ ([0x42, 0x42, 0x43, 0x44, piio.parse_code] ++
        bytesBE 4 piio.next_parse_offset ++ bytesBE 4 stream.prev_parse_offset) ∧
    (stream.writeParseInfo piio).bytes.length = stream.bytes.length + 13 ∧
    piio.parse_code < 256 ∧
    (bytesBE 4 piio.next_parse_offset).length = 4 ∧
    valueBE (bytesBE 4 piio.next_parse_offset) = piio.next_parse_offset % 4294967296 ∧
    (bytesBE 4 stream.prev_parse_offset).length = 4 ∧
    valueBE (bytesBE 4 stream.prev_parse_offset) = stream.prev_parse_offset % 4294967296 ∧
    (stream.writeParseInfo piio).prev_parse_offset = piio.next_parse_offset := by
  refine ⟨?_, ?_, piio.parse_code_lt, bytesBE_length _ _, valueBE_bytesBE_four _,
    bytesBE_length _ _, valueBE_bytesBE_four _, rfl⟩
  · simp only [OStream.writeParseInfo, ParseInfoIO.bytes_eq]
  · simp only [OStream.writeParseInfo, List.length_append, ParseInfoIO.bytes_length]

/-- The offset claimed for every LD picture fails for `hugePicture`: the payload is
`2^32 + 10` bytes, the write appends `13 + 2^32 + 10` bytes, and the parse-info carries
`next_parse_offset = 23`. (Counterexample to C3 as stated.) -/
theorem LDWrappedPictureIO_offset_wraps :
    freshStream.sliceIOMode = .LD ∧
    (LDPayload .LD hugePicture).length = 4294967306 ∧
    ( LDWrappedPictureIO freshStream hugePicture).bytes.length =
      freshStream.bytes.length + (13 + 4294967306) ∧
    ( LDWrappedPictureIO freshStream hugePicture).infos = freshStream.infos ++ [⟨0xC8, 23, 0⟩] := by
  have hlen : ∀ mode, (LDPayload mode hugePicture).length = 4294967306 :=
    fun mode => examplePicture_payload_length mode 4294967296
  refine ⟨rfl, hlen _, ?_, ?_⟩
  · rw [LDWrappedPictureIO_bytes, List.length_append, List.length_append,
      ParseInfoIO.bytes_length, hlen]
  · rw [LDWrappedPictureIO_infos, hlen]
    rfl

/-- C3 (amended): for every sequence header that is written, and for every LD-mode wrapped
picture whose payload is shorter than `2^32 - 13` bytes, the parse-info written in front of
the payload carries `next_parse_offset = 13 + (number of payload bytes)`, and the write
appends exactly that many bytes: the 13 bytes of the parse-info and then the payload. -/
theorem next_parse_offset_spans_unit (stream : OStream) :
    (∀ (s : SequenceHeader) (out : OStream), writeSequenceHeader stream s = .ok out →
      ∃ payload : List Nat, s.payload = .ok payload ∧
        out.infos = stream.infos ++
          [⟨0x00, 13 + payload.length, stream.prev_parse_offset % 4294967296⟩] ∧
        out.bytes = stream.bytes ++
          ( ParseInfoIO.ofSize .SEQUENCE_HEADER payload.length).bytes stream.prev_parse_offset ++
          payload ∧
        out.bytes.length = stream.bytes.length + (13 + payload.length)) ∧
    (∀ (d : WrappedPicture) (out : OStream), stream.sliceIOMode = .LD →
      writeWrappedPicture stream d = .ok out →
      (LDPayload .LD d).length + 13 < 4294967296 →
        out.infos = stream.infos ++
          [⟨0xC8, 13 + (LDPayload .LD d).length, stream.prev_parse_offset % 4294967296⟩] ∧
        out.bytes = stream.bytes ++
          ( ParseInfoIO.ofSize .LD_PICTURE (LDPayload .LD d).length).bytes
            stream.prev_parse_offset ++
          LDPayload .LD d ∧
        out.bytes.length = stream.bytes.length + (13 + (LDPayload .LD d).length)) := by
  constructor
  · intro s out h
    obtain ⟨payload, hp, rfl⟩ := writeSequenceHeader_ok stream s out h
    have hle := SequenceHeader.payload_length_le s payload hp
    have hn := ParseInfoIO.ofSize_next_eq .SEQUENCE_HEADER payload.length (by omega)
    refine ⟨payload, hp, ?_, rfl, ?_⟩
    · simp only [OStream.writeBytes, OStream.writeParseInfo, hn]
      rw [Nat.mod_eq_of_lt (by omega)]
      rfl
    · simp only [OStream.writeBytes, OStream.writeParseInfo, List.length_append,
        ParseInfoIO.bytes_length]
      omega
  · intro d out hmode h hlen
    simp only [writeWrappedPicture, hmode, Except.ok.injEq] at h
    subst h
    have hn := ParseInfoIO.ofSize_next_eq .LD_PICTURE (LDPayload .LD d).length hlen
    refine ⟨?_, ?_, ?_⟩
    · rw [LDWrappedPictureIO_infos, hmode, hn, Nat.mod_eq_of_lt (by omega)]
    · rw [LDWrappedPictureIO_bytes, hmode]
    · rw [LDWrappedPictureIO_bytes, hmode, List.length_append, List.length_append,
        ParseInfoIO.bytes_length]
      omega

/-- Witness for C3 (amended): the example header (4 payload bytes, offset 17) and the example
LD picture with 3 bytes of slice data (13 payload bytes, offset 26), each on a fresh stream. -/
theorem next_parse_offset_spans_unit_witness :
    writeSequenceHeader freshStream exampleHeader =
      .ok ⟨[66, 66, 67, 68, 0, 0, 0, 0, 17, 0, 0, 0, 0, 112, 133, 8, 1], 17, .LD, [⟨0, 17, 0⟩]⟩ ∧
    freshStream.sliceIOMode = .LD ∧
    writeWrappedPicture freshStream (examplePicture 3) =
      .ok ( LDWrappedPictureIO freshStream (examplePicture 3)) ∧
    (LDPayload .LD (examplePicture 3)).length + 13 < 4294967296 ∧
    (∃ payload : List Nat, exampleHeader.payload = .ok payload ∧
      (⟨[66, 66, 67, 68, 0, 0, 0, 0, 17, 0, 0, 0, 0, 112, 133, 8, 1], 17, .LD,
          [⟨0, 17, 0⟩]⟩ : OStream).infos = freshStream.infos ++
        [⟨0x00, 13 + payload.length, freshStream.prev_parse_offset % 4294967296⟩] ∧
      (⟨[66, 66, 67, 68, 0, 0, 0, 0, 17, 0, 0, 0, 0, 112, 133, 8, 1], 17, .LD,
          [⟨0, 17, 0⟩]⟩ : OStream).bytes = freshStream.bytes ++
        ( ParseInfoIO.ofSize .SEQUENCE_HEADER payload.length).bytes
          freshStream.prev_parse_offset ++ payload ∧
      (⟨[66, 66, 67, 68, 0, 0, 0, 0, 17, 0, 0, 0, 0, 112, 133, 8, 1], 17, .LD,
          [⟨0, 17, 0⟩]⟩ : OStream).bytes.length =
        freshStream.bytes.length + (13 + payload.length)) ∧
    ( LDWrappedPictureIO freshStream (examplePicture 3)).infos = freshStream.infos ++
      [⟨0xC8, 13 + (LDPayload .LD (examplePicture 3)).length,
        freshStream.prev_parse_offset % 4294967296⟩] :=
  have h1 : writeSequenceHeader freshStream exampleHeader =
      .ok ⟨[66, 66, 67, 68, 0, 0, 0, 0, 17, 0, 0, 0, 0, 112, 133, 8, 1], 17, .LD,
        [⟨0, 17, 0⟩]⟩ := by decide
  have h2 : (LDPayload .LD (examplePicture 3)).length + 13 < 4294967296 := by decide
  ⟨h1, rfl, rfl, h2, (next_parse_offset_spans_unit freshStream).1 exampleHeader _ h1,
    ((next_parse_offset_spans_unit freshStream).2 (examplePicture 3) _ rfl rfl h2).1⟩

/-- C4 (the code at the failing input): one byte `0x42` in front of an end-of-sequence
parse-info. The prefix `42 42 43 44` first occurs at offset 1, yet `synchronise` does not
stop after it: it runs to the end of the input and leaves the stream failed and empty, and
the data-unit reader that follows does not report the end of sequence. -/
theorem synchronise_skips_overlapping_prefix :
    synchronise ⟨[0x42, 0x42, 0x42, 0x43, 0x44, 0x10, 0, 0, 0, 0, 0, 0, 0, 0], true⟩ =
      ⟨[], false⟩ ∧
    (readDataUnit
      (synchronise ⟨[0x42, 0x42, 0x42, 0x43, 0x44, 0x10, 0, 0, 0, 0, 0, 0, 0, 0], true⟩)).1 ≠
      .END_OF_SEQUENCE := by
  have h : synchronise ⟨[0x42, 0x42, 0x42, 0x43, 0x44, 0x10, 0, 0, 0, 0, 0, 0, 0, 0], true⟩ =
      ⟨[], false⟩ := by
    simp [synchronise, IStream.readByte]
  rw [h]
  exact ⟨rfl, by decide⟩

/-- C5 (the code at the failing input): the sequence header 1000x500, 4:2:0, progressive,
24000/1001, 8 bit is written as a 13-byte parse-info and the 7 payload bytes
`3F 55 10 6A A2 30 10`. After `synchronise` the data-unit reader reports a sequence header
but consumes 13 bytes, not 9: it leaves the stream at the fifth payload byte, so the
sequence-header reader would start at `A2 30 10`. -/
theorem readDataUnit_consumes_payload :
    writeSequenceHeader freshStream exampleCustomHeader =
      .ok ⟨[66, 66, 67, 68, 0, 0, 0, 0, 20, 0, 0, 0, 0, 63, 85, 16, 106, 162, 48, 16], 20, .LD,
        [⟨0, 20, 0⟩]⟩ ∧
    exampleCustomHeader.payload = .ok [63, 85, 16, 106, 162, 48, 16] ∧
    synchronise
      ⟨[66, 66, 67, 68, 0, 0, 0, 0, 20, 0, 0, 0, 0, 63, 85, 16, 106, 162, 48, 16], true⟩ =
      ⟨[0, 0, 0, 0, 20, 0, 0, 0, 0, 63, 85, 16, 106, 162, 48, 16], true⟩ ∧
    readDataUnit
      (synchronise
        ⟨[66, 66, 67, 68, 0, 0, 0, 0, 20, 0, 0, 0, 0, 63, 85, 16, 106, 162, 48, 16], true⟩) =
      (.SEQUENCE_HEADER, ⟨[162, 48, 16], true⟩) := by
  have h : synchronise
      ⟨[66, 66, 67, 68, 0, 0, 0, 0, 20, 0, 0, 0, 0, 63, 85, 16, 106, 162, 48, 16], true⟩ =
      ⟨[0, 0, 0, 0, 20, 0, 0, 0, 0, 63, 85, 16, 106, 162, 48, 16], true⟩ := by
    simp [synchronise, IStream.readByte]
  rw [h]
  exact ⟨by decide, by decide, rfl, by decide⟩

/-- C6: when the serialised size of a slice is non-increasing in the quantiser index over
`[0, 127]` and some index in `[0, 127]` fits in `sliceBytes[row][column] - 4`, the index
`quantIndices` returns for that slice is the smallest index in `[0, 127]` that fits; and
the index is the same for any other picture and table that give the same slice
coefficients and the same budget under the same matrix and scalar. -/
theorem quantIndices_least_fitting {Picture Plane : Type} (C : SliceCoder Picture Plane)
    (coefficients : Picture) (qMatrix : List Int) (sliceBytes : Array2D) (scalar : Int)
    (row column : Nat)
    (hmono : ∀ a b : Int, 0 ≤ a → a ≤ b → b ≤ 127 →
      C.bytesRequired (C.split_into_blocks coefficients sliceBytes.rows sliceBytes.cols row column)
          qMatrix (Int.tdiv ((qMatrix.length : Int) - 1) 3) scalar b ≤
        C.bytesRequired (C.split_into_blocks coefficients sliceBytes.rows sliceBytes.cols row column)
          qMatrix (Int.tdiv ((qMatrix.length : Int) - 1) 3) scalar a)
    (hfit : ∃ q0 : Int, 0 ≤ q0 ∧ q0 ≤ 127 ∧
      C.bytesRequired (C.split_into_blocks coefficients sliceBytes.rows sliceBytes.cols row column)
          qMatrix (Int.tdiv ((qMatrix.length : Int) - 1) 3) scalar q0 ≤
        sliceBytes.get row column - 4) :
    0 ≤ (quantIndices C coefficients qMatrix sliceBytes scalar).get row column ∧
    (quantIndices C coefficients qMatrix sliceBytes scalar).get row column ≤ 127 ∧
    C.bytesRequired (C.split_into_blocks coefficients sliceBytes.rows sliceBytes.cols row column)
        qMatrix (Int.tdiv ((qMatrix.length : Int) - 1) 3) scalar
        ((quantIndices C coefficients qMatrix sliceBytes scalar).get row column) ≤
      sliceBytes.get row column - 4 ∧
    (∀ q : Int, 0 ≤ q → q ≤ 127 →
      C.bytesRequired (C.split_into_blocks coefficients sliceBytes.rows sliceBytes.cols row column)
          qMatrix (Int.tdiv ((qMatrix.length : Int) - 1) 3) scalar q ≤
        sliceBytes.get row column - 4 →
      (quantIndices C coefficients qMatrix sliceBytes scalar).get row column ≤ q) ∧
    (∀ (coefficients2 : Picture) (sliceBytes2 : Array2D) (row2 column2 : Nat),
      C.split_into_blocks coefficients2 sliceBytes2.rows sliceBytes2.cols row2 column2 =
        C.split_into_blocks coefficients sliceBytes.rows sliceBytes.cols row column →
      sliceBytes2.get row2 column2 = sliceBytes.get row column →
      (quantIndices C coefficients2 qMatrix sliceBytes2 scalar).get row2 column2 =
        (quantIndices C coefficients qMatrix sliceBytes scalar).get row column) := by
  obtain ⟨q0, hq0, hq127, hq0fit⟩ := hfit
  have h64 : ((2 : Int) ^ 6) = 64 := by norm_num
  have key := searchLoop_least _ (sliceBytes.get row column - 4) hmono 6 63 127 []
    (by norm_num) (by norm_num) (by norm_num) (fun x hx0 hx => by
      rw [h64] at hx
      omega)
  rw [h64] at key
  obtain ⟨h1, h2, h3, h4⟩ := key
  have hfits : C.bytesRequired
      (C.split_into_blocks coefficients sliceBytes.rows sliceBytes.cols row column) qMatrix
      (Int.tdiv ((qMatrix.length : Int) - 1) 3) scalar
      ((quantIndices C coefficients qMatrix sliceBytes scalar).get row column) ≤
      sliceBytes.get row column - 4 := by
    rcases h2 with h2 | h2
    · by_contra hnot
      have hq0lt : ¬ q0 < 127 := fun hlt => h1 q0 hq0 (by
        show q0 < (searchLoop _ _ 63 127 64 []).1
        rw [h2]
        exact hlt) hq0fit
      have hq0eq : q0 = 127 := by omega
      apply hnot
      show C.bytesRequired _ _ _ _ (searchLoop _ _ 63 127 64 []).1 ≤ _
      rw [h2, ← hq0eq]
      exact hq0fit
    · exact h2
  refine ⟨h3, h4, hfits, fun q hq hq' hqfit => ?_, ?_⟩
  · by_contra hlt
    exact h1 q hq (by
      show q < (searchLoop _ _ 63 127 64 []).1
      have : ¬ (searchLoop _ (sliceBytes.get row column - 4) 63 127 64 []).1 ≤ q := hlt
      omega) hqfit
  · intro coefficients2 sliceBytes2 row2 column2 hslice hbudget
    simp only [quantIndices, hslice, hbudget]

/-- Witness for C6: a slice whose size at index `q` is `3 * max 0 (100 - 2 q)` with budget 64;
the smallest fitting index is 40. -/
theorem quantIndices_least_fitting_witness :
    (∃ q0 : Int, 0 ≤ q0 ∧ q0 ≤ 127 ∧
      rampCoder.bytesRequired (rampCoder.split_into_blocks 100 (oneSlice 64).rows
          (oneSlice 64).cols 0 0) [0] (Int.tdiv ((([0] : List Int).length : Int) - 1) 3) 1 q0 ≤
        (oneSlice 64).get 0 0 - 4) ∧
    (quantIndices rampCoder 100 [0] (oneSlice 64) 1).get 0 0 = 40 ∧
    ∀ q : Int, 0 ≤ q → q ≤ 127 →
      rampCoder.bytesRequired (rampCoder.split_into_blocks 100 (oneSlice 64).rows
          (oneSlice 64).cols 0 0) [0] (Int.tdiv ((([0] : List Int).length : Int) - 1) 3) 1 q ≤
        (oneSlice 64).get 0 0 - 4 →
      (quantIndices rampCoder 100 [0] (oneSlice 64) 1).get 0 0 ≤ q :=
  have hfit : ∃ q0 : Int, 0 ≤ q0 ∧ q0 ≤ 127 ∧
      rampCoder.bytesRequired (rampCoder.split_into_blocks 100 (oneSlice 64).rows
          (oneSlice 64).cols 0 0) [0] (Int.tdiv ((([0] : List Int).length : Int) - 1) 3) 1 q0 ≤
        (oneSlice 64).get 0 0 - 4 :=
    ⟨127, by decide, by decide, by decide⟩
  ⟨hfit,
    by simp [quantIndices, searchSlice, searchLoop, SliceCoder.bytesRequired, rampCoder, oneSlice],
    (quantIndices_least_fitting rampCoder 100 [0] (oneSlice 64) 1 0 0
      (fun a b _ hab _ => by
        simp only [SliceCoder.bytesRequired, rampCoder]
        omega)
      hfit).2.2.2.1⟩

/-- C7: with no assumption on the sizes, the index `quantIndices` returns for a slice is
the result of the search for that slice; when some evaluated trial index fitted in
`sliceBytes[row][column] - 4` it is the least evaluated trial index that fitted, and it is
127 exactly when no evaluated trial index fitted. -/
theorem quantIndices_min_fitting_trial {Picture Plane : Type} (C : SliceCoder Picture Plane)
    (coefficients : Picture) (qMatrix : List Int) (sliceBytes : Array2D) (scalar : Int)
    (row column : Nat) :
    ∃ (size : Int → Int) (trials : List Int),
      size = C.bytesRequired
        (C.split_into_blocks coefficients sliceBytes.rows sliceBytes.cols row column) qMatrix
        (Int.tdiv ((qMatrix.length : Int) - 1) 3) scalar ∧
      trials = (searchSlice size (sliceBytes.get row column)).2 ∧
      (quantIndices C coefficients qMatrix sliceBytes scalar).get row column =
        (searchSlice size (sliceBytes.get row column)).1 ∧
      ((∃ t ∈ trials, size t ≤ sliceBytes.get row column - 4) →
        (quantIndices C coefficients qMatrix sliceBytes scalar).get row column ∈ trials ∧
        size ((quantIndices C coefficients qMatrix sliceBytes scalar).get row column) ≤
          sliceBytes.get row column - 4 ∧
        ∀ t ∈ trials, size t ≤ sliceBytes.get row column - 4 →
          (quantIndices C coefficients qMatrix sliceBytes scalar).get row column ≤ t) ∧
      ((quantIndices C coefficients qMatrix sliceBytes scalar).get row column = 127 ↔
        ∀ t ∈ trials, ¬ size t ≤ sliceBytes.get row column - 4) := by
  refine ⟨_, _, rfl, rfl, rfl, ?_, ?_⟩
  · rintro ⟨t, ht, htfit⟩
    obtain ⟨-, h2, -, h4, h5⟩ := searchSlice_trace
      (C.bytesRequired
        (C.split_into_blocks coefficients sliceBytes.rows sliceBytes.cols row column) qMatrix
        (Int.tdiv ((qMatrix.length : Int) - 1) 3) scalar) (sliceBytes.get row column)
    rcases h5 with h5 | ⟨h5, h6⟩
    · have h126 := (h2 t ht).2
      have hle := h4 t ht htfit
      rw [h5] at hle
      omega
    · exact ⟨h5, h6, h4⟩
  · obtain ⟨-, h2, -, h4, h5⟩ := searchSlice_trace
      (C.bytesRequired
        (C.split_into_blocks coefficients sliceBytes.rows sliceBytes.cols row column) qMatrix
        (Int.tdiv ((qMatrix.length : Int) - 1) 3) scalar) (sliceBytes.get row column)
    constructor
    · intro h127 t ht htfit
      have h126 := (h2 t ht).2
      have hle := h4 t ht htfit
      have h127b : (searchSlice (C.bytesRequired
        (C.split_into_blocks coefficients sliceBytes.rows sliceBytes.cols row column) qMatrix
        (Int.tdiv ((qMatrix.length : Int) - 1) 3) scalar) (sliceBytes.get row column)).1 = 127 :=
        h127
      omega
    · intro hnone
      rcases h5 with h5 | ⟨h5, h6⟩
      · exact h5
      · exact absurd h6 (hnone _ h5)

/-- Witness for C7: the slice of size `3 * max 0 (100 - 2 q)` with budget 64: the trials are
63, 31, 47, 39, 43, 41, 40, those that fit in 60 bytes are 63, 47, 43, 41, 40, and the index
returned is 40. -/
theorem quantIndices_min_fitting_trial_witness :
    (searchSlice (rampCoder.bytesRequired (rampCoder.split_into_blocks 100 (oneSlice 64).rows
        (oneSlice 64).cols 0 0) [0] (Int.tdiv ((([0] : List Int).length : Int) - 1) 3) 1)
      ((oneSlice 64).get 0 0)) = (40, [63, 31, 47, 39, 43, 41, 40]) ∧
    ∃ (size : Int → Int) (trials : List Int),
      size = rampCoder.bytesRequired
        (rampCoder.split_into_blocks 100 (oneSlice 64).rows (oneSlice 64).cols 0 0) [0]
        (Int.tdiv ((([0] : List Int).length : Int) - 1) 3) 1 ∧
      trials = (searchSlice size ((oneSlice 64).get 0 0)).2 ∧
      (quantIndices rampCoder 100 [0] (oneSlice 64) 1).get 0 0 =
        (searchSlice size ((oneSlice 64).get 0 0)).1 ∧
      ((∃ t ∈ trials, size t ≤ (oneSlice 64).get 0 0 - 4) →
        (quantIndices rampCoder 100 [0] (oneSlice 64) 1).get 0 0 ∈ trials ∧
        size ((quantIndices rampCoder 100 [0] (oneSlice 64) 1).get 0 0) ≤
          (oneSlice 64).get 0 0 - 4 ∧
        ∀ t ∈ trials, size t ≤ (oneSlice 64).get 0 0 - 4 →
          (quantIndices rampCoder 100 [0] (oneSlice 64) 1).get 0 0 ≤ t) ∧
      ((quantIndices rampCoder 100 [0] (oneSlice 64) 1).get 0 0 = 127 ↔
        ∀ t ∈ trials, ¬ size t ≤ (oneSlice 64).get 0 0 - 4) :=
  ⟨by simp [searchSlice, searchLoop, SliceCoder.bytesRequired, rampCoder, oneSlice],
    quantIndices_min_fitting_trial rampCoder 100 [0] (oneSlice 64) 1 0 0⟩

/-- The budget inequality claimed for every slice fails for the one-byte-per-component coder
with a budget of 6 bytes: no trial fits in `6 - 4`, the search returns 127 (an index it never
tried), and the slice then needs `4 + 3 = 7` bytes. (Counterexample to C8 as stated.) -/
theorem quantIndices_budget_exceeded :
    (quantIndices unitCoder () [0] (oneSlice 6) 1).get 0 0 = 127 ∧
    ¬ (4 + unitCoder.bytesRequired (unitCoder.split_into_blocks () (oneSlice 6).rows
          (oneSlice 6).cols 0 0) [0] (Int.tdiv ((([0] : List Int).length : Int) - 1) 3) 1
        ((quantIndices unitCoder () [0] (oneSlice 6) 1).get 0 0) ≤ (oneSlice 6).get 0 0) := by
  constructor
  · simp [quantIndices, searchSlice, searchLoop, SliceCoder.bytesRequired, unitCoder, oneSlice]
  · simp [SliceCoder.bytesRequired, unitCoder, oneSlice]

/-- C8 (amended): for every slice at which `quantIndices` returns an index other than 127,
the 4 header bytes plus the three component sizes of the slice quantised at the returned
index are at most `sliceBytes[row][column]`. -/
theorem quantIndices_within_budget {Picture Plane : Type} (C : SliceCoder Picture Plane)
    (coefficients : Picture) (qMatrix : List Int) (sliceBytes : Array2D) (scalar : Int)
    (row column : Nat)
    (hq : (quantIndices C coefficients qMatrix sliceBytes scalar).get row column ≠ 127) :
    4 + C.bytesRequired
        (C.split_into_blocks coefficients sliceBytes.rows sliceBytes.cols row column) qMatrix
        (Int.tdiv ((qMatrix.length : Int) - 1) 3) scalar
        ((quantIndices C coefficients qMatrix sliceBytes scalar).get row column) ≤
      sliceBytes.get row column := by
  obtain ⟨-, -, -, -, h5⟩ := searchSlice_trace
    (C.bytesRequired
      (C.split_into_blocks coefficients sliceBytes.rows sliceBytes.cols row column) qMatrix
      (Int.tdiv ((qMatrix.length : Int) - 1) 3) scalar) (sliceBytes.get row column)
  rcases h5 with h5 | ⟨-, h6⟩
  · exact absurd h5 hq
  · have h6b : C.bytesRequired
        (C.split_into_blocks coefficients sliceBytes.rows sliceBytes.cols row column) qMatrix
        (Int.tdiv ((qMatrix.length : Int) - 1) 3) scalar
        ((quantIndices C coefficients qMatrix sliceBytes scalar).get row column) ≤
        sliceBytes.get row column - 4 := h6
    omega

/-- Witness for C8 (amended): the one-byte-per-component coder with a budget of 7 bytes; the
search returns 0 and the slice needs exactly 7 bytes. -/
theorem quantIndices_within_budget_witness :
    (quantIndices unitCoder () [0] (oneSlice 7) 1).get 0 0 ≠ 127 ∧
    4 + unitCoder.bytesRequired (unitCoder.split_into_blocks () (oneSlice 7).rows
          (oneSlice 7).cols 0 0) [0] (Int.tdiv ((([0] : List Int).length : Int) - 1) 3) 1
        ((quantIndices unitCoder () [0] (oneSlice 7) 1).get 0 0) ≤ (oneSlice 7).get 0 0 :=
  have hq : (quantIndices unitCoder () [0] (oneSlice 7) 1).get 0 0 ≠ 127 := by
    simp [quantIndices, searchSlice, searchLoop, SliceCoder.bytesRequired, unitCoder, oneSlice]
  ⟨hq, quantIndices_within_budget unitCoder () [0] (oneSlice 7) 1 0 0 hq⟩

/-- C9: for every input and every slice, the index `quantIndices` returns lies in
`[0, 127]`; the search for the slice is total and evaluates exactly 7 trial indices, each
in `[0, 126]`. -/
theorem quantIndices_range {Picture Plane : Type} (C : SliceCoder Picture Plane)
    (coefficients : Picture) (qMatrix : List Int) (sliceBytes : Array2D) (scalar : Int)
    (row column : Nat) :
    0 ≤ (quantIndices C coefficients qMatrix sliceBytes scalar).get row column ∧
    (quantIndices C coefficients qMatrix sliceBytes scalar).get row column ≤ 127 ∧
    ∃ trials : List Int,
      searchSlice
        (C.bytesRequired
          (C.split_into_blocks coefficients sliceBytes.rows sliceBytes.cols row column) qMatrix
          (Int.tdiv ((qMatrix.length : Int) - 1) 3) scalar) (sliceBytes.get row column) =
        ((quantIndices C coefficients qMatrix sliceBytes scalar).get row column, trials) ∧
      trials.length = 7 ∧ ∀ t ∈ trials, 0 ≤ t ∧ t ≤ 126 := by
  obtain ⟨h1, h2, h3, -, h5⟩ := searchSlice_trace
    (C.bytesRequired
      (C.split_into_blocks coefficients sliceBytes.rows sliceBytes.cols row column) qMatrix
      (Int.tdiv ((qMatrix.length : Int) - 1) 3) scalar) (sliceBytes.get row column)
  refine ⟨?_, h3, _, rfl, h1, h2⟩
  rcases h5 with h5 | ⟨h5, -⟩
  · show 0 ≤ (searchSlice _ _).1
    rw [h5]
    norm_num
  · exact (h2 _ h5).1

/-- C10: a sequence header whose width, height, chroma format, interlace flag, frame rate
and bit depth are those of row `i` of the specification's `base_video_format` table, for any
`i` from 0 to 22, is projected without error to a video format with `base_video_format = i`
and the four custom flags (dimensions, scan format, frame rate, signal range) all false. -/
theorem video_format_of_table_row (h : SequenceHeader) (i : Nat) (hi : i ≤ 22)
    (hrow : base_video_format_table[i]? = some h.row) :
    ∃ v, video_format.ofSequenceHeader h = .ok v ∧ v.base_video_format = (i : Int) ∧
      v.custom_dimensions_flag = false ∧ v.custom_scan_format_flag = false ∧
      v.custom_frame_rate_flag = false ∧ v.custom_signal_range_flag = false := by
  obtain ⟨mj, mn, p, w, ht, cf, il, fr, tff, bd⟩ := h
  interval_cases i <;>
    simp [base_video_format_table, SequenceHeader.row] at hrow <;>
    obtain ⟨rfl, rfl, rfl, rfl, rfl, rfl⟩ := hrow <;>
    simp [video_format.ofSequenceHeader, video_format.customFallback, video_format.matchPresets,
      PictureFormatMatches, video_format.preset, video_format.presetScan, video_format.init]

/-- Witness for C10: the example header has the parameters of row 11. -/
theorem video_format_of_table_row_witness :
    11 ≤ 22 ∧ base_video_format_table[11]? = some exampleHeader.row ∧
    ∃ v, video_format.ofSequenceHeader exampleHeader = .ok v ∧
      v.base_video_format = ((11 : Nat) : Int) ∧
      v.custom_dimensions_flag = false ∧ v.custom_scan_format_flag = false ∧
      v.custom_frame_rate_flag = false ∧ v.custom_signal_range_flag = false :=
  ⟨by decide, by decide, video_format_of_table_row exampleHeader 11 (by decide) (by decide)⟩

/-- C11: for every index `i` from 0 to 22 and every video format with
`base_video_format = i` and no custom flag set, `hdr << fmt` succeeds and the header has
exactly the width, height, chroma format, interlace flag, frame rate and bit depth of row `i`
of the specification's table; for every index outside 0..22 it throws. -/
theorem header_of_base_video_format (fmt : video_format) :
    (∀ (i : Nat) (row : TableRow), base_video_format_table[i]? = some row →
      fmt.base_video_format = (i : Int) →
      fmt.custom_dimensions_flag = false → fmt.custom_scan_format_flag = false →
      fmt.custom_frame_rate_flag = false → fmt.custom_signal_range_flag = false →
      ∃ hdr, SequenceHeader.ofVideoFormat fmt = .ok hdr ∧ hdr.row = row) ∧
    (fmt.base_video_format < 0 ∨ 22 < fmt.base_video_format →
      ∃ e, SequenceHeader.ofVideoFormat fmt = .error e) := by
  constructor
  · intro i row hrow hb h1 h2 h3 h4
    have hi : i < 23 := by
      by_contra hge
      have : base_video_format_table[i]? = none := by
        apply List.getElem?_eq_none
        simp only [base_video_format_table, List.length_cons, List.length_nil]
        omega
      rw [this] at hrow
      exact absurd hrow (by simp)
    interval_cases i <;>
      simp [base_video_format_table] at hrow <;>
      subst hrow <;>
      simp [SequenceHeader.ofVideoFormat, SequenceHeader.ofBase, hb, h1, h2, h3, h4,
        SequenceHeader.make, SequenceHeader.row] <;>
      split_ifs <;> simp
  · intro hout
    refine ⟨"DataUnitIO: unknown base video format", ?_⟩
    unfold SequenceHeader.ofVideoFormat SequenceHeader.ofBase
    have h : ∀ k : Int, 0 ≤ k → k ≤ 22 → fmt.base_video_format ≠ k := by
      intro k hk0 hk22 heq
      omega
    simp [h 0, h 1, h 2, h 3, h 4, h 5, h 6, h 7, h 8, h 9, h 10, h 11, h 12, h 13, h 14, h 15,
      h 16, h 17, h 18, h 19, h 20, h 21, h 22]

/-- Witness for C11: the example format has `base_video_format = 11` and no custom flag; the
header reconstructed from it has the parameters of row 11. A format with
`base_video_format = 23` is refused. -/
theorem header_of_base_video_format_witness :
    base_video_format_table[11]? = some ⟨1920, 1080, .CF422, true, .FR30000_1001, 10⟩ ∧
    exampleFormat.base_video_format = ((11 : Nat) : Int) ∧
    (∃ hdr, SequenceHeader.ofVideoFormat exampleFormat = .ok hdr ∧
      hdr.row = ⟨1920, 1080, .CF422, true, .FR30000_1001, 10⟩) ∧
    (22 : Int) < ({ exampleFormat with base_video_format := 23 } : video_format).base_video_format ∧
    ∃ e, SequenceHeader.ofVideoFormat { exampleFormat with base_video_format := 23 } = .error e :=
  ⟨by decide, by decide,
    (header_of_base_video_format exampleFormat).1 11 _ (by decide) (by decide) (by decide)
      (by decide) (by decide) (by decide),
    by decide,
    (header_of_base_video_format { exampleFormat with base_video_format := 23 }).2
      (Or.inr (by decide))⟩

/-- C12: the header 1920x1080, 4:2:2, interlaced, 30000/1001, 10 bit, HQ profile is projected
to `base_video_format = 11`, `level = 3`, `custom_scan_format_flag = false` and
`picture_coding_mode = 1`; and for every header that has a projection
`picture_coding_mode` is 1 if the header is interlaced and 0 otherwise. -/
theorem picture_coding_mode_of_header :
    (∃ v, video_format.ofSequenceHeader exampleHeader = .ok v ∧ v.base_video_format = 11 ∧
      v.level = 3 ∧ v.custom_scan_format_flag = false ∧ v.picture_coding_mode = 1) ∧
    ∀ (h : SequenceHeader) (v : video_format), video_format.ofSequenceHeader h = .ok v →
      v.picture_coding_mode = if h.interlace then 1 else 0 := by
  constructor
  · refine ⟨_, rfl, ?_, ?_, ?_, ?_⟩ <;> decide
  · intro h v hv
    unfold video_format.ofSequenceHeader at hv
    simp only at hv
    split at hv
    · exact absurd hv (by simp)
    · simp only [Except.ok.injEq] at hv
      subst hv
      rfl

/-- Witness for C12: the progressive custom header has a projection, with
`picture_coding_mode = 0`. -/
theorem picture_coding_mode_of_header_witness :
    video_format.ofSequenceHeader exampleCustomHeader =
      .ok { video_format.init with
            major_version := 1, custom_dimensions_flag := true, frame_width := 1000,
            frame_height := 500, picture_coding_mode := 0 } ∧
    ({ video_format.init with
        major_version := 1, custom_dimensions_flag := true, frame_width := 1000,
        frame_height := 500, picture_coding_mode := 0 } : video_format).picture_coding_mode =
      if exampleCustomHeader.interlace then 1 else 0 :=
  ⟨by decide, picture_coding_mode_of_header.2 exampleCustomHeader _ (by decide)⟩

/-- The projection claimed for every header outside the table fails for the interlaced
header 720x483, 4:2:2, 30000/1001, 10 bit: it is no row of the table, and it is projected
to `base_video_format = 7` with custom dimensions. (Counterexample to C13 as stated.) -/
theorem near_preset_keeps_base :
    exampleNearHeader.row ∉ base_video_format_table ∧
    ∃ v, video_format.ofSequenceHeader exampleNearHeader = .ok v ∧ v.base_video_format = 7 ∧
      v.custom_dimensions_flag = true ∧ v.frame_width = 720 ∧ v.frame_height = 483 := by
  refine ⟨by decide, _, rfl, ?_, ?_, ?_, ?_⟩ <;> decide

/-- C13 (amended): for every sequence header that is no row of the table and passes none of
the projection's other preset tests, and whose bit depth is 8, 10 or 12, the projection has
`base_video_format = 0`, and each of the four custom flags is set exactly when the header
differs from 640x480, progressive, 24000/1001, 8 bit in that respect, with the header's
value in the guarded field. -/
theorem video_format_custom_fallback (h : SequenceHeader)
    (hrow : h.row ∉ base_video_format_table) (hnear : h.nearPreset = false)
    (hbd : h.bitdepth = 8 ∨ h.bitdepth = 10 ∨ h.bitdepth = 12) :
    ∃ v, video_format.ofSequenceHeader h = .ok v ∧ v.base_video_format = 0 ∧
      (v.custom_dimensions_flag = true ↔ (h.width ≠ 640 ∨ h.height ≠ 480)) ∧
      (v.custom_dimensions_flag = true → v.frame_width = h.width ∧ v.frame_height = h.height) ∧
      (v.custom_scan_format_flag = true ↔ h.interlace = true) ∧
      (v.custom_scan_format_flag = true → v.source_sampling = 1) ∧
      (v.custom_frame_rate_flag = true ↔ h.frameRate ≠ .FR24000_1001) ∧
      (v.custom_frame_rate_flag = true → v.frame_rate = h.frameRate) ∧
      (v.custom_signal_range_flag = true ↔ h.bitdepth ≠ 8) ∧
      (v.custom_signal_range_flag = true →
        (h.bitdepth = 10 ∧ v.bitdepth = 3) ∨ (h.bitdepth = 12 ∧ v.bitdepth = 4)) := by
  unfold video_format.ofSequenceHeader
  simp only [matchPresets_none h _ hrow hnear]
  unfold video_format.customFallback
  simp only [video_format.init, if_true]
  rcases hbd with hbd | hbd | hbd <;>
    by_cases hi : h.interlace = true <;>
    by_cases hw : h.width = 640 <;>
    by_cases hh : h.height = 480 <;>
    by_cases hf : h.frameRate = .FR24000_1001 <;>
    simp [hbd, hi, hw, hh, hf]

/-- Witness for C13 (amended): the custom header 1000x500, 4:2:0, progressive, 24000/1001,
8 bit. -/
theorem video_format_custom_fallback_witness :
    exampleCustomHeader.row ∉ base_video_format_table ∧
    exampleCustomHeader.nearPreset = false ∧
    (exampleCustomHeader.bitdepth = 8 ∨ exampleCustomHeader.bitdepth = 10 ∨
      exampleCustomHeader.bitdepth = 12) ∧
    ∃ v, video_format.ofSequenceHeader exampleCustomHeader = .ok v ∧ v.base_video_format = 0 ∧
      (v.custom_dimensions_flag = true ↔
        (exampleCustomHeader.width ≠ 640 ∨ exampleCustomHeader.height ≠ 480)) ∧
      (v.custom_dimensions_flag = true →
        v.frame_width = exampleCustomHeader.width ∧
        v.frame_height = exampleCustomHeader.height) ∧
      (v.custom_scan_format_flag = true ↔ exampleCustomHeader.interlace = true) ∧
      (v.custom_scan_format_flag = true → v.source_sampling = 1) ∧
      (v.custom_frame_rate_flag = true ↔ exampleCustomHeader.frameRate ≠ .FR24000_1001) ∧
      (v.custom_frame_rate_flag = true → v.frame_rate = exampleCustomHeader.frameRate) ∧
      (v.custom_signal_range_flag = true ↔ exampleCustomHeader.bitdepth ≠ 8) ∧
      (v.custom_signal_range_flag = true →
        (exampleCustomHeader.bitdepth = 10 ∧ v.bitdepth = 3) ∨
        (exampleCustomHeader.bitdepth = 12 ∧ v.bitdepth = 4)) :=
  ⟨by decide, by decide, by decide,
    video_format_custom_fallback exampleCustomHeader (by decide) (by decide) (by decide)⟩

/-- C14 (the code at the failing input): picture 1 with two bytes of slice data, written to
a fresh stream in HQ CBR mode. The write appends the two slice bytes and nothing else: no
parse-info with parse code 0xE8, no picture number and no transform parameters; no
parse-info is recorded and the stored previous parse offset stays 0. -/
theorem HQWrappedPictureIO_omits_preamble :
    hqStream.sliceIOMode = .HQCBR ∧
    (examplePicture 2).slices.write .HQCBR = [0, 0] ∧
    writeWrappedPicture hqStream (examplePicture 2) =
      .ok { bytes := [0, 0], prev_parse_offset := 0, sliceIOMode := .HQCBR, infos := [] } := by
  decide

/-- C15: writing a `WrappedPicture` while the stream is in LD mode appends a parse-info with
parse code 0xC8 and then the payload: the picture number in 4 big-endian bytes, the VLCs of
the wavelet index, depth, slices_x, slices_y, slice-bytes numerator and denominator and one
false bit, packed and completed with zero bits to the next byte boundary, and then the
serialised slices. -/
theorem LDWrappedPictureIO_layout (stream : OStream) (d : WrappedPicture) (out : OStream)
    (hmode : stream.sliceIOMode = .LD) (h : writeWrappedPicture stream d = .ok out) :
    ∃ (next : Nat) (bits : List Bool),
      bits = UnsignedVLC d.wavelet_kernel.index ++ UnsignedVLCInt d.depth ++
        UnsignedVLCInt d.slices_x ++ UnsignedVLCInt d.slices_y ++
        UnsignedVLCInt d.slice_bytes.numerator ++ UnsignedVLCInt d.slice_bytes.denominator ++
        [false] ∧
      out.bytes = stream.bytes ++
        ([0x42, 0x42, 0x43, 0x44, 0xC8] ++ bytesBE 4 next ++
          bytesBE 4 stream.prev_parse_offset) ++
        (bytesBE 4 d.picture_number ++ packBits bits ++ d.slices.write .LD) ∧
      valueBE (bytesBE 4 d.picture_number) = d.picture_number % 4294967296 ∧
      (packBits bits).flatMap bitsOfByte =
        bits ++ List.replicate ((8 - bits.length % 8) % 8) false ∧
      out.infos = stream.infos ++ [⟨0xC8, next, stream.prev_parse_offset % 4294967296⟩] := by
  simp only [writeWrappedPicture, hmode, Except.ok.injEq] at h
  subst h
  refine ⟨( ParseInfoIO.ofSize .LD_PICTURE (LDPayload .LD d).length).next_parse_offset, _, rfl,
    ?_, valueBE_bytesBE_four _, flatMap_bitsOfByte_packBits _, ?_⟩
  · rw [LDWrappedPictureIO_bytes, hmode, ParseInfoIO.bytes_eq]
    rfl
  · rw [LDWrappedPictureIO_infos, hmode,
      Nat.mod_eq_of_lt ( ParseInfoIO.ofSize_next_lt .LD_PICTURE _)]

/-- Witness for C15: the example picture with 3 bytes of slice data on a fresh LD stream. -/
theorem LDWrappedPictureIO_layout_witness :
    freshStream.sliceIOMode = .LD ∧
    writeWrappedPicture freshStream (examplePicture 3) =
      .ok { bytes := [66, 66, 67, 68, 200, 0, 0, 0, 26, 0, 0, 0, 0,
                      0, 0, 0, 1, 33, 1, 128, 48, 0, 100, 0, 0, 0]
            prev_parse_offset := 26
            sliceIOMode := .LD
            infos := [⟨200, 26, 0⟩] } ∧
    ∃ (next : Nat) (bits : List Bool),
      bits = UnsignedVLC (examplePicture 3).wavelet_kernel.index ++
        UnsignedVLCInt (examplePicture 3).depth ++
        UnsignedVLCInt (examplePicture 3).slices_x ++ UnsignedVLCInt (examplePicture 3).slices_y ++
        UnsignedVLCInt (examplePicture 3).slice_bytes.numerator ++
        UnsignedVLCInt (examplePicture 3).slice_bytes.denominator ++ [false] ∧
      ({ bytes := [66, 66, 67, 68, 200, 0, 0, 0, 26, 0, 0, 0, 0,
                   0, 0, 0, 1, 33, 1, 128, 48, 0, 100, 0, 0, 0]
         prev_parse_offset := 26
         sliceIOMode := .LD
         infos := [⟨200, 26, 0⟩] } : OStream).bytes = freshStream.bytes ++
        ([0x42, 0x42, 0x43, 0x44, 0xC8] ++ bytesBE 4 next ++
          bytesBE 4 freshStream.prev_parse_offset) ++
        (bytesBE 4 (examplePicture 3).picture_number ++ packBits bits ++
          (examplePicture 3).slices.write .LD) ∧
      valueBE (bytesBE 4 (examplePicture 3).picture_number) =
        (examplePicture 3).picture_number % 4294967296 ∧
      (packBits bits).flatMap bitsOfByte =
        bits ++ List.replicate ((8 - bits.length % 8) % 8) false ∧
      ({ bytes := [66, 66, 67, 68, 200, 0, 0, 0, 26, 0, 0, 0, 0,
                   0, 0, 0, 1, 33, 1, 128, 48, 0, 100, 0, 0, 0]
         prev_parse_offset := 26
         sliceIOMode := .LD
         infos := [⟨200, 26, 0⟩] } : OStream).infos = freshStream.infos ++
        [⟨0xC8, next, freshStream.prev_parse_offset % 4294967296⟩] :=
  ⟨rfl, by decide, LDWrappedPictureIO_layout freshStream (examplePicture 3) _ rfl (by decide)⟩

/-- C16: in an HQ slice-IO mode, reading a `PicturePreamble` from a picture number in 4
big-endian bytes, the VLCs of a wavelet index `w` from 0 to 6, depth, slices_x, slices_y,
slice prefix and slice size scalar, a 0 bit and padding to the byte boundary yields exactly
those values, the kernel that the specification's list gives for `w`, and
`slice_bytes = 0/1`, and leaves the stream at the first byte after the padding. -/
theorem readPicturePreamble_HQ_layout (mode : SliceIOMode) (hdr : PicturePreamble)
    (pn w depth sx sy sp ss : Nat) (kernel : WaveletKernel) (tail : List Nat)
    (hmode : mode = .HQVBR ∨ mode = .HQCBR) (hpn : pn < 4294967296)
    (hw : wavelet_index_table[w]? = some kernel)
    (hdepth : depth < 2147483648) (hsx : sx < 2147483648) (hsy : sy < 2147483648)
    (hsp : sp < 2147483648) (hss : ss < 2147483648) :
    readPicturePreamble mode hdr
      ⟨bytesBE 4 pn ++ packBits (UnsignedVLC w ++ UnsignedVLC depth ++ UnsignedVLC sx ++
        UnsignedVLC sy ++ UnsignedVLC sp ++ UnsignedVLC ss ++ Boolean false) ++ tail, true⟩ =
      .ok ({ picture_number := pn
             wavelet_kernel := kernel
             depth := (depth : Int)
             slices_x := (sx : Int)
             slices_y := (sy : Int)
             slice_prefix := (sp : Int)
             slice_size_scalar := (ss : Int)
             slice_bytes := ⟨0, 1⟩ }, ⟨tail, true⟩) := by
  rw [readPicturePreamble_HQ mode hmode]
  have hw7 : w < 7 := by
    by_contra hge
    have : wavelet_index_table[w]? = none := by
      apply List.getElem?_eq_none
      simp only [wavelet_index_table, List.length_cons, List.length_nil]
      omega
    rw [this] at hw
    exact absurd hw (by simp)
  have hk : hdr.wavelet_kernel.ofIndex (w % 4294967296) = kernel := by
    rw [Nat.mod_eq_of_lt (by omega)]
    interval_cases w <;> simp [wavelet_index_table] at hw <;> subst hw <;> rfl
  have hr : rationalise 0 1 = ⟨0, 1⟩ := by decide
  simp only [Bool.false_eq_true, if_false, hk, hr, toInt_of_lt _ hdepth, toInt_of_lt _ hsx,
    toInt_of_lt _ hsy, toInt_of_lt _ hsp, toInt_of_lt _ hss, Nat.mod_eq_of_lt hpn]

/-- Witness for C16: picture 1, wavelet index 1 (LeGall), depth 3, 16 by 32 slices, prefix
0, scalar 1, followed by the byte 9, read in HQ CBR mode. -/
theorem readPicturePreamble_HQ_layout_witness :
    (SliceIOMode.HQCBR = .HQVBR ∨ SliceIOMode.HQCBR = .HQCBR) ∧
    wavelet_index_table[1]? = some .LeGall ∧
    bytesBE 4 1 ++ packBits (UnsignedVLC 1 ++ UnsignedVLC 3 ++ UnsignedVLC 16 ++
        UnsignedVLC 32 ++ UnsignedVLC 0 ++ UnsignedVLC 1 ++ Boolean false) ++ [9] =
      [0, 0, 0, 1, 33, 1, 128, 57, 0, 9] ∧
    readPicturePreamble .HQCBR PicturePreamble.default
      ⟨bytesBE 4 1 ++ packBits (UnsignedVLC 1 ++ UnsignedVLC 3 ++ UnsignedVLC 16 ++
        UnsignedVLC 32 ++ UnsignedVLC 0 ++ UnsignedVLC 1 ++ Boolean false) ++ [9], true⟩ =
      .ok ({ picture_number := 1
             wavelet_kernel := .LeGall
             depth := ((3 : Nat) : Int)
             slices_x := ((16 : Nat) : Int)
             slices_y := ((32 : Nat) : Int)
             slice_prefix := ((0 : Nat) : Int)
             slice_size_scalar := ((1 : Nat) : Int)
             slice_bytes := ⟨0, 1⟩ }, ⟨[9], true⟩) :=
  ⟨by decide, by decide, by decide,
    readPicturePreamble_HQ_layout .HQCBR PicturePreamble.default 1 1 3 16 32 0 1 .LeGall [9]
      (by decide) (by decide) (by decide) (by decide) (by decide) (by decide) (by decide)
      (by decide)⟩

/-- C17 (the code at the failing input): a preamble whose VLC-coded wavelet index is 7. In HQ
CBR mode and in LD mode the read does not fail: it returns a preamble whose kernel is the
one the `PicturePreamble` held before the read (`NullKernel` for a default one) and goes on
to read the other fields. -/
theorem readPicturePreamble_unknown_wavelet :
    bytesBE 4 1 ++ packBits (UnsignedVLC 7 ++ UnsignedVLC 3 ++ UnsignedVLC 16 ++
        UnsignedVLC 32 ++ UnsignedVLC 0 ++ UnsignedVLC 1 ++ Boolean false) =
      [0, 0, 0, 1, 2, 16, 24, 3, 144] ∧
    readPicturePreamble .HQCBR PicturePreamble.default ⟨[0, 0, 0, 1, 2, 16, 24, 3, 144], true⟩ =
      .ok ({ picture_number := 1, wavelet_kernel := .NullKernel, depth := 3, slices_x := 16,
             slices_y := 32, slice_prefix := 0, slice_size_scalar := 1,
             slice_bytes := ⟨0, 1⟩ }, ⟨[], true⟩) ∧
    bytesBE 4 1 ++ packBits (UnsignedVLC 7 ++ UnsignedVLC 3 ++ UnsignedVLC 16 ++
        UnsignedVLC 32 ++ UnsignedVLC 128 ++ UnsignedVLC 1 ++ Boolean false) =
      [0, 0, 0, 1, 2, 16, 24, 3, 0, 6, 64] ∧
    readPicturePreamble .LD PicturePreamble.default
        ⟨[0, 0, 0, 1, 2, 16, 24, 3, 0, 6, 64], true⟩ =
      .ok ({ picture_number := 1, wavelet_kernel := .NullKernel, depth := 3, slices_x := 16,
             slices_y := 32, slice_prefix := 0, slice_size_scalar := 0,
             slice_bytes := ⟨128, 1⟩ }, ⟨[], true⟩) := by
  decide

/-- C18: in LD mode and in both HQ modes, reading a `PicturePreamble` from a stream that
holds the picture number, the six VLCs, the custom-quant-matrix bit `q`, the padding and
any further bytes fails if and only if `q` is 1; the LD picture writer emits that bit as 0,
so reading what it wrote never fails. -/
theorem readPicturePreamble_fails_iff (hdr : PicturePreamble)
    (pn w depth sx sy a b : Nat) (q : Bool) (tail : List Nat) :
    (∀ mode : SliceIOMode, mode = .LD ∨ mode = .HQVBR ∨ mode = .HQCBR →
      ((∃ e, readPicturePreamble mode hdr
          ⟨bytesBE 4 pn ++ packBits (UnsignedVLC w ++ UnsignedVLC depth ++ UnsignedVLC sx ++
            UnsignedVLC sy ++ UnsignedVLC a ++ UnsignedVLC b ++ Boolean q) ++ tail, true⟩ =
          .error e) ↔ q = true)) ∧
    (∀ d : WrappedPicture,
      LDPreamble d = bytesBE 4 d.picture_number ++
        packBits (UnsignedVLC d.wavelet_kernel.index ++ UnsignedVLCInt d.depth ++
          UnsignedVLCInt d.slices_x ++ UnsignedVLCInt d.slices_y ++
          UnsignedVLCInt d.slice_bytes.numerator ++ UnsignedVLCInt d.slice_bytes.denominator ++
          Boolean false) ∧
      ∃ r, readPicturePreamble .LD hdr ⟨LDPayload .LD d, true⟩ = .ok r) := by
  constructor
  · intro mode hmode
    rcases hmode with hm | hm
    · subst hm
      rw [readPicturePreamble_LD]
      cases q <;> simp
    · rw [readPicturePreamble_HQ mode hm]
      cases q <;> simp
  · intro d
    refine ⟨rfl, ?_⟩
    unfold LDPayload LDPreamble UnsignedVLCInt
    rw [readPicturePreamble_LD]
    exact ⟨_, rfl⟩

/-- C19: for every `i` from 1 to 11, the video-format writer with the custom frame-rate flag
set emits the VLC of `i` for the `i`-th frame rate of the specification's list, the reader
maps index `i` to that frame rate, and so reading the index written for a frame rate returns
that frame rate. -/
theorem frame_rate_index_roundtrip (i : Nat) (r : FrameRate) (hi : 1 ≤ i)
    (hr : frame_rate_table[i - 1]? = some r) :
    r.index = some i ∧ FrameRate.ofIndex i = some r ∧
    (∀ fmt : video_format, fmt.custom_frame_rate_flag = true → fmt.frame_rate = r →
      fmt.bits = .ok
        (UnsignedVLCInt fmt.major_version ++ UnsignedVLCInt fmt.minor_version ++
          UnsignedVLCInt fmt.profile ++ UnsignedVLCInt fmt.level ++
          UnsignedVLCInt fmt.base_video_format ++
          (Boolean fmt.custom_dimensions_flag ++
            (if fmt.custom_dimensions_flag then
              UnsignedVLCInt fmt.frame_width ++ UnsignedVLCInt fmt.frame_height else [])) ++
          Boolean false ++
          (Boolean fmt.custom_scan_format_flag ++
            (if fmt.custom_scan_format_flag then UnsignedVLCInt fmt.source_sampling else [])) ++
          Boolean true ++ UnsignedVLC i ++
          (Boolean false ++ Boolean false ++ Boolean fmt.custom_signal_range_flag ++
            (if fmt.custom_signal_range_flag then UnsignedVLCInt fmt.bitdepth else []) ++
            Boolean false ++ UnsignedVLCInt fmt.picture_coding_mode))) ∧
    (∀ (fmt : video_format) (rest : List Bool),
      fmt.readFrameRate (Boolean true ++ UnsignedVLC i ++ rest) =
        .ok ({ fmt with custom_frame_rate_flag := true, frame_rate := r }, rest)) := by
  have hi11 : i - 1 < 11 := by
    by_contra hge
    have : frame_rate_table[i - 1]? = none := by
      apply List.getElem?_eq_none
      simp only [frame_rate_table, List.length_cons, List.length_nil]
      omega
    rw [this] at hr
    exact absurd hr (by simp)
  have hi' : i ≤ 11 := by omega
  have h1 : r.index = some i := by
    interval_cases i <;> simp [frame_rate_table] at hr <;> subst hr <;> rfl
  have h2 : FrameRate.ofIndex i = some r := by
    interval_cases i <;> simp [frame_rate_table] at hr <;> subst hr <;> rfl
  refine ⟨h1, h2, ?_, ?_⟩
  · intro fmt hflag hrate
    unfold video_format.bits
    simp only [hflag, hrate, h1, if_true]
  · intro fmt rest
    have h3 : FrameRate.ofIndex (i % 4294967296) = some r := by
      rw [Nat.mod_eq_of_lt (by omega)]
      exact h2
    have := readFrameRate_written fmt true i rest
    simp only [if_true, h3] at this
    simpa only [Boolean, List.singleton_append, List.cons_append, List.nil_append] using this

/-- Witness for C19: index 4 is 30000/1001. -/
theorem frame_rate_index_roundtrip_witness :
    1 ≤ 4 ∧ frame_rate_table[4 - 1]? = some .FR30000_1001 ∧
    FrameRate.FR30000_1001.index = some 4 ∧ FrameRate.ofIndex 4 = some .FR30000_1001 :=
  ⟨by decide, by decide,
    (frame_rate_index_roundtrip 4 .FR30000_1001 (by decide) (by decide)).1,
    (frame_rate_index_roundtrip 4 .FR30000_1001 (by decide) (by decide)).2.1⟩

/-- The equivalence claimed for every video format with the custom frame-rate flag set fails
for the stream `3E 21 88`: the flag is set and the index that follows is 3, inside 1..11,
yet the read fails, because the pixel-aspect-ratio flag after the index is set.
(Counterexample to C20 as stated.) -/
theorem readVideoFormat_fails_with_valid_index :
    packBits (UnsignedVLC 1 ++ UnsignedVLC 0 ++ UnsignedVLC 0 ++ UnsignedVLC 0 ++
        UnsignedVLC 0 ++ Boolean false ++ Boolean false ++ Boolean false ++
        Boolean true ++ UnsignedVLC 3 ++
        Boolean true ++ Boolean false ++ Boolean false ++ Boolean false ++ UnsignedVLC 0) =
      [62, 33, 136] ∧
    FrameRate.ofIndex 3 = some .FR25 ∧
    readVideoFormat ⟨[62, 33, 136], true⟩ video_format.init =
      .error "DataUnitIO: custom_pixel_aspect_ratio_flag set, shouldn't be" := by
  decide

/-- C20 (amended): reading a video format from a stream laid out as the writer lays it out
(the colour-difference, pixel-aspect-ratio, clean-area and colour-spec flags clear, padded
to a whole number of bytes) with the custom frame-rate flag set fails if and only if the
frame-rate index that follows is outside 1..11, 0 included; with the flag clear no index is
read, the read succeeds, and the frame rate field keeps its value. -/
theorem readVideoFormat_frame_rate (fmt : video_format) (major minor profile level base : Nat)
    (dims : Bool) (fw fh : Nat) (scan : Bool) (sampling index : Nat) (range : Bool)
    (bd pcm : Nat) (tail : List Nat) (hindex : index < 4294967296) :
    ((∃ e, readVideoFormat
        ⟨packBits (wireBits major minor profile level base dims fw fh scan sampling true index
          range bd pcm) ++ tail, true⟩ fmt = .error e) ↔ ¬ (1 ≤ index ∧ index ≤ 11)) ∧
    (∃ fmt1, readVideoFormat
        ⟨packBits (wireBits major minor profile level base dims fw fh scan sampling false index
          range bd pcm) ++ tail, true⟩ fmt = .ok (fmt1, ⟨tail, true⟩) ∧
      fmt1.custom_frame_rate_flag = false ∧ fmt1.frame_rate = fmt.frame_rate) ∧
    wireBits major minor profile level base dims fw fh scan sampling false index range bd pcm =
      UnsignedVLC major ++ UnsignedVLC minor ++ UnsignedVLC profile ++ UnsignedVLC level ++
        UnsignedVLC base ++ Boolean dims ++
        (if dims then UnsignedVLC fw ++ UnsignedVLC fh else []) ++
        Boolean false ++ Boolean scan ++ (if scan then UnsignedVLC sampling else []) ++
        Boolean false ++ Boolean false ++ Boolean false ++
        Boolean range ++ (if range then UnsignedVLC bd else []) ++ Boolean false ++
        UnsignedVLC pcm := by
  refine ⟨?_, ?_, ?_⟩
  · rw [readVideoFormat_wireBits, Nat.mod_eq_of_lt hindex, ← FrameRate.ofIndex_eq_none_iff]
    by_cases h : FrameRate.ofIndex index = none
    · simp [h]
    · simp [h]
  · rw [readVideoFormat_wireBits]
    simp
  · simp [wireBits]

/-- Witness for C20 (amended): the fields of the example format with frame-rate index 0. -/
theorem readVideoFormat_frame_rate_witness :
    (0 : Nat) < 4294967296 ∧
    ((∃ e, readVideoFormat
        ⟨packBits (wireBits 2 0 3 3 11 false 0 0 false 0 true 0 false 0 1) ++ [9], true⟩
        video_format.init = .error e) ↔ ¬ (1 ≤ 0 ∧ 0 ≤ 11)) ∧
    ∃ fmt1, readVideoFormat
        ⟨packBits (wireBits 2 0 3 3 11 false 0 0 false 0 false 0 false 0 1) ++ [9], true⟩
        video_format.init = .ok (fmt1, ⟨[9], true⟩) ∧
      fmt1.custom_frame_rate_flag = false ∧ fmt1.frame_rate = video_format.init.frame_rate :=
  ⟨by decide,
    (readVideoFormat_frame_rate video_format.init 2 0 3 3 11 false 0 0 false 0 0 false 0 1 [9]
      (by decide)).1,
    (readVideoFormat_frame_rate video_format.init 2 0 3 3 11 false 0 0 false 0 0 false 0 1 [9]
      (by decide)).2.1⟩


/-- C21, counterexample: `ParseInfoIO::parse_code` has no case for padding data, which takes
the default `0x20` of auxiliary data and not the `0x30` of the table. A parse-info of type
`PADDING_DATA` would be written with the parse code `0x20`, which the data-unit reader of
the same file maps to auxiliary data, while that reader maps `0x30` to padding data. The
other five types get the code of the table. -/
theorem parse_code_of_padding :
    ( ParseInfoIO.ofType .PADDING_DATA).parse_code = 0x20 ∧
    ( ParseInfoIO.bytes ( ParseInfoIO.ofType .PADDING_DATA) 0) =
      [0x42, 0x42, 0x43, 0x44, 0x20, 0, 0, 0, 0, 0, 0, 0, 0] ∧
    DataUnitType.ofParseCode ( ParseInfoIO.parse_code ( ParseInfoIO.ofType .PADDING_DATA)) =
      .AUXILIARY_DATA ∧
    DataUnitType.ofParseCode 0x30 = .PADDING_DATA ∧
    ( ParseInfoIO.ofType .SEQUENCE_HEADER).parse_code = 0x00 ∧
    ( ParseInfoIO.ofType .END_OF_SEQUENCE).parse_code = 0x10 ∧
    ( ParseInfoIO.ofType .AUXILIARY_DATA).parse_code = 0x20 ∧
    ( ParseInfoIO.ofType .LD_PICTURE).parse_code = 0xC8 ∧
    ( ParseInfoIO.ofType .HQ_PICTURE).parse_code = 0xE8 := by
  decide

/-- C22: the data-unit reader, on a stream whose next byte is `b`, reports the sequence
header for `0x00`, the end of sequence for `0x10`, auxiliary data for `0x20`, padding data
for `0x30`, an LD picture for `0xC8`, an HQ picture for `0xE8`, and the unknown data unit
for every other byte; the reader has no failing path. -/
theorem readDataUnit_parse_code (b : Nat) (rest : List Nat) (hb : b < 256) :
    (b = 0x00 → (readDataUnit ⟨b :: rest, true⟩).1 = .SEQUENCE_HEADER) ∧
    (b = 0x10 → (readDataUnit ⟨b :: rest, true⟩).1 = .END_OF_SEQUENCE) ∧
    (b = 0x20 → (readDataUnit ⟨b :: rest, true⟩).1 = .AUXILIARY_DATA) ∧
    (b = 0x30 → (readDataUnit ⟨b :: rest, true⟩).1 = .PADDING_DATA) ∧
    (b = 0xC8 → (readDataUnit ⟨b :: rest, true⟩).1 = .LD_PICTURE) ∧
    (b = 0xE8 → (readDataUnit ⟨b :: rest, true⟩).1 = .HQ_PICTURE) ∧
    (b ≠ 0x00 → b ≠ 0x10 → b ≠ 0x20 → b ≠ 0x30 → b ≠ 0xC8 → b ≠ 0xE8 →
      (readDataUnit ⟨b :: rest, true⟩).1 = .UNKNOWN_DATA_UNIT) := by
  rw [readDataUnit_fst, Nat.mod_eq_of_lt hb]
  refine ⟨?_, ?_, ?_, ?_, ?_, ?_, ?_⟩
  · intro h; subst h; rfl
  · intro h; subst h; rfl
  · intro h; subst h; rfl
  · intro h; subst h; rfl
  · intro h; subst h; rfl
  · intro h; subst h; rfl
  · intro h0 h1 h2 h3 h4 h5
    simp [DataUnitType.ofParseCode, h0, h1, h2, h3, h4, h5]

/-- Witness of C22 at the byte `0x31`, one more than the padding code, followed by twelve
other bytes: the hypothesis holds and the reader reports the unknown data unit. -/
theorem readDataUnit_parse_code_witness :
    (0x31 : Nat) < 256 ∧
    (readDataUnit ⟨[0x31, 0, 0, 0, 13, 0, 0, 0, 0, 0x42, 0x42, 0x43, 0x44], true⟩).1 =
      .UNKNOWN_DATA_UNIT :=
  ⟨by decide,
    (readDataUnit_parse_code 0x31 [0, 0, 0, 13, 0, 0, 0, 0, 0x42, 0x42, 0x43, 0x44]
      (by decide)).2.2.2.2.2.2 (by decide) (by decide) (by decide) (by decide) (by decide)
      (by decide)⟩

/-- C23: for every stream, whatever its stored previous parse offset `P`, `end_sequence`
appends the nine bytes `42 42 43 44 10 00 00 00 00` followed by the four big-endian bytes of
`P`, thirteen bytes in all, and leaves the stored previous parse offset at 0. -/
theorem end_sequence_bytes (stream : OStream) :
    (end_sequence stream).bytes =
      stream.bytes ++ ([0x42, 0x42, 0x43, 0x44, 0x10, 0, 0, 0, 0] ++
        bytesBE 4 stream.prev_parse_offset) ∧
    ((end_sequence stream).bytes.length = stream.bytes.length + 13) ∧
    valueBE (bytesBE 4 stream.prev_parse_offset) = stream.prev_parse_offset % 4294967296 ∧
    (end_sequence stream).prev_parse_offset = 0 := by
  have hb : (end_sequence stream).bytes =
      stream.bytes ++ ([0x42, 0x42, 0x43, 0x44, 0x10, 0, 0, 0, 0] ++
        bytesBE 4 stream.prev_parse_offset) := by
    simp [end_sequence, OStream.writeParseInfo, ParseInfoIO.bytes, ParseInfoIO.ofType,
      ParseInfoIO.parse_code, bytesBE]
  refine ⟨hb, ?_, valueBE_bytesBE_four _, rfl⟩
  rw [hb]
  simp [bytesBE_length]

/-- C24: on a good stream that holds junk bytes none of which is `0x42`, then
`42 42 43 44`, a parse code `c` and anything after it, `synchronise` consumes the junk and
the four prefix bytes and nothing more, the stream stays good, and the data-unit reader
then reports the type of `c`. -/
theorem synchronise_after_junk (junk tail : List Nat) (c : Nat)
    (hjunk : ∀ b ∈ junk, b ≠ 0x42) (hc : c < 256) :
    synchronise ⟨junk ++ [0x42, 0x42, 0x43, 0x44] ++ c :: tail, true⟩ = ⟨c :: tail, true⟩ ∧
    (synchronise ⟨junk ++ [0x42, 0x42, 0x43, 0x44] ++ c :: tail, true⟩).rest =
      (junk ++ [0x42, 0x42, 0x43, 0x44] ++ c :: tail).drop (junk.length + 4) ∧
    (readDataUnit (synchronise ⟨junk ++ [0x42, 0x42, 0x43, 0x44] ++ c :: tail, true⟩)).1 =
      DataUnitType.ofParseCode c := by
  have hs : synchronise ⟨junk ++ [0x42, 0x42, 0x43, 0x44] ++ c :: tail, true⟩ =
      ⟨c :: tail, true⟩ := by
    have := synchronise_junk junk (c :: tail) hjunk
    simpa [List.append_assoc] using this
  refine ⟨hs, ?_, ?_⟩
  · rw [hs]
    have hlen : junk.length + 4 = (junk ++ [0x42, 0x42, 0x43, 0x44]).length := by simp
    rw [hlen, List.drop_left]
  · rw [hs, readDataUnit_fst, Nat.mod_eq_of_lt hc]

/-- Witness of C24 at the input `00 11 22 42 42 43 44 00 00 00 00 0E 00 00 00 00 ...`: the
three junk bytes are not `0x42`, the prefix is found at byte offset 3, seven bytes are
consumed, and the data unit read is a sequence header. -/
theorem synchronise_after_junk_witness :
    (∀ b ∈ [0x00, 0x11, 0x22], b ≠ 0x42) ∧ (0x00 : Nat) < 256 ∧
    (synchronise ⟨[0x00, 0x11, 0x22] ++ [0x42, 0x42, 0x43, 0x44] ++
        0x00 :: [0, 0, 0, 14, 0, 0, 0, 0, 0x88], true⟩).rest =
      ([0x00, 0x11, 0x22] ++ [0x42, 0x42, 0x43, 0x44] ++
        0x00 :: [0, 0, 0, 14, 0, 0, 0, 0, 0x88]).drop (3 + 4) ∧
    (readDataUnit (synchronise ⟨[0x00, 0x11, 0x22] ++ [0x42, 0x42, 0x43, 0x44] ++
        0x00 :: [0, 0, 0, 14, 0, 0, 0, 0, 0x88], true⟩)).1 = .SEQUENCE_HEADER :=
  ⟨by decide, by decide,
    (synchronise_after_junk [0x00, 0x11, 0x22] [0, 0, 0, 14, 0, 0, 0, 0, 0x88] 0x00
      (by decide) (by decide)).2.1,
    (synchronise_after_junk [0x00, 0x11, 0x22] [0, 0, 0, 14, 0, 0, 0, 0, 0x88] 0x00
      (by decide) (by decide)).2.2⟩

/-- C26: with `paddedSize(d, depth) = ceil(d / 2^depth) * 2^depth`, for positive slice sizes
and a wavelet depth that is not negative, the slice computation of the encoder and of the
decoder throws exactly when `ySize * 2^depth` does not divide the padded picture height or
`xSize * 2^depth` does not divide the padded width; when it returns slice counts,
`ySlices * ySize * 2^depth` is the padded picture height and `xSlices * xSize * 2^depth` is
the padded width. -/
theorem slicesPerPicture_error_iff (ySize xSize height width waveletDepth : Int)
    (interlaced : Bool) (hy : 0 < ySize) (hx : 0 < xSize) (hd : 0 ≤ waveletDepth) :
    (paddedSize (if interlaced then Int.tdiv height 2 else height) waveletDepth =
        ⌈((if interlaced then Int.tdiv height 2 else height : Int) : ℚ) /
          ((2 ^ waveletDepth.toNat : Int) : ℚ)⌉ * 2 ^ waveletDepth.toNat ∧
      paddedSize width waveletDepth =
        ⌈(width : ℚ) / ((2 ^ waveletDepth.toNat : Int) : ℚ)⌉ * 2 ^ waveletDepth.toNat) ∧
    ((∃ e, slicesPerPicture ySize xSize height width waveletDepth interlaced = .error e) ↔
      (¬ ySize * 2 ^ waveletDepth.toNat ∣
          paddedSize (if interlaced then Int.tdiv height 2 else height) waveletDepth ∨
        ¬ xSize * 2 ^ waveletDepth.toNat ∣ paddedSize width waveletDepth)) ∧
    (∀ ySlices xSlices,
      slicesPerPicture ySize xSize height width waveletDepth interlaced = .ok (ySlices, xSlices) →
        0 < ySize * 2 ^ waveletDepth.toNat ∧ 0 < xSize * 2 ^ waveletDepth.toNat ∧
        ySlices * ySize * 2 ^ waveletDepth.toNat =
          paddedSize (if interlaced then Int.tdiv height 2 else height) waveletDepth ∧
        xSlices * xSize * 2 ^ waveletDepth.toNat = paddedSize width waveletDepth) := by
  have _ := hd
  have hpy : 0 < ySize * 2 ^ waveletDepth.toNat := by positivity
  have hpx : 0 < xSize * 2 ^ waveletDepth.toNat := by positivity
  rw [slicesPerPicture_eq]
  refine ⟨⟨paddedSize_eq_ceil _ _, paddedSize_eq_ceil _ _⟩, ?_, ?_⟩
  · by_cases h1 : ySize * 2 ^ waveletDepth.toNat ∣
        paddedSize (if interlaced then Int.tdiv height 2 else height) waveletDepth
    · by_cases h2 : xSize * 2 ^ waveletDepth.toNat ∣ paddedSize width waveletDepth
      · simp [h1, h2]
      · simp [h1, h2]
    · simp [h1]
  · intro ySlices xSlices hok
    by_cases h1 : ySize * 2 ^ waveletDepth.toNat ∣
        paddedSize (if interlaced then Int.tdiv height 2 else height) waveletDepth
    · by_cases h2 : xSize * 2 ^ waveletDepth.toNat ∣ paddedSize width waveletDepth
      · simp only [h1, h2, not_true_eq_false, if_false, Except.ok.injEq, Prod.mk.injEq] at hok
        obtain ⟨e1, e2⟩ := hok
        refine ⟨hpy, hpx, ?_, ?_⟩
        · rw [← e1, mul_assoc]; exact Int.tdiv_mul_cancel h1
        · rw [← e2, mul_assoc]; exact Int.tdiv_mul_cancel h2
      · simp [h1, h2] at hok
    · simp [h1] at hok

/-- Witness of C26 at a 100-line, 8-pixel-wide progressive picture with wavelet depth 3 and
slice sizes 1 and 2: the padded height 104 is a multiple of 8 but the padded width 8 is not
a multiple of 16, and the computation throws. -/
theorem slicesPerPicture_error_iff_witness :
    (0 : Int) < 1 ∧ (0 : Int) < 2 ∧ (0 : Int) ≤ 3 ∧
    ((∃ e, slicesPerPicture 1 2 100 8 3 false = .error e) ↔
      (¬ (1 : Int) * 2 ^ (3 : Int).toNat ∣ paddedSize (if false then Int.tdiv 100 2 else 100) 3 ∨
        ¬ (2 : Int) * 2 ^ (3 : Int).toNat ∣ paddedSize 8 3)) ∧
    slicesPerPicture 1 2 100 8 3 false = .error "Padded width is not divisible by slice width" :=
  ⟨by decide, by decide, by decide,
    (slicesPerPicture_error_iff 1 2 100 8 3 false (by decide) (by decide) (by decide)).2.1,
    by decide⟩

/-- C27: for a 256x256 picture, 4:2:2, 8 bits, wavelet depth 3, compression rate 2, not
interlaced, both programs compute one byte per sample, `compressedBytes = 65536`,
`ySize = 1`, `xSize = 2`, and the slice computation passes both divisibility checks with
`ySlices = 32` and `xSlices = 16`. -/
theorem settings_256x256 :
    nbytes 8 = 1 ∧
    sliceSettings .CF422 256 256 (nbytes 8) 2 = some ⟨65536, 1, 2⟩ ∧
    paddedSize 256 3 = 256 ∧
    slicesPerPicture 1 2 256 256 3 false = .ok (32, 16) := by
  refine ⟨by decide, ?_, by decide, by decide⟩
  simp only [sliceSettings, nbytes]
  norm_num

/-- C28: for every picture budget that is not negative and all slice counts of at least 1,
the budgets of `slice_bytes` add up to the picture budget over all slices, and each budget
is the floor or the ceiling of `pictureBytes / (ySlices * xSlices)`. -/
theorem slice_bytes_sum (ySlices xSlices : Nat) (pictureBytes : Int)
    (hy : 1 ≤ ySlices) (hx : 1 ≤ xSlices) (hp : 0 ≤ pictureBytes) :
    (slice_bytes ySlices xSlices pictureBytes).rows = ySlices ∧
    (slice_bytes ySlices xSlices pictureBytes).cols = xSlices ∧
    ∑ r in Finset.range ySlices, ∑ c in Finset.range xSlices,
      (slice_bytes ySlices xSlices pictureBytes).get r c = pictureBytes ∧
    ∀ r c : Nat, r < ySlices → c < xSlices →
      (slice_bytes ySlices xSlices pictureBytes).get r c =
          ⌊(pictureBytes : ℚ) / (((ySlices : Int) * (xSlices : Int) : Int) : ℚ)⌋ ∨
        (slice_bytes ySlices xSlices pictureBytes).get r c =
          ⌈(pictureBytes : ℚ) / (((ySlices : Int) * (xSlices : Int) : Int) : ℚ)⌉ := by
  have _ := hp
  have hN : (0 : Int) < (ySlices : Int) * (xSlices : Int) := by positivity
  refine ⟨by simp [slice_bytes], by simp [slice_bytes], sliceBytes_sum _ _ _ hy hx, ?_⟩
  intro r c _ _
  rw [floor_div_eq _ _ hN, ceil_div_eq _ _ hN]
  simp only [slice_bytes, sliceBytes]
  have e : (r : Int) * xSlices + c + 1 = ((r : Int) * xSlices + c) + 1 := by ring
  rw [e]
  exact sliceBytes_floor_or_ceil _ _ _ hN

/-- Witness of C28 at the 256x256 scenario: 32 by 16 slices and 65536 bytes; the budgets add
up to 65536. -/
theorem slice_bytes_sum_witness :
    1 ≤ 32 ∧ 1 ≤ 16 ∧ (0 : Int) ≤ 65536 ∧
    ∑ r in Finset.range 32, ∑ c in Finset.range 16,
      (slice_bytes (32 : Nat) (16 : Nat) 65536).get r c = 65536 :=
  ⟨by decide, by decide, by decide,
    (slice_bytes_sum 32 16 65536 (by decide) (by decide) (by decide)).2.2.1⟩


/-- C29: for every sequence header whose video-format projection does not fail, the header
reconstructed from the projection with `hdr << fmt` exists and has the width, the height,
the interlace flag, the frame rate and the bit depth of the original; an LD or HQ profile is
recovered and an unknown profile comes back as LD. -/
theorem header_of_projection (h : SequenceHeader) (fmt : video_format)
    (hfmt : video_format.ofSequenceHeader h = .ok fmt) :
    ∃ hdr, SequenceHeader.ofVideoFormat fmt = .ok hdr ∧
      hdr.width = h.width ∧ hdr.height = h.height ∧ hdr.interlace = h.interlace ∧
      hdr.frameRate = h.frameRate ∧ hdr.bitdepth = h.bitdepth ∧
      (h.profile = .PROFILE_LD → hdr.profile = .PROFILE_LD) ∧
      (h.profile = .PROFILE_HQ → hdr.profile = .PROFILE_HQ) ∧
      (h.profile = .PROFILE_UNKNOWN → hdr.profile = .PROFILE_LD) := by
  obtain ⟨v0, hv0⟩ : ∃ v0 : video_format, v0 = { video_format.init with
      major_version := h.major_version
      minor_version := h.minor_version
      profile := match h.profile with
        | .PROFILE_LD => 0
        | .PROFILE_HQ => 3
        | .PROFILE_UNKNOWN => 0 } := ⟨_, rfl⟩
  have hfmt2 : (match video_format.customFallback h (video_format.matchPresets h v0) with
      | .error e => .error e
      | .ok v => .ok { v with picture_coding_mode := if h.interlace then 1 else 0 }) =
      (.ok fmt : Except String video_format) := by
    rw [hv0]
    exact hfmt
  clear hfmt
  have hd : v0.custom_dimensions_flag = false := by rw [hv0]; rfl
  have hs : v0.custom_scan_format_flag = false := by rw [hv0]; rfl
  have hr : v0.custom_signal_range_flag = false := by rw [hv0]; rfl
  have hf : v0.custom_frame_rate_flag = false := by rw [hv0]; rfl
  have hb : v0.base_video_format = 0 := by rw [hv0]; rfl
  have hp : v0.profile = match h.profile with
      | .PROFILE_LD => 0
      | .PROFILE_HQ => 3
      | .PROFILE_UNKNOWN => 0 := by rw [hv0]
  have hrec : ∀ v2, video_format.customFallback h (video_format.matchPresets h v0) = .ok v2 →
      ∃ hdr, SequenceHeader.ofVideoFormat v2 = .ok hdr ∧
        hdr.width = h.width ∧ hdr.height = h.height ∧ hdr.interlace = h.interlace ∧
        hdr.frameRate = h.frameRate ∧ hdr.bitdepth = h.bitdepth ∧
        hdr.profile = (if v0.profile = 0 then .PROFILE_LD
          else if v0.profile = 3 then .PROFILE_HQ else .PROFILE_UNKNOWN) := by
    intro v2 hc
    rcases matchPresets_recovers h v0 _ rfl hd hs hr hf with he | ⟨hne, hex⟩
    · rw [he] at hc
      exact customFallback_recovers h v0 v2 hb hd hs hr hf hc
    · unfold video_format.customFallback at hc
      rw [if_neg hne] at hc
      simp only [Except.ok.injEq] at hc
      rw [← hc]
      exact hex
  cases hc : video_format.customFallback h (video_format.matchPresets h v0) with
  | error e =>
    rw [hc] at hfmt2
    exact absurd hfmt2 (by simp)
  | ok v2 =>
    obtain ⟨hdr, hok, e1, e2, e3, e4, e5, e6⟩ := hrec v2 hc
    rw [hc] at hfmt2
    simp only [Except.ok.injEq] at hfmt2
    subst hfmt2
    refine ⟨hdr, hok, e1, e2, e3, e4, e5, ?_, ?_, ?_⟩
    · intro hpr
      rw [hpr] at hp
      rw [e6, hp]
      rfl
    · intro hpr
      rw [hpr] at hp
      rw [e6, hp]
      rfl
    · intro hpr
      rw [hpr] at hp
      rw [e6, hp]
      rfl

/-- Witness of C29 at the interlaced 720x483 header of the HQ profile, whose projection is
base video format 7 with custom dimensions: the reconstructed header has its width, height,
interlace flag, frame rate, bit depth and profile. -/
theorem header_of_projection_witness :
    video_format.ofSequenceHeader exampleNearHeader = .ok exampleNearFormat ∧
    ∃ hdr, SequenceHeader.ofVideoFormat exampleNearFormat = .ok hdr ∧
      hdr.width = exampleNearHeader.width ∧ hdr.height = exampleNearHeader.height ∧
      hdr.interlace = exampleNearHeader.interlace ∧
      hdr.frameRate = exampleNearHeader.frameRate ∧
      hdr.bitdepth = exampleNearHeader.bitdepth ∧
      (exampleNearHeader.profile = .PROFILE_LD → hdr.profile = .PROFILE_LD) ∧
      (exampleNearHeader.profile = .PROFILE_HQ → hdr.profile = .PROFILE_HQ) ∧
      (exampleNearHeader.profile = .PROFILE_UNKNOWN → hdr.profile = .PROFILE_LD) :=
  ⟨by decide, header_of_projection exampleNearHeader exampleNearFormat (by decide)⟩

/-- C30: for every sequence header with versions in the range of `int` and dimensions that
are not negative, whose projection `fmt` the writer accepts, the payload written is the
packed bits of `fmt`, a whole number of bytes with fewer than 8 padding bits, and reading a
default-constructed video format from the payload followed by any bytes yields `fmt` itself,
equal in every field, and leaves the stream right after the payload. -/
theorem video_format_write_read (h : SequenceHeader) (fmt : video_format)
    (bytes tail : List Nat)
    (hmaj : -2147483648 ≤ h.major_version ∧ h.major_version < 2147483648)
    (hmin : -2147483648 ≤ h.minor_version ∧ h.minor_version < 2147483648)
    (hw : 0 ≤ h.width ∧ h.width < 2147483648) (hh : 0 ≤ h.height ∧ h.height < 2147483648)
    (hfmt : video_format.ofSequenceHeader h = .ok fmt) (hbytes : h.payload = .ok bytes) :
    readVideoFormat ⟨bytes ++ tail, true⟩ video_format.init = .ok (fmt, ⟨tail, true⟩) ∧
    ∃ bits, fmt.bits = .ok bits ∧ bytes = packBits bits ∧
      8 * bytes.length = bits.length + (padBits bits).length ∧ (padBits bits).length < 8 := by
  have hwf : fmt.wellFormed :=
    ofSequenceHeader_wellFormed h fmt hfmt hmaj hmin ⟨by omega, hw.2⟩ ⟨by omega, hh.2⟩
  unfold SequenceHeader.payload at hbytes
  rw [hfmt] at hbytes
  simp only at hbytes
  cases hbits : fmt.bits with
  | error e =>
    rw [hbits] at hbytes
    exact absurd hbytes (by simp)
  | ok bits =>
    rw [hbits] at hbytes
    simp only [Except.ok.injEq] at hbytes
    subst hbytes
    refine ⟨readVideoFormat_written fmt hwf bits hbits tail, bits, rfl, rfl, ?_,
      padBits_length_lt bits⟩
    rw [← flatMap_bitsOfByte_length, flatMap_bitsOfByte_packBits, List.length_append]

/-- Witness of C30 at the interlaced 720x483 header of the HQ profile, followed in the
stream by the start of a parse-info: the nine bytes of the payload are read back as the
projection and the stream is left at the parse-info. -/
theorem video_format_write_read_witness :
    exampleNearHeader.payload = .ok [112, 176, 49, 68, 6, 168, 33, 0, 64] ∧
    readVideoFormat ⟨[112, 176, 49, 68, 6, 168, 33, 0, 64] ++ [0x42, 0x42, 0x43, 0x44], true⟩
      video_format.init = .ok (exampleNearFormat, ⟨[0x42, 0x42, 0x43, 0x44], true⟩) :=
  ⟨by decide,
    (video_format_write_read exampleNearHeader exampleNearFormat
      [112, 176, 49, 68, 6, 168, 33, 0, 64] [0x42, 0x42, 0x43, 0x44]
      (by decide) (by decide) (by decide) (by decide) (by decide) (by decide)).1⟩


/-- C31: in LD mode, for every wrapped picture with one of the seven real kernels and `int`
fields within the range of `int`, the bytes written are the stream's bytes, a 13-byte
parse-info and a payload; reading a `PicturePreamble` in LD mode from the payload, followed
by any bytes, succeeds and yields the picture number modulo `2^32`, the kernel, the depth,
`slices_x` and `slices_y` of the picture, slice prefix and slice size scalar 0 and the
rationalised slice bytes, and leaves the stream at the first byte of the slice data. -/
theorem LD_preamble_roundtrip (stream out : OStream) (d : WrappedPicture) (hdr : PicturePreamble)
    (tail : List Nat) (hmode : stream.sliceIOMode = .LD)
    (hout : writeWrappedPicture stream d = .ok out)
    (hk : d.wavelet_kernel ≠ .NullKernel) (hdepth : isInt d.depth)
    (hsx : isInt d.slices_x) (hsy : isInt d.slices_y)
    (hnum : isInt d.slice_bytes.numerator) (hden : isInt d.slice_bytes.denominator) :
    ∃ pinfo payload : List Nat,
      out.bytes = stream.bytes ++ pinfo ++ payload ∧ pinfo.length = 13 ∧
      payload = LDPreamble d ++ d.slices.write .LD ∧
      readPicturePreamble .LD hdr ⟨payload ++ tail, true⟩ =
        .ok ({ picture_number := d.picture_number % 4294967296
               wavelet_kernel := d.wavelet_kernel
               depth := d.depth
               slices_x := d.slices_x
               slices_y := d.slices_y
               slice_prefix := 0
               slice_size_scalar := 0
               slice_bytes := rationalise d.slice_bytes.numerator d.slice_bytes.denominator },
          ⟨d.slices.write .LD ++ tail, true⟩) := by
  simp only [writeWrappedPicture, hmode, Except.ok.injEq] at hout
  subst hout
  refine ⟨( ParseInfoIO.ofSize .LD_PICTURE (LDPayload .LD d).length).bytes
    stream.prev_parse_offset, LDPayload .LD d, ?_, ParseInfoIO.bytes_length _ _, rfl, ?_⟩
  · rw [LDWrappedPictureIO_bytes, hmode]
  · rw [readPicturePreamble_LDPayload, WaveletKernel.ofIndex_kernel_index _ _ hk,
      toInt_toUnsigned_of_isInt _ hdepth, toInt_toUnsigned_of_isInt _ hsx,
      toInt_toUnsigned_of_isInt _ hsy, toInt_toUnsigned_of_isInt _ hnum,
      toInt_toUnsigned_of_isInt _ hden]

/-- Witness of C31 at picture 1 (LeGall, depth 3, 16 by 32 slices, 128/1 slice bytes, three
bytes of slice data) written to a fresh LD stream and followed by the start of a
parse-info: the preamble is read back and the stream is left at the slice data. -/
theorem LD_preamble_roundtrip_witness :
    freshStream.sliceIOMode = .LD ∧
    ∃ pinfo payload : List Nat,
      ( LDWrappedPictureIO freshStream (examplePicture 3)).bytes =
        freshStream.bytes ++ pinfo ++ payload ∧ pinfo.length = 13 ∧
      payload = LDPreamble (examplePicture 3) ++ (examplePicture 3).slices.write .LD ∧
      readPicturePreamble .LD PicturePreamble.default ⟨payload ++ [0x42, 0x42], true⟩ =
        .ok ({ picture_number := 1 % 4294967296
               wavelet_kernel := .LeGall
               depth := 3
               slices_x := 16
               slices_y := 32
               slice_prefix := 0
               slice_size_scalar := 0
               slice_bytes := rationalise 128 1 },
          ⟨[0, 0, 0] ++ [0x42, 0x42], true⟩) :=
  ⟨rfl, LD_preamble_roundtrip freshStream ( LDWrappedPictureIO freshStream (examplePicture 3))
    (examplePicture 3) PicturePreamble.default [0x42, 0x42] rfl rfl (by decide) (by decide)
    (by decide) (by decide) (by decide) (by decide)⟩

/-- C32, counterexample: for an input whose head gives the encoder `height = 512` and
`width = 256`, the encoder writes 64 by 16 slices, while the decoder, whose slice counts come
from its constants 256 and 256, reads 32 by 16 slices from the start of the file. With the
example slice coder, and with every slice coder whose reader consumes what its writer
produced and whose slices are not empty, the decoder stops with the stream good and bytes of
the file unread. -/
theorem decoder_leaves_slices_unread :
    programGeometry .CF422 8 512 256 3 2 = .ok (64, 16, slice_bytes 64 16 131072) ∧
    programGeometry .CF422 8 256 256 3 2 = .ok (32, 16, slice_bytes 32 16 65536) ∧
    (∃ file rest, encoderFile exampleCodec 512 256 = .ok file ∧
      decoderReads exampleCodec file = .ok ⟨rest, true⟩ ∧ rest ≠ []) ∧
    (∀ coder : SliceCodec,
      (∀ row column budget scalar rest,
        coder.readSlice budget scalar
          ⟨coder.serialise row column budget scalar ++ rest, true⟩ = ⟨rest, true⟩) →
      (∀ row column budget scalar, coder.serialise row column budget scalar ≠ []) →
      ∃ file rest, encoderFile coder 512 256 = .ok file ∧
        decoderReads coder file = .ok ⟨rest, true⟩ ∧ rest ≠ []) := by
  have hgen : ∀ coder : SliceCodec,
      (∀ row column budget scalar rest,
        coder.readSlice budget scalar
          ⟨coder.serialise row column budget scalar ++ rest, true⟩ = ⟨rest, true⟩) →
      (∀ row column budget scalar, coder.serialise row column budget scalar ≠ []) →
      ∃ file rest, encoderFile coder 512 256 = .ok file ∧
        decoderReads coder file = .ok ⟨rest, true⟩ ∧ rest ≠ [] := by
    intro coder hround hne
    have hfile := encoderFile_eq coder 512 256 64 16 _ programGeometry_512
    have hsplit : writeSlicesHQ coder (slice_bytes 64 16 131072) 1 =
        ((List.range 32).flatMap fun (row : Nat) =>
          (List.range (slice_bytes 64 16 131072).cols).flatMap fun (column : Nat) =>
            coder.serialise row column ((slice_bytes 64 16 131072).get row column) 1) ++
        (((List.range 32).map fun (i : Nat) => 32 + i).flatMap fun (row : Nat) =>
          (List.range (slice_bytes 64 16 131072).cols).flatMap fun (column : Nat) =>
            coder.serialise row column ((slice_bytes 64 16 131072).get row column) 1) := by
      unfold writeSlicesHQ
      have hrows : (slice_bytes 64 16 131072).rows = 32 + 32 := rfl
      rw [hrows, List.range_add, List.flatMap_append]
    refine ⟨_, (((List.range 32).map fun (i : Nat) => 32 + i).flatMap fun (row : Nat) =>
      (List.range (slice_bytes 64 16 131072).cols).flatMap fun (column : Nat) =>
        coder.serialise row column ((slice_bytes 64 16 131072).get row column) 1), hfile, ?_, ?_⟩
    · unfold decoderReads
      rw [programGeometry_256]
      simp only
      rw [hsplit]
      rw [readSlicesHQ_writeSlicesHQ coder (slice_bytes 64 16 131072) (slice_bytes 32 16 65536)
        1 32 hround rfl rfl]
      intro row column _ _
      show sliceBytes 64 16 131072 row column = sliceBytes 32 16 65536 row column
      have e1 : sliceBytes 64 16 131072 row column = 128 := by
        exact_mod_cast sliceBytes_of_dvd 64 16 131072 128 row column (by decide) (by norm_num)
      have e2 : sliceBytes 32 16 65536 row column = 128 := by
        exact_mod_cast sliceBytes_of_dvd 32 16 65536 128 row column (by decide) (by norm_num)
      rw [e1, e2]
    · intro hnil
      rw [List.flatMap_eq_nil_iff] at hnil
      have h32 := hnil 32 (by simp)
      rw [List.flatMap_eq_nil_iff] at h32
      exact hne _ _ _ _ (h32 0 (by simp [slice_bytes]))
  exact ⟨programGeometry_512, programGeometry_256,
    hgen exampleCodec exampleCodec_round (by intro _ _ _ _; simp [exampleCodec]), hgen⟩

/-- C32, amended: writing a wrapped picture while the stream is in HQ CBR or HQ VBR mode
succeeds, appends the bytes of serialising its slices in that mode and nothing else, and
leaves the stored previous parse offset, the mode and the record of parse-infos as they
were, so the file the encoder program writes is the serialised slices alone. When the head
of the encoder's input gave `height = width = 256`, the slice counts and budgets of the
decoder, and the slice reader consumes what the slice writer produced, the decoder is left at
the end of that file with the stream good. -/
theorem HQWrappedPictureIO_frame (stream : OStream) (d : WrappedPicture) (coder : SliceCodec)
    (hmode : stream.sliceIOMode = .HQCBR ∨ stream.sliceIOMode = .HQVBR)
    (hround : ∀ row column budget scalar rest,
      coder.readSlice budget scalar
        ⟨coder.serialise row column budget scalar ++ rest, true⟩ = ⟨rest, true⟩) :
    writeWrappedPicture stream d =
      .ok { stream with bytes := stream.bytes ++ d.slices.write stream.sliceIOMode } ∧
    encoderWrites d =
      .ok { bytes := d.slices.write .HQCBR, prev_parse_offset := 0, sliceIOMode := .HQCBR,
            infos := [] } ∧
    ∃ outWrapped file, encoderPicture coder 256 256 = .ok outWrapped ∧
      encoderFile coder 256 256 = .ok file ∧ file = outWrapped.slices.write .HQCBR ∧
      file = writeSlicesHQ coder (slice_bytes 32 16 65536) 1 ∧
      decoderReads coder file = .ok ⟨[], true⟩ := by
  refine ⟨?_, rfl, ?_⟩
  · rcases hmode with hm | hm <;>
      simp [writeWrappedPicture, hm, HQWrappedPictureIO, OStream.writeBytes]
  · have hpic : encoderPicture coder 256 256 =
        .ok { picture_number := 1, wavelet_kernel := .LeGall, depth := 3, slices_x := 16,
              slices_y := 32, slice_prefix := 0, slice_size_scalar := 1, slice_bytes := ⟨0, 1⟩,
              slices := ⟨fun _ => writeSlicesHQ coder (slice_bytes 32 16 65536) 1⟩ } := by
      unfold encoderPicture
      rw [programGeometry_256]
    refine ⟨_, _, hpic, encoderFile_eq coder 256 256 32 16 _ programGeometry_256, rfl, rfl, ?_⟩
    unfold decoderReads
    rw [programGeometry_256]
    simp only
    have h := readSlicesHQ_writeSlicesHQ coder (slice_bytes 32 16 65536)
      (slice_bytes 32 16 65536) 1 32 hround rfl rfl (fun _ _ _ _ => rfl) []
    rw [List.append_nil] at h
    exact congrArg Except.ok h

/-- Witness of C32 (amended) at picture 1 with two bytes of slice data on a fresh HQ CBR
stream and the example slice coder: the write appends the two bytes, and the decoder is left
at the end of the file the encoder writes for a 256 by 256 input. -/
theorem HQWrappedPictureIO_frame_witness :
    (hqStream.sliceIOMode = .HQCBR ∨ hqStream.sliceIOMode = .HQVBR) ∧
    writeWrappedPicture hqStream (examplePicture 2) =
      .ok { hqStream with
        bytes := hqStream.bytes ++ (examplePicture 2).slices.write hqStream.sliceIOMode } ∧
    ∃ outWrapped file, encoderPicture exampleCodec 256 256 = .ok outWrapped ∧
      encoderFile exampleCodec 256 256 = .ok file ∧ file = outWrapped.slices.write .HQCBR ∧
      file = writeSlicesHQ exampleCodec (slice_bytes 32 16 65536) 1 ∧
      decoderReads exampleCodec file = .ok ⟨[], true⟩ :=
  ⟨Or.inl rfl,
    (HQWrappedPictureIO_frame hqStream (examplePicture 2) exampleCodec (Or.inl rfl)
      exampleCodec_round).1,
    (HQWrappedPictureIO_frame hqStream (examplePicture 2) exampleCodec (Or.inl rfl)
      exampleCodec_round).2.2⟩

/-- C21, amended: for every parse-info whose type is neither padding data nor the unknown
data unit, `ParseInfoIO::parse_code` is the code of the specification's table; padding data
takes the default `0x20`, which is not its code in the table. The parse-infos the library
writes, for the end of a sequence, an LD picture and a sequence header, carry the codes
`0x10`, `0xC8` and `0x00` of the table. -/
theorem parse_code_in_table ( piio : ParseInfoIO) :
    (piio.type ≠ .PADDING_DATA → piio.type ≠ .UNKNOWN_DATA_UNIT →
      (piio.type, piio.parse_code) ∈ parse_code_table) ∧
    (piio.type = .PADDING_DATA →
      piio.parse_code = 0x20 ∧ (piio.type, piio.parse_code) ∉ parse_code_table) ∧
    (∀ stream : OStream, ∃ record, (end_sequence stream).infos = stream.infos ++ [record] ∧
      (DataUnitType.END_OF_SEQUENCE, record.parse_code) ∈ parse_code_table) ∧
    (∀ (stream : OStream) (d : WrappedPicture),
      ∃ record, ( LDWrappedPictureIO stream d).infos = stream.infos ++ [record] ∧
        (DataUnitType.LD_PICTURE, record.parse_code) ∈ parse_code_table) ∧
    (∀ (stream out : OStream) (s : SequenceHeader), writeSequenceHeader stream s = .ok out →
      ∃ record, out.infos = stream.infos ++ [record] ∧
        (DataUnitType.SEQUENCE_HEADER, record.parse_code) ∈ parse_code_table) := by
  refine ⟨?_, ?_, ?_, ?_, ?_⟩
  · intro h1 h2
    obtain ⟨type, next⟩ := piio
    cases type <;> first
      | exact absurd rfl h1
      | exact absurd rfl h2
      | simp [ ParseInfoIO.parse_code, parse_code_table]
  · intro h1
    obtain ⟨type, next⟩ := piio
    simp only at h1
    subst h1
    simp [ ParseInfoIO.parse_code, parse_code_table]
  · intro stream
    exact ⟨_, rfl, by simp [ ParseInfoIO.parse_code, ParseInfoIO.ofType, parse_code_table]⟩
  · intro stream d
    exact ⟨_, LDWrappedPictureIO_infos stream d, by simp [parse_code_table]⟩
  · intro stream out s hout
    obtain ⟨payload, _, hout2⟩ := writeSequenceHeader_ok stream s out hout
    subst hout2
    exact ⟨_, rfl, by simp [ ParseInfoIO.parse_code, ParseInfoIO.ofSize, parse_code_table]⟩

/-- Witness of C21 (amended) at the parse-info of an LD picture with 13 bytes of payload
and at the end of a sequence written to a stream left with a stale previous offset: the
parse codes are `0xC8` and `0x10`, both in the table. -/
theorem parse_code_in_table_witness :
    (( ParseInfoIO.ofSize .LD_PICTURE 13).type, ( ParseInfoIO.ofSize .LD_PICTURE 13).parse_code) ∈
      parse_code_table ∧
    ( ParseInfoIO.ofSize .LD_PICTURE 13).parse_code = 0xC8 ∧
    ∃ record, (end_sequence exampleStream).infos = exampleStream.infos ++ [record] ∧
      (DataUnitType.END_OF_SEQUENCE, record.parse_code) ∈ parse_code_table :=
  ⟨(parse_code_in_table ( ParseInfoIO.ofSize .LD_PICTURE 13)).1 (by decide) (by decide),
    by decide,
    (parse_code_in_table ( ParseInfoIO.ofSize .LD_PICTURE 13)).2.2.1 exampleStream⟩


/-- C33: for every sequence header whose projection does not fail, the header reconstructed
from the projection exists; when the projection has `base_video_format = 0` its chroma
format is 4:2:0 whatever the chroma format of the original, and when the projection has a
non-zero `base_video_format` its chroma format is that of the original. -/
theorem reconstructed_chroma_format (h : SequenceHeader) (fmt : video_format)
    (hfmt : video_format.ofSequenceHeader h = .ok fmt) :
    ∃ hdr, SequenceHeader.ofVideoFormat fmt = .ok hdr ∧
      (fmt.base_video_format = 0 → hdr.chromaFormat = .CF420) ∧
      (fmt.base_video_format ≠ 0 → hdr.chromaFormat = h.chromaFormat) := by
  rw [ofSequenceHeader_eq] at hfmt
  have hofpcm : ∀ (v : video_format) (x : Int),
      SequenceHeader.ofVideoFormat { v with picture_coding_mode := x } =
        SequenceHeader.ofVideoFormat v := fun _ _ => rfl
  rcases matchPresets_facts h (video_format.ofVersions h) _ rfl with he | ⟨hne, ⟨hdr0, hb, hcf⟩, _⟩
  · rw [he] at hfmt
    rcases customFallback_of_base_eq h (video_format.ofVersions h) rfl rfl with
      ⟨_, herr⟩ | ⟨_, v2, hok, hb2, _⟩
    · rw [herr] at hfmt
      exact absurd hfmt (by simp)
    · rw [hok] at hfmt
      simp only [Except.ok.injEq] at hfmt
      subst hfmt
      have hb0 : SequenceHeader.ofBase v2.base_video_format =
          .ok (SequenceHeader.make .PROFILE_UNKNOWN 480 640 .CF420 false .FR24000_1001 false 8) := by
        rw [hb2]
        rfl
      obtain ⟨hdr, hok2, hch⟩ := ofVideoFormat_chromaFormat v2 _ hb0
      refine ⟨hdr, by rw [hofpcm]; exact hok2, fun _ => hch, fun hne => absurd hb2 hne⟩
  · rw [customFallback_of_base_ne h _ hne] at hfmt
    simp only [Except.ok.injEq] at hfmt
    subst hfmt
    obtain ⟨hdr, hok2, hch⟩ := ofVideoFormat_chromaFormat _ hdr0 hb
    refine ⟨hdr, by rw [hofpcm]; exact hok2, fun h0 => absurd h0 hne, fun _ => hch.trans hcf⟩

/-- Witness of C33 at a 1000x500 4:4:4 header, which matches no preset: its projection has
`base_video_format = 0` and the reconstructed header is 4:2:0, not 4:4:4. -/
theorem reconstructed_chroma_format_witness :
    video_format.ofSequenceHeader exampleCustom444Header = .ok exampleCustom444Format ∧
    exampleCustom444Format.base_video_format = 0 ∧
    exampleCustom444Header.chromaFormat = .CF444 ∧
    ∃ hdr, SequenceHeader.ofVideoFormat exampleCustom444Format = .ok hdr ∧
      (exampleCustom444Format.base_video_format = 0 → hdr.chromaFormat = .CF420) ∧
      (exampleCustom444Format.base_video_format ≠ 0 →
        hdr.chromaFormat = exampleCustom444Header.chromaFormat) :=
  ⟨by decide, by decide, by decide,
    reconstructed_chroma_format exampleCustom444Header exampleCustom444Format (by decide)⟩

/-- C34: writing a sequence header throws exactly when the preset tests of the projection
leave `base_video_format` at 0 and the bit depth is not 8, 10 or 12 or the frame rate is not
one of the eleven rates of the list; in every other case the write returns a stream, so a
header that hits a preset test is always written. -/
theorem writeSequenceHeader_fails_iff (stream : OStream) (h : SequenceHeader) :
    ((∃ e, writeSequenceHeader stream h = .error e) ↔
      ((video_format.matchPresets h (video_format.ofVersions h)).base_video_format = 0 ∧
        (¬ (h.bitdepth = 8 ∨ h.bitdepth = 10 ∨ h.bitdepth = 12) ∨
          h.frameRate ∉ frame_rate_table))) ∧
    ((¬ ∃ e, writeSequenceHeader stream h = .error e) →
      ∃ out, writeSequenceHeader stream h = .ok out) ∧
    ((video_format.matchPresets h (video_format.ofVersions h)).base_video_format ≠ 0 →
      ∃ out, writeSequenceHeader stream h = .ok out) := by
  have hpay : ∀ bytes, h.payload = .ok bytes →
      ∃ out, writeSequenceHeader stream h = .ok out := by
    intro bytes hb
    unfold writeSequenceHeader
    rw [hb]
    exact ⟨_, rfl⟩
  have hpayerr : ∀ e, h.payload = .error e → writeSequenceHeader stream h = .error e := by
    intro e hb
    unfold writeSequenceHeader
    rw [hb]
  have hbits : ∀ fmt, video_format.ofSequenceHeader h = .ok fmt →
      (fmt.custom_frame_rate_flag = true → fmt.frame_rate ≠ .FR0) →
      ∃ bytes, h.payload = .ok bytes := by
    intro fmt hfmt hrate
    unfold SequenceHeader.payload
    rw [hfmt]
    cases hb : fmt.bits with
    | error e =>
      have := (bits_error_iff fmt).1 ⟨e, hb⟩
      exact absurd this.2 (hrate this.1)
    | ok bits =>
      simp only
      rw [hb]
      exact ⟨_, rfl⟩
  have hbitserr : ∀ fmt, video_format.ofSequenceHeader h = .ok fmt →
      fmt.custom_frame_rate_flag = true → fmt.frame_rate = .FR0 →
      ∃ e, h.payload = .error e := by
    intro fmt hfmt hflag hrate
    obtain ⟨e, he⟩ := (bits_error_iff fmt).2 ⟨hflag, hrate⟩
    unfold SequenceHeader.payload
    rw [hfmt]
    simp only [he]
    exact ⟨e, rfl⟩
  have hmain : ((∃ e, writeSequenceHeader stream h = .error e) ↔
      ((video_format.matchPresets h (video_format.ofVersions h)).base_video_format = 0 ∧
        (¬ (h.bitdepth = 8 ∨ h.bitdepth = 10 ∨ h.bitdepth = 12) ∨
          h.frameRate ∉ frame_rate_table))) ∧
      ((video_format.matchPresets h (video_format.ofVersions h)).base_video_format ≠ 0 →
        ∃ out, writeSequenceHeader stream h = .ok out) := by
    rcases matchPresets_facts h (video_format.ofVersions h) _ rfl with
      he | ⟨hne, _, hrate⟩
    · have hb0 : (video_format.matchPresets h (video_format.ofVersions h)).base_video_format = 0 := by
        rw [he]
        rfl
      refine ⟨?_, fun hne => absurd hb0 hne⟩
      rcases customFallback_of_base_eq h (video_format.ofVersions h) rfl rfl with
        ⟨hbd, herr⟩ | ⟨hbd, v2, hok, hb2, hflag, hfr⟩
      · have hproj : video_format.ofSequenceHeader h = .error "DataUnitIO: invalid bit depth" := by
          rw [ofSequenceHeader_eq, he, herr]
        have hp : h.payload = .error "DataUnitIO: invalid bit depth" := by
          unfold SequenceHeader.payload
          rw [hproj]
        exact ⟨fun _ => ⟨hb0, Or.inl hbd⟩, fun _ => ⟨_, hpayerr _ hp⟩⟩
      · have hproj : video_format.ofSequenceHeader h =
            .ok { v2 with picture_coding_mode := if h.interlace then 1 else 0 } := by
          rw [ofSequenceHeader_eq, he, hok]
        by_cases hr0 : h.frameRate = .FR0
        · have hfl : v2.custom_frame_rate_flag = true := hflag.2 (by rw [hr0]; decide)
          obtain ⟨e, he2⟩ := hbitserr _ hproj hfl ((hfr hfl).trans hr0)
          exact ⟨fun _ => ⟨hb0, Or.inr ((not_mem_frame_rate_table _).2 hr0)⟩,
            fun _ => ⟨e, hpayerr _ he2⟩⟩
        · obtain ⟨bytes, hbytes⟩ := hbits _ hproj (fun hfl => by
            show v2.frame_rate ≠ .FR0
            rw [hfr hfl]
            exact hr0)
          obtain ⟨out, hout⟩ := hpay bytes hbytes
          constructor
          · rintro ⟨e, he2⟩
            rw [hout] at he2
            exact absurd he2 (by simp)
          · rintro ⟨_, hbad | hbad⟩
            · exact absurd hbd hbad
            · exact absurd ((not_mem_frame_rate_table _).1 hbad) hr0
    · have hproj : video_format.ofSequenceHeader h =
          .ok { video_format.matchPresets h (video_format.ofVersions h) with
            picture_coding_mode := if h.interlace then 1 else 0 } := by
        rw [ofSequenceHeader_eq, customFallback_of_base_ne h _ hne]
      obtain ⟨bytes, hbytes⟩ := hbits _ hproj (fun hfl => by
        rcases hrate hfl with h1 | h1
        · exact absurd (show (false : Bool) = true from h1) (by decide)
        · show (video_format.matchPresets h (video_format.ofVersions h)).frame_rate ≠ .FR0
          rw [h1]
          decide)
      obtain ⟨out, hout⟩ := hpay bytes hbytes
      refine ⟨?_, fun _ => ⟨out, hout⟩⟩
      constructor
      · rintro ⟨e, he2⟩
        rw [hout] at he2
        exact absurd he2 (by simp)
      · rintro ⟨hb0, _⟩
        exact absurd hb0 hne
  refine ⟨hmain.1, ?_, hmain.2⟩
  intro hno
  cases hw : writeSequenceHeader stream h with
  | error e => exact absurd ⟨e, hw⟩ hno
  | ok out => exact ⟨out, rfl⟩


/-- C35: in the encoder's conversion from RGB, for all `R`, `G`, `B` from 0 to 255 the luma
lies between 16 and 235 and both chroma values lie between 16 and 240, so with
`MaxValue = 255` the clipping expression returns each of them unchanged. -/
theorem rgb_conversion_range (R G B : Int) (hR : 0 ≤ R ∧ R ≤ 255) (hG : 0 ≤ G ∧ G ≤ 255)
    (hB : 0 ≤ B ∧ B ≤ 255) :
    (16 ≤ rgbToY R G B ∧ rgbToY R G B ≤ 235) ∧
    (16 ≤ rgbToU R G B ∧ rgbToU R G B ≤ 240) ∧
    (16 ≤ rgbToV R G B ∧ rgbToV R G B ≤ 240) ∧
    clipToMax (rgbToY R G B) 255 = rgbToY R G B ∧
    clipToMax (rgbToU R G B) 255 = rgbToU R G B ∧
    clipToMax (rgbToV R G B) 255 = rgbToV R G B := by
  have hY : 16 ≤ rgbToY R G B ∧ rgbToY R G B ≤ 235 := by
    unfold rgbToY
    rw [shiftRight_eight]
    omega
  have hU : 16 ≤ rgbToU R G B ∧ rgbToU R G B ≤ 240 := by
    unfold rgbToU
    rw [shiftRight_eight]
    omega
  have hV : 16 ≤ rgbToV R G B ∧ rgbToV R G B ≤ 240 := by
    unfold rgbToV
    rw [shiftRight_eight]
    omega
  refine ⟨hY, hU, hV, ?_, ?_, ?_⟩
  · unfold clipToMax
    rw [if_neg (by omega), if_neg (by omega)]
  · unfold clipToMax
    rw [if_neg (by omega), if_neg (by omega)]
  · unfold clipToMax
    rw [if_neg (by omega), if_neg (by omega)]

/-- Witness of C35 at pure blue, `R = 0`, `G = 0`, `B = 255`: the luma is 41, the first
chroma reaches the upper bound 240 and the second is 110. -/
theorem rgb_conversion_range_witness :
    ((0 : Int) ≤ 0 ∧ (0 : Int) ≤ 255) ∧ ((0 : Int) ≤ 255 ∧ (255 : Int) ≤ 255) ∧
    rgbToY 0 0 255 = 41 ∧ rgbToU 0 0 255 = 240 ∧ rgbToV 0 0 255 = 110 ∧
    (16 ≤ rgbToU 0 0 255 ∧ rgbToU 0 0 255 ≤ 240) ∧
    clipToMax (rgbToU 0 0 255) 255 = rgbToU 0 0 255 :=
  ⟨by decide, by decide, by decide, by decide, by decide,
    (rgb_conversion_range 0 0 255 (by decide) (by decide) (by decide)).2.1,
    (rgb_conversion_range 0 0 255 (by decide) (by decide) (by decide)).2.2.2.2.1⟩

/-- C36, as the code behaves: for a file that starts `P6 640 480 255`, the head of a picture
640 wide and 480 high, the encoder sets `height` from the first integer and `width` from the
second, so it takes the picture as 480 wide and 640 high; and the decoder writes the height
before the width, so a picture 640 wide and 480 high gets the head `P6 480 640 255`. -/
theorem ppm_header_height_first :
    readPPMHeader "P6" [640, 480, 255] =
      some { headP6 := "P6", height := 640, width := 480, MaxValue := 255 } ∧
    writePPMHeader 480 640 255 = ("P6", [480, 640, 255]) ∧
    (∀ (magic : String) (first second third : Int) (rest : List Int),
      ∃ p, readPPMHeader magic (first :: second :: third :: rest) = some p ∧
        p.height = first ∧ p.width = second) ∧
    (∀ height width MaxValue : Int,
      (writePPMHeader height width MaxValue).2 = [height, width, MaxValue]) := by
  refine ⟨by decide, by decide, ?_, ?_⟩
  · intro magic first second third rest
    exact ⟨_, rfl, rfl, rfl⟩
  · intro height width MaxValue
    rfl

/-- C37: in the encoder's 4:2:2 conversion with an even width of at least 2, and in its
4:2:0 conversion with an even width and an even height of at least 2, every access to the
line buffers, the image buffers and the chroma planes is inside the allocated extent; for an
odd width and at least one line, the 4:2:2 conversion writes the chroma plane of
`width / 2` columns at column `(width - 1) / 2`, which is outside it. -/
theorem colour_conversion_accesses (height width : Nat) :
    (width % 2 = 0 → 2 ≤ width →
      ∀ a ∈ accesses422 height width, a.inExtent height width height (width / 2)) ∧
    (width % 2 = 0 → 2 ≤ width → height % 2 = 0 → 2 ≤ height →
      ∀ a ∈ accesses420 height width, a.inExtent height width (height / 2) (width / 2)) ∧
    (width % 2 = 1 → 1 ≤ height →
      (⟨.UArray, 0, (((width - 1) / 2 : Nat) : Int), true⟩ : Access) ∈
          accesses422 height width ∧
        (width - 1) / 2 = width / 2 ∧
        ¬ (⟨.UArray, 0, (((width - 1) / 2 : Nat) : Int), true⟩ : Access).inExtent
          height width height (width / 2)) := by
  refine ⟨?_, ?_, ?_⟩
  · intro hw _ a ha
    simp only [accesses422, List.mem_append, List.mem_flatMap, List.mem_range, List.mem_cons,
      List.mem_singleton, List.not_mem_nil, or_false, mem_evens] at ha
    rcases ha with ha | ⟨line, hl, ha | ⟨pixel, ⟨hp2, hp⟩, ha | rfl | rfl⟩⟩
    · exact sentinelAccesses_inExtent _ _ _ _ a ha
    · exact copyLineAccesses_inExtent _ _ _ _ a ha
    · exact filterLineReads_inExtent _ _ _ _ pixel a hp ha
    · simp only [Access.inExtent]
      omega
    · simp only [Access.inExtent]
      omega
  · intro hw _ hh _ a ha
    simp only [accesses420, List.mem_append, List.mem_flatMap, List.mem_range, List.mem_cons,
      List.mem_singleton, List.not_mem_nil, or_false, mem_evens] at ha
    rcases ha with (((ha | ha) | ha) | ⟨line, hl, ha | ⟨pixel, ⟨hp2, hp⟩, ha | rfl | rfl⟩⟩) |
      ⟨line, ⟨hl2, hl⟩, pixel, ⟨hp2, hp⟩, rfl | rfl | rfl | rfl | rfl | rfl | rfl | rfl⟩
    · exact sentinelAccesses_inExtent _ _ _ _ a ha
    · exact fillAccesses_inExtent _ _ _ _ a .UImage (Or.inl rfl) ha
    · exact fillAccesses_inExtent _ _ _ _ a .VImage (Or.inr rfl) ha
    · exact copyLineAccesses_inExtent _ _ _ _ a ha
    · exact filterLineReads_inExtent _ _ _ _ pixel a hp ha
    all_goals
      first
        | exact (imageAccess_inExtent _ _ _ _ line pixel hl hp .UImage (Or.inl rfl) _).1
        | exact (imageAccess_inExtent _ _ _ _ line pixel hl hp .UImage (Or.inl rfl) _).2.1
        | exact (imageAccess_inExtent _ _ _ _ line pixel hl hp .UImage (Or.inl rfl) _).2.2
        | exact (imageAccess_inExtent _ _ _ _ line pixel hl hp .VImage (Or.inr rfl) _).1
        | exact (imageAccess_inExtent _ _ _ _ line pixel hl hp .VImage (Or.inr rfl) _).2.1
        | exact (imageAccess_inExtent _ _ _ _ line pixel hl hp .VImage (Or.inr rfl) _).2.2
        | (simp only [Access.inExtent]; omega)
  · intro hw hh
    refine ⟨?_, by omega, ?_⟩
    · simp only [accesses422, List.mem_append, List.mem_flatMap, List.mem_range, List.mem_cons,
        List.mem_singleton, List.not_mem_nil, or_false, mem_evens]
      refine Or.inr ⟨0, by omega, Or.inr ⟨width - 1, ⟨by omega, by omega⟩, Or.inr (Or.inl ?_)⟩⟩
      simp
    · simp only [Access.inExtent]
      omega

/-- Witness of C37 at 2 lines of 4 pixels and at 1 line of 3 pixels: all accesses of the
4:2:2 conversion of the first are inside the extents, and the second writes column 1 of a
chroma plane that has one column. -/
theorem colour_conversion_accesses_witness :
    (∀ a ∈ accesses422 2 4, a.inExtent 2 4 2 (4 / 2)) ∧
    ((⟨.UArray, 0, (((3 - 1) / 2 : Nat) : Int), true⟩ : Access) ∈ accesses422 1 3 ∧
      (3 - 1) / 2 = 3 / 2 ∧
      ¬ (⟨.UArray, 0, (((3 - 1) / 2 : Nat) : Int), true⟩ : Access).inExtent 1 3 1 (3 / 2)) :=
  ⟨(colour_conversion_accesses 2 4).1 (by decide) (by decide),
    (colour_conversion_accesses 1 3).2.2 (by decide) (by decide)⟩

end VC2
